import Mathlib

/-!
# Vote admission of the voting API

A shallow embedding of the backend of the voting demo: the request values that
reach the controllers, the two document stores (proposals and votes), the
in-memory ledger used by `blockchainService` (its `useMock` flag is set in the
constructor and `initialize` has no caller, so the mock is the ledger the API
talks to), the handlers of the three controllers, the methods of the two
models, the request validation and the error middleware.

Conventions of the embedding.

* A JavaScript number is a rational that is an IEEE double; `NaN` is a value
  of its own.  The infinities are the rationals `twoPow1024` and `-twoPow1024`
  (`2 ^ 1024`, the value a sum or a literal overflows to), and a rational of
  at least that magnitude is read as an infinity.  Arithmetic rounds to the
  nearest double, a tie going to the even significand (`toNumber`).
* Randomness (`Math.random`), the clock (`Date.now`) and the fresh document
  identifier are inputs of each operation, collected in `Draw`.
* A store is the list of its documents in insertion order; `findOne` returns
  the first match.  Store bookkeeping (`updatedAt`, `__v`) is left out.
* Requests run one after the other.
-/

namespace Voting

set_option maxRecDepth 10000
set_option exponentiation.threshold 2000

/-! ## JavaScript values -/

/-- A value found in a JSON request body, or produced from one by the code. -/
inductive JsValue where
  | undefined
  | null
  | bool (b : Bool)
  | num (q : ℚ)
  | nan
  | str (s : String)
deriving DecidableEq

/-- The test `if (v)`: every value is truthy except `undefined`, `null`,
`false`, `0`, `NaN` and the empty string. -/
def JsValue.truthy : JsValue → Bool
  | .undefined => false
  | .null => false
  | .bool b => b
  | .num q => decide (q ≠ 0)
  | .nan => false
  | .str s => decide (s ≠ "")

/-- Code points that `parseInt` and `Number` skip as white space
(WhiteSpace and LineTerminator of the language specification). -/
def isJsWhiteSpace (c : Char) : Bool :=
  c.toNat ∈ [0x09, 0x0A, 0x0B, 0x0C, 0x0D, 0x20, 0xA0, 0x1680, 0x2028, 0x2029,
    0x202F, 0x205F, 0x3000, 0xFEFF] || (0x2000 ≤ c.toNat && c.toNat ≤ 0x200A)

/-- The value of `c` as a digit in a radix up to 36, if it is one. -/
def digitValue (c : Char) : Option Nat :=
  if 48 ≤ c.toNat ∧ c.toNat ≤ 57 then some (c.toNat - 48)
  else if 97 ≤ c.toNat ∧ c.toNat ≤ 122 then some (c.toNat - 87)
  else if 65 ≤ c.toNat ∧ c.toNat ≤ 90 then some (c.toNat - 55)
  else none

/-- Whether `c` is a digit of the given radix. -/
def isRadixDigit (radix : Nat) (c : Char) : Bool :=
  match digitValue c with
  | some d => decide (d < radix)
  | none => false

/-- The number written by a list of digits of the given radix. -/
def digitsValue (radix : Nat) (cs : List Char) : Nat :=
  cs.foldl (fun acc c => acc * radix + (digitValue c).getD 0) 0

/-- Splits an optional leading sign off: the sign is `true` for a minus. -/
def takeSign : List Char → Bool × List Char
  | '-' :: cs => (true, cs)
  | '+' :: cs => (false, cs)
  | cs => (false, cs)

/-- Applies a sign to a magnitude. -/
def applySign (neg : Bool) (n : Nat) : Int :=
  if neg then -(n : Int) else (n : Int)

/-- The decimal digits of a natural number. -/
def natDigits (n : Nat) : String :=
  String.mk (Nat.toDigits 10 n)

/-! ## Double-precision numbers -/

/-- The quotient `a / b` rounded to the nearest natural number, a tie going to
the even one. -/
def roundHalfEven (a b : Nat) : Nat :=
  if 2 * (a % b) < b then a / b
  else if b < 2 * (a % b) then a / b + 1
  else if a / b % 2 = 0 then a / b else a / b + 1

/-- Halving `n` until it is below 2, at most `fuel` times: the number of
halvings. -/
def halvings : Nat → Nat → Nat
  | 0, _ => 0
  | fuel + 1, n => if n < 2 then 0 else halvings fuel (n / 2) + 1

/-- The integer part of the binary logarithm of a positive number. -/
def log2Floor (n : Nat) : Nat := halvings n n

/-- The exponent `e` with `2 ^ e ≤ a / b < 2 ^ (e + 1)`, for positive `a` and `b`. -/
def binaryExponent (a b : Nat) : Int :=
  let e : Int := (log2Floor a : Int) - (log2Floor b : Int)
  if (if 0 ≤ e then decide (b * 2 ^ e.toNat ≤ a) else decide (b ≤ a * 2 ^ (-e).toNat)) then e
  else e - 1

/-- The double nearest to the positive quotient `a / b`, as a significand `m`
and an exponent `e` (the value is `m * 2 ^ e`): 53 binary digits, exponent not
below -1074, a tie going to the even significand. -/
def doubleParts (a b : Nat) : Nat × Int :=
  let e := max (binaryExponent a b - 52) (-1074)
  (if 0 ≤ e then roundHalfEven a (b * 2 ^ e.toNat) else roundHalfEven (a * 2 ^ (-e).toNat) b, e)

/-- The number `2 ^ 1024`, the first power of two beyond the doubles.  The
rationals `twoPow1024` and `-twoPow1024` stand for `Infinity` and `-Infinity`. -/
def twoPow1024 : Nat :=
  179769313486231590772930519078902473361797697894230657273430081157732675805500963132708477322407536021120113879871393357658789768814416622492847430639474124377767893424865485276302219601246094119453082952085005768838150682342462881473913110540827237163350510684586298239947245938479716304835356329624224137216

/-- The Number value of the quotient `a / b` with the given sign: the nearest
double, and an infinity when that is out of range. -/
def toNumberFrac (negative : Bool) (a b : Nat) : ℚ :=
  if a = 0 ∨ b = 0 then 0
  else
    let r : ℚ :=
      if 0 ≤ (doubleParts a b).2 then
        (((doubleParts a b).1 * 2 ^ (doubleParts a b).2.toNat : Nat) : ℚ)
      else mkRat (doubleParts a b).1 (2 ^ (-(doubleParts a b).2).toNat)
    let c : ℚ := if (twoPow1024 : ℚ) ≤ r then (twoPow1024 : ℚ) else r
    if negative then -c else c

/-- The Number value of a rational: what an arithmetic operation with that
exact result returns. -/
def toNumber (q : ℚ) : ℚ :=
  toNumberFrac (decide (q.num < 0)) q.num.natAbs q.den

/-- Whether a number is `Infinity` or `-Infinity`. -/
def isInfinite (q : ℚ) : Bool :=
  decide (twoPow1024 * q.den ≤ q.num.natAbs)

/-- Whether the double nearest to `c / d` is `a / b` (all four positive). -/
def roundsTo (c d a b : Nat) : Bool :=
  if 0 ≤ (doubleParts c d).2 then
    decide ((doubleParts c d).1 * 2 ^ (doubleParts c d).2.toNat * b = a)
  else decide ((doubleParts c d).1 * b = a * 2 ^ (-(doubleParts c d).2).toNat)

/-- The number of decimal digits of a positive natural number. -/
def decimalLength (n : Nat) : Nat := (Nat.toDigits 10 n).length

/-- The exponent `n` with `10 ^ (n - 1) ≤ a / b < 10 ^ n`, for positive `a` and `b`. -/
def decimalExponent (a b : Nat) : Int :=
  if b ≤ a then (decimalLength (a / b) : Int)
  else if a * 10 ^ (decimalLength (b / a) - 1) = b then 2 - (decimalLength (b / a) : Int)
  else 1 - (decimalLength (b / a) : Int)

/-- The decimal `s * 10 ^ p` as a fraction. -/
def scaled (s : Nat) (p : Int) : Nat × Nat :=
  if 0 ≤ p then (s * 10 ^ p.toNat, 1) else (s, 10 ^ (-p).toNat)

/-- The decimal with `k` digits that denotes the double `a / b`, if there is
one, as its digits `s` and its exponent (the value is `s * 10 ^ (n - k)`).
Only the two decimals next to `a / b` can qualify; when both do, the closer
one is taken, and the even one when they are equally close. -/
def digitsOfLength (a b : Nat) (n : Int) (k : Nat) : Option (Nat × Int) :=
  let p : Int := n - k
  let lo := if 0 ≤ p then a / (b * 10 ^ p.toNat) else a * 10 ^ (-p).toNat / b
  let okLo := roundsTo (scaled lo p).1 (scaled lo p).2 a b
  let okHi := roundsTo (scaled (lo + 1) p).1 (scaled (lo + 1) p).2 a b
  let loCloser := if 0 ≤ p then decide (2 * a < (2 * lo + 1) * 10 ^ p.toNat * b)
    else decide (2 * a * 10 ^ (-p).toNat < (2 * lo + 1) * b)
  let tie := if 0 ≤ p then decide (2 * a = (2 * lo + 1) * 10 ^ p.toNat * b)
    else decide (2 * a * 10 ^ (-p).toNat = (2 * lo + 1) * b)
  if okLo && (!okHi || loCloser || (tie && lo % 2 == 0)) then some (lo, n)
  else if okHi then some (if lo + 1 = 10 ^ k then (10 ^ (k - 1), n + 1) else (lo + 1, n))
  else none

/-- The search for the shortest decimal that denotes `a / b`, from `k` digits
on; seventeen digits denote every double, and a rational that is no double
ends with the digits it has at the end of the search. -/
def shortestFrom (a b : Nat) (n : Int) : Nat → Nat → Nat × Int
  | 0, k =>
    (if 0 ≤ n - (k : Int) then a / (b * 10 ^ (n - k).toNat)
      else a * 10 ^ (-(n - k)).toNat / b, n)
  | fuel + 1, k =>
    match digitsOfLength a b n k with
    | some r => r
    | none => shortestFrom a b n fuel (k + 1)

/-- The digits `s` and the exponent `n` of the shortest decimal that denotes
the positive double `a / b`: the integers `n`, `k`, `s` of Number::toString. -/
def shortestDigits (a b : Nat) : Nat × Int :=
  shortestFrom a b (decimalExponent a b) 17 1

/-- The text Number::toString makes of the digits `s` and the exponent `n`:
plain digits up to `1e21`, a decimal point inside or after `0.` down to
`1e-6`, and the exponent form `d.ddde+x` otherwise. -/
def formatNumber (s : Nat) (n : Int) : String :=
  let ds := Nat.toDigits 10 s
  let k := ds.length
  if (k : Int) ≤ n ∧ n ≤ 21 then String.mk (ds ++ List.replicate (n - k).toNat '0')
  else if 0 < n ∧ n ≤ 21 then String.mk (ds.take n.toNat ++ '.' :: ds.drop n.toNat)
  else if -6 < n ∧ n ≤ 0 then String.mk ('0' :: '.' :: List.replicate (-n).toNat '0' ++ ds)
  else
    let tail := (if n - 1 < 0 then "e-" else "e+") ++ natDigits (n - 1).natAbs
    if k = 1 then String.mk ds ++ tail
    else String.mk (ds.take 1 ++ '.' :: ds.drop 1) ++ tail

/-- The conversion `String(x)` of a number (Number::toString, radix 10); a
rational that is no double is taken for the double nearest to it. -/
def numberToString (q : ℚ) : String :=
  let r := toNumber q
  if r.num = 0 then "0"
  else if isInfinite r then (if r.num < 0 then "-Infinity" else "Infinity")
  else
    (if r.num < 0 then "-" else "") ++
      formatNumber (shortestDigits r.num.natAbs r.den).1 (shortestDigits r.num.natAbs r.den).2

/-! ## `parseInt` and the other conversions -/

/-- The digits `parseInt(string)` reads with no radix argument: leading white
space is skipped, then an optional sign, then an optional `0x`/`0X` (radix 16),
then the longest run of digits; the rest of the string is ignored.  The result
is the sign and the number the digits write; `none`: there is no digit. -/
def parseIntDigits (s : String) : Option (Bool × Nat) :=
  let (neg, body) := takeSign (s.data.dropWhile isJsWhiteSpace)
  let (radix, body) :=
    match body with
    | '0' :: 'x' :: cs => (16, cs)
    | '0' :: 'X' :: cs => (16, cs)
    | cs => (10, cs)
  let ds := body.takeWhile (isRadixDigit radix)
  if ds.isEmpty then none else some (neg, digitsValue radix ds)

/-- The double nearest to a natural number; a number below `2 ^ 53` is one. -/
def roundNat (n : Nat) : Nat :=
  if n < 9007199254740992 then n
  else (doubleParts n 1).1 * 2 ^ (doubleParts n 1).2.toNat

/-- The function `parseInt(string)`: the number read is returned as a Number,
so it is rounded to a double.  `none` stands for a result that is no finite
number: `NaN` when there is no digit, and an infinity when the digits write a
number beyond the doubles (`parseIntStringOverflows`). -/
def parseIntString (s : String) : Option Int :=
  match parseIntDigits s with
  | none => none
  | some (neg, n) => if twoPow1024 ≤ roundNat n then none else some (applySign neg (roundNat n))

/-- Whether `parseInt(string)` is `Infinity` or `-Infinity`. -/
def parseIntStringOverflows (s : String) : Bool :=
  match parseIntDigits s with
  | none => false
  | some (_, n) => decide (twoPow1024 ≤ roundNat n)

/-- The conversion `String(v)` used by `parseInt`, by template literals and by
`+` with a string. -/
def jsToString : JsValue → String
  | .undefined => "undefined"
  | .null => "null"
  | .bool b => if b then "true" else "false"
  | .nan => "NaN"
  | .str s => s
  | .num q => numberToString q

/-- The function `parseInt(v)`: the argument is first converted to a string,
so a number is read back from its text: `12.5` gives 12, `1e21` is written
`1e+21` and gives 1, and an infinity gives `NaN`.  `none` stands for `NaN` and
for the infinities (`parseIntOverflows`). -/
def parseInt : JsValue → Option Int
  | .str s => parseIntString s
  | .num q => parseIntString (numberToString q)
  | _ => none

/-- Whether `parseInt(v)` is `Infinity` or `-Infinity`. -/
def parseIntOverflows : JsValue → Bool
  | .str s => parseIntStringOverflows s
  | _ => false

/-- Lower-casing of the basic Latin letters, as `String.prototype.toLowerCase`
does on ASCII strings (every address that passes `validateVote` is ASCII). -/
def toLowerCase (s : String) : String :=
  String.mk (s.data.map Char.toLower)

/-- The expression `n + v` for a number `n`: string concatenation when `v` is a
string, numeric addition otherwise (the sum rounded to a double). -/
def jsAddNumber (n : ℚ) : JsValue → JsValue
  | .str s => .str (jsToString (.num n) ++ s)
  | .num q => .num (toNumber (n + q))
  | .bool b => .num (toNumber (n + if b then 1 else 0))
  | .null => .num n
  | .undefined => .nan
  | .nan => .nan

/-- Removes white space at both ends of a string. -/
def trimJs (cs : List Char) : List Char :=
  ((cs.dropWhile isJsWhiteSpace).reverse.dropWhile isJsWhiteSpace).reverse

/-- An optional exponent part followed by the end of the input. -/
def parseExponent : List Char → Option Int
  | [] => some 0
  | c :: cs =>
    if c = 'e' ∨ c = 'E' then
      let (neg, ds) := takeSign cs
      if ds.isEmpty ∨ ¬ ds.all (isRadixDigit 10) then none
      else some (applySign neg (digitsValue 10 ds))
    else none

/-- An unsigned decimal literal (`12`, `12.5`, `12.`, `.5`, each with an
optional exponent) taking the whole input: its digits and its power of ten. -/
def parseUnsignedDecimal (cs : List Char) : Option (Nat × Int) :=
  let whole := cs.takeWhile (isRadixDigit 10)
  let rest := cs.dropWhile (isRadixDigit 10)
  let (frac, rest) :=
    match rest with
    | '.' :: r => (r.takeWhile (isRadixDigit 10), r.dropWhile (isRadixDigit 10))
    | r => ([], r)
  if whole.isEmpty ∧ frac.isEmpty then none
  else
    match parseExponent rest with
    | none => none
    | some e => some (digitsValue 10 (whole ++ frac), e - frac.length)

/-- An integer literal in radix 2, 8 or 16 taking the whole input. -/
def parseRadixLiteral (radix : Nat) (cs : List Char) : Option ℚ :=
  if cs.isEmpty ∨ ¬ cs.all (isRadixDigit radix) then none
  else some (toNumberFrac false (digitsValue radix cs) 1)

/-- The conversion `Number(string)`: white space is trimmed at both ends, the
empty string is `0`, and what remains must be one numeric literal as a whole.
The value is rounded to a double; `none` is `NaN`. -/
def stringToNumber (s : String) : Option ℚ :=
  match trimJs s.data with
  | [] => some 0
  | '0' :: 'x' :: cs => parseRadixLiteral 16 cs
  | '0' :: 'X' :: cs => parseRadixLiteral 16 cs
  | '0' :: 'o' :: cs => parseRadixLiteral 8 cs
  | '0' :: 'O' :: cs => parseRadixLiteral 8 cs
  | '0' :: 'b' :: cs => parseRadixLiteral 2 cs
  | '0' :: 'B' :: cs => parseRadixLiteral 2 cs
  | cs =>
    let (neg, body) := takeSign cs
    if body = "Infinity".data then some (if neg then -(twoPow1024 : ℚ) else (twoPow1024 : ℚ))
    else
      match parseUnsignedDecimal body with
      | none => none
      | some (m, e) => some (toNumberFrac neg (scaled m e).1 (scaled m e).2)

/-- What the document store makes of a value assigned to a field declared
`{ type: Number, required: true }`: strings and booleans go through `Number`,
`NaN` is a cast failure, and `undefined`, `null` and the empty string leave the
field empty, which `required` rejects.  `none` is a validation failure. -/
def castNumber : JsValue → Option ℚ
  | .undefined => none
  | .null => none
  | .nan => none
  | .num q => some q
  | .bool b => some (if b then 1 else 0)
  | .str s => if s = "" then none else stringToNumber s

/-! ## Documents and stores -/

/-- A document of the proposal collection (`models/Proposal.js`).  Identifiers
are integers: the only writer of the collection, `createProposal`, stores the
identifier handed out by the ledger.  The flag `isActive` is `none` when the
stored value is `null`. -/
structure Proposal where
  proposalId : Int
  contractAddress : String
  transactionHash : String
  blockNumber : ℚ
  title : String
  description : String
  creator : String
  deadline : ℚ
  isActive : Option Bool
  voteCount : Nat
  voters : List String
  gasUsed : String
  createdAt : Nat
deriving DecidableEq

/-- A document of the vote collection (`models/Vote.js`). -/
structure Vote where
  _id : String
  proposalId : Int
  contractAddress : String
  transactionHash : String
  blockNumber : ℚ
  gasUsed : Int
  gasPrice : String
  voterAddress : String
  voterBalance : String
  timestamp : Nat
  isVerified : Bool
  verificationHash : Option String
deriving DecidableEq

/-- An exception travelling to a `catch`. -/
inductive Thrown where
  | error (message : String)
  | typeError (message : String)
  | castError (path : String)
  | validationError (path : String)
  | duplicateKey (index : String)
deriving DecidableEq

/-- The query `Proposal.findOne({ proposalId, isActive: true })`. -/
def findActiveProposal (ps : List Proposal) (proposalId : Int) : Option Proposal :=
  ps.find? (fun p => decide (p.proposalId = proposalId) && decide (p.isActive = some true))

/-- The query `Vote.findOne({ proposalId, voterAddress })`. -/
def findVote (vs : List Vote) (proposalId : Int) (voterAddress : String) : Option Vote :=
  vs.find? (fun v => decide (v.proposalId = proposalId) && decide (v.voterAddress = voterAddress))

/-- Inserting a vote document: the collection has a unique index on
`transactionHash` and one on `(contractAddress, proposalId, voterAddress)`;
an insert that would break one fails with a duplicate-key error (code 11000). -/
def insertVote (vs : List Vote) (v : Vote) : Except Thrown (List Vote) :=
  if vs.any (fun w => decide (w.transactionHash = v.transactionHash)) then
    .error (.duplicateKey "transactionHash_1")
  else if vs.any (fun w => decide (w.contractAddress = v.contractAddress) &&
      decide (w.proposalId = v.proposalId) && decide (w.voterAddress = v.voterAddress)) then
    .error (.duplicateKey "contractAddress_1_proposalId_1_voterAddress_1")
  else .ok (vs ++ [v])

/-- The update `Proposal.findOneAndUpdate({ proposalId }, { $inc: { voteCount: 1 } })`:
the first document with that identifier gets its counter raised by one. -/
def incVoteCount : List Proposal → Int → List Proposal
  | [], _ => []
  | p :: ps, proposalId =>
    if p.proposalId = proposalId then { p with voteCount := p.voteCount + 1 } :: ps
    else p :: incVoteCount ps proposalId

/-! ## The ledger (`mockBlockchainService` of `services/blockchainService.js`) -/

/-- A proposal object held by the ledger. -/
structure LedgerProposal where
  id : JsValue
  title : JsValue
  description : JsValue
  voteCount : Nat
  creator : String
  createdAt : Nat
  deadline : JsValue
  isActive : Bool
deriving DecidableEq

/-- A JavaScript `Map` keyed by values: `get`. -/
def mapGet {β : Type} : List (JsValue × β) → JsValue → Option β
  | [], _ => none
  | (k, v) :: m, key => if k = key then some v else mapGet m key

/-- A JavaScript `Map` keyed by values: `set` replaces the value of a key that
is present and appends a new key at the end. -/
def mapSet {β : Type} : List (JsValue × β) → JsValue → β → List (JsValue × β)
  | [], key, val => [(key, val)]
  | (k, v) :: m, key, val =>
    if k = key then (k, val) :: m else (k, v) :: mapSet m key val

/-- The state of the ledger object: `proposals`, `proposalCount` and `votes`
(proposal key to the set of addresses that voted). -/
structure MockLedger where
  proposals : List (JsValue × LedgerProposal)
  proposalCount : Nat
  votes : List (JsValue × List JsValue)
deriving DecidableEq

/-- The inputs of one operation that the code does not compute from its
arguments: the digits of `Math.random().toString(16).substr(2, 64)`, the value
of `Math.floor(Math.random() * 20000)`, `Date.now()` and the identifier given
to a new document. -/
structure Draw where
  randomHex : String
  randomGas : Nat
  now : Nat
  objectId : String
deriving DecidableEq

/-- What `vote` returns. -/
structure LedgerResult where
  transactionHash : String
  blockNumber : JsValue
  gasUsed : JsValue
deriving DecidableEq

/-- The owner address of the ledger object. -/
def ledgerOwner : String := "0x032A5B47fFF1DdcB44F490d61e3BE4f6827BA109"

/-- The method `mockBlockchainService.hasUserVoted`. -/
def MockLedger.hasUserVoted (l : MockLedger) (proposalId voterAddress : JsValue) : Bool :=
  match mapGet l.votes proposalId with
  | some voterSet => voterSet.contains voterAddress
  | none => false

/-- The method `mockBlockchainService.vote`: a proposal key unknown to the ledger is
first registered as an active proposal without votes; then the vote is refused
when the proposal is not active or the address is in its voter set, and is
recorded otherwise.  The ledger state is returned in every case. -/
def MockLedger.vote (l : MockLedger) (d : Draw) (proposalId voterAddress : JsValue) :
    MockLedger × Except Thrown LedgerResult :=
  let l1 : MockLedger :=
    if (mapGet l.proposals proposalId).isNone then
      { l with
        proposals := mapSet l.proposals proposalId
          { id := proposalId
            title := .str ("Proposal " ++ jsToString proposalId)
            description := .str "Proposal loaded from database"
            voteCount := 0
            creator := ledgerOwner
            createdAt := d.now / 1000
            deadline := .num 0
            isActive := true }
        votes := mapSet l.votes proposalId [] }
    else l
  match mapGet l1.proposals proposalId with
  | none => (l1, .error (.typeError "proposal is undefined"))
  | some proposal =>
    if !proposal.isActive then (l1, .error (.error "Proposal is not active"))
    else
      match mapGet l1.votes proposalId with
      | none => (l1, .error (.typeError "voterSet is undefined"))
      | some voterSet =>
        if voterSet.contains voterAddress then
          (l1, .error (.error "Already voted on this proposal"))
        else
          ({ l1 with
              votes := mapSet l1.votes proposalId (voterSet ++ [voterAddress])
              proposals := mapSet l1.proposals proposalId
                { proposal with voteCount := proposal.voteCount + 1 } },
            .ok { transactionHash := "0x" ++ d.randomHex
                  blockNumber := jsAddNumber 12345 proposalId
                  gasUsed := .num ((50000 + d.randomGas : Nat) : ℚ) })

/-! ## `VoteController.castVote` (`controllers/voteController.js`) -/

/-- The service methods `blockchainService.hasUserVoted` and `voteOnProposal`
hand the call to the ledger object and rethrow what it throws. -/
def hasUserVoted (l : MockLedger) (proposalId voterAddress : JsValue) : Bool :=
  l.hasUserVoted proposalId voterAddress

/-- See `hasUserVoted`. -/
def voteOnProposal (l : MockLedger) (d : Draw) (proposalId voterAddress : JsValue) :
    MockLedger × Except Thrown LedgerResult :=
  l.vote d proposalId voterAddress

/-- The body of a `POST /api/votes` request. -/
structure VoteBody where
  proposalId : JsValue
  voterAddress : JsValue
deriving DecidableEq

/-- The `data` object of the answer to an accepted vote. -/
structure VoteReceipt where
  proposalId : Int
  voterAddress : String
  transactionHash : String
  blockNumber : JsValue
  gasUsed : JsValue
deriving DecidableEq

/-- An HTTP answer: the status and the fields of the JSON body, with `data` of
type `α`.  `thrown` is the caught exception behind a 500 answer; `castVote`
reports its `message` in the body. -/
structure Response (α : Type) where
  status : Nat
  success : Bool
  error : Option String
  message : Option String
  thrown : Option Thrown
  data : Option α
deriving DecidableEq

/-- An answer `{ success: false, error }` with the given status. -/
def Response.failure {α : Type} (status : Nat) (error : String) : Response α :=
  { status := status, success := false, error := some error, message := none,
    thrown := none, data := none }

/-- The answer of a `catch` block: status 500 and the error text of the handler. -/
def Response.caught {α : Type} (error : String) (e : Thrown) : Response α :=
  { status := 500, success := false, error := some error, message := none,
    thrown := some e, data := none }

/-- The answer to an accepted vote. -/
def Response.created (receipt : VoteReceipt) : Response VoteReceipt :=
  { status := 201, success := true, error := none, message := some "Vote cast successfully",
    thrown := none, data := some receipt }

/-- The proposal store, the vote store and the ledger. -/
structure System where
  proposals : List Proposal
  votes : List Vote
  ledger : MockLedger
deriving DecidableEq

/-- The contract address written into every vote by `castVote`. -/
def contractAddress : String := "0x1234567890123456789012345678901234567890"

/-- Lines 8 to 47 of `castVote`: the checks made before anything is written.
The result is the answer of the first check that fails, or the integer
identifier and the lower-cased address of an admitted vote.  A `parseInt`
that yields `NaN` makes the proposal query fail with a cast error, and an
address that is not a string has no `toLowerCase`; both land in the `catch`.
A `parseInt` that yields an infinity is an identifier no stored proposal has. -/
def admission (s : System) (body : VoteBody) : Except (Response VoteReceipt) (Int × String) :=
  if !body.proposalId.truthy || !body.voterAddress.truthy then
    .error (.failure 400 "Proposal ID and voter address are required")
  else
    match parseInt body.proposalId with
    | none =>
      if parseIntOverflows body.proposalId then
        .error (.failure 404 "Proposal not found or not active")
      else .error (.caught "Failed to cast vote" (.castError "proposalId"))
    | some proposalId =>
      match findActiveProposal s.proposals proposalId with
      | none => .error (.failure 404 "Proposal not found or not active")
      | some _ =>
        match body.voterAddress with
        | .str address =>
          match findVote s.votes proposalId (toLowerCase address) with
          | some _ => .error (.failure 400 "User has already voted on this proposal")
          | none =>
            if hasUserVoted s.ledger body.proposalId body.voterAddress then
              .error (.failure 400 "User has already voted on this proposal on the blockchain")
            else .ok (proposalId, toLowerCase address)
        | _ => .error (.caught "Failed to cast vote" (.typeError "voterAddress.toLowerCase is not a function"))

/-- Lines 51 to 60 of `castVote` together with the validation run by `save`:
the new vote document, or the validation error for a block number that is
not a number. -/
def newVote (d : Draw) (proposalId : Int) (voterAddress : String) (result : LedgerResult) :
    Except Thrown Vote :=
  match castNumber result.blockNumber, parseInt result.gasUsed with
  | some blockNumber, some gasUsed =>
    .ok { _id := d.objectId
          proposalId := proposalId
          contractAddress := contractAddress
          transactionHash := result.transactionHash
          blockNumber := blockNumber
          gasUsed := gasUsed
          gasPrice := "20000000000"
          voterAddress := voterAddress
          voterBalance := "0"
          timestamp := d.now
          isVerified := false
          verificationHash := none }
  | none, _ => .error (.validationError "blockNumber")
  | some _, none => .error (.validationError "gasUsed")

/-- The call `vote.save()`: validation, then the insert. -/
def saveVote (vs : List Vote) (d : Draw) (proposalId : Int) (voterAddress : String)
    (result : LedgerResult) : Except Thrown (List Vote) :=
  match newVote d proposalId voterAddress result with
  | .error e => .error e
  | .ok v => insertVote vs v

/-- The receipt of lines 71 to 77. -/
def receiptOf (proposalId : Int) (voterAddress : String) (result : LedgerResult) : VoteReceipt :=
  { proposalId := proposalId
    voterAddress := voterAddress
    transactionHash := result.transactionHash
    blockNumber := result.blockNumber
    gasUsed := result.gasUsed }

/-- The handler `castVote`: the checks of `admission`, then the ledger call,
then the vote document is saved, then the counter of the proposal is raised,
then the answer 201.  An exception at any point is answered with 500. -/
def castVote (s : System) (d : Draw) (body : VoteBody) : System × Response VoteReceipt :=
  match admission s body with
  | .error r => (s, r)
  | .ok (proposalId, voterAddress) =>
    match voteOnProposal s.ledger d body.proposalId body.voterAddress with
    | (ledger, .error e) => ({ s with ledger := ledger }, .caught "Failed to cast vote" e)
    | (ledger, .ok result) =>
      match saveVote s.votes d proposalId voterAddress result with
      | .error e => ({ s with ledger := ledger }, .caught "Failed to cast vote" e)
      | .ok votes =>
        ({ proposals := incVoteCount s.proposals proposalId, votes := votes, ledger := ledger },
          .created (receiptOf proposalId voterAddress result))

/-- The state left behind when the process running `castVote` stops after
`writes` of its three writes (ledger call, vote insert, counter update) have
taken effect; with all three it is the state left by `castVote`. -/
def castVoteStopped (writes : Nat) (s : System) (d : Draw) (body : VoteBody) : System :=
  match admission s body with
  | .error _ => s
  | .ok (proposalId, voterAddress) =>
    if writes = 0 then s
    else
      match voteOnProposal s.ledger d body.proposalId body.voterAddress with
      | (ledger, .error _) => { s with ledger := ledger }
      | (ledger, .ok result) =>
        if writes = 1 then { s with ledger := ledger }
        else
          match saveVote s.votes d proposalId voterAddress result with
          | .error _ => { s with ledger := ledger }
          | .ok votes =>
            if writes = 2 then { s with ledger := ledger, votes := votes }
            else { proposals := incVoteCount s.proposals proposalId, votes := votes,
                   ledger := ledger }

/-- A sequence of `castVote` requests, run one after the other. -/
def castVotes (s : System) : List (Draw × VoteBody) → System
  | [] => s
  | (d, body) :: rest => castVotes (castVote s d body).1 rest

/-- The number of vote documents of a proposal. -/
def voteTally (vs : List Vote) (proposalId : Int) : Nat :=
  vs.countP (fun v => decide (v.proposalId = proposalId))

/-! ## `ProposalController.updateProposal` (`controllers/proposalController.js`) -/

/-- The `length` of a JavaScript string: its number of UTF-16 code units. -/
def jsLength (s : String) : Nat :=
  (s.data.map (fun c => if c.toNat < 0x10000 then 1 else 2)).sum

/-- What the store makes of a value assigned to a `Boolean` field: `true`,
`'true'`, `1`, `'1'`, `'yes'` are true, `false`, `'false'`, `0`, `'0'`, `'no'`
are false, `null` is kept, and anything else is a cast failure. -/
def castBoolean (v : JsValue) : Option (Option Bool) :=
  if v ∈ [.bool true, .str "true", .num 1, .str "1", .str "yes"] then some (some true)
  else if v ∈ [.bool false, .str "false", .num 0, .str "0", .str "no"] then some (some false)
  else if v = .null ∨ v = .undefined then some none
  else none

/-- The validation run when a proposal document is saved: required strings
are not empty, and the title and the description keep to their `maxlength`. -/
def Proposal.valid (p : Proposal) : Bool :=
  decide (p.contractAddress ≠ "") && decide (p.transactionHash ≠ "") &&
  decide (p.title ≠ "") && decide (jsLength p.title ≤ 200) &&
  decide (p.description ≠ "") && decide (jsLength p.description ≤ 2000) &&
  decide (p.creator ≠ "") && decide (p.gasUsed ≠ "")

/-- Writes a saved document back: the first document with its identifier is
replaced. -/
def replaceProposal : List Proposal → Proposal → List Proposal
  | [], _ => []
  | p :: ps, q => if p.proposalId = q.proposalId then q :: ps else p :: replaceProposal ps q

/-- The body of a `PUT /api/proposals/:proposalId` request. -/
structure UpdateBody where
  title : JsValue
  description : JsValue
  isActive : JsValue
deriving DecidableEq

/-- The handler `updateProposal`: the proposal named by the path parameter is
looked up (404 when there is none); a truthy `title` and `description` and an
`isActive` other than `undefined` are assigned; the document is saved.  A
failed cast or validation lands in the `catch` (500) and stores nothing; a
parameter that `parseInt` reads as an infinity names no stored proposal. -/
def updateProposal (s : System) (proposalId : String) (body : UpdateBody) :
    System × Response Proposal :=
  match parseIntString proposalId with
  | none =>
    (s, if parseIntStringOverflows proposalId then .failure 404 "Proposal not found"
      else .caught "Failed to update proposal" (.castError "proposalId"))
  | some n =>
    match s.proposals.find? (fun p => decide (p.proposalId = n)) with
    | none => (s, .failure 404 "Proposal not found")
    | some proposal =>
      let p1 := if body.title.truthy then { proposal with title := jsToString body.title }
        else proposal
      let p2 := if body.description.truthy then
        { p1 with description := jsToString body.description } else p1
      match (if body.isActive = .undefined then some p2.isActive else castBoolean body.isActive) with
      | none => (s, .caught "Failed to update proposal" (.validationError "isActive"))
      | some flag =>
        let p3 := { p2 with isActive := flag }
        if p3.valid then
          ({ s with proposals := replaceProposal s.proposals p3 },
            { status := 200, success := true, error := none,
              message := some "Proposal updated successfully", thrown := none, data := some p3 })
        else (s, .caught "Failed to update proposal" (.validationError "title or description"))

/-! ## Sample data -/

/-- A mixed-case address of the form accepted by `validateVote`. -/
def sampleAddress : String := "0xAbCdEfAbCdEfAbCdEfAbCdEfAbCdEfAbCdEfAbCd"

/-- A freshly created proposal: active, no votes, no voters. -/
def sampleProposal : Proposal :=
  { proposalId := 12
    contractAddress := contractAddress
    transactionHash := "0x5f3a"
    blockNumber := 12357
    title := "Upgrade X"
    description := "Upgrade the protocol"
    creator := ledgerOwner
    deadline := 0
    isActive := some true
    voteCount := 0
    voters := []
    gasUsed := "100000"
    createdAt := 1700000000000 }

/-- A system holding the sample proposal, no votes and an empty ledger. -/
def sampleSystem : System :=
  { proposals := [sampleProposal]
    votes := []
    ledger := { proposals := [], proposalCount := 0, votes := [] } }

/-- One outcome of the random draws and the clock. -/
def sampleDraw : Draw :=
  { randomHex := "8a3f1c", randomGas := 1234, now := 1700000001000, objectId := "65a000000000000000000001" }

/-- A second outcome, different from `sampleDraw`. -/
def otherDraw : Draw :=
  { randomHex := "27bd04", randomGas := 77, now := 1700000002000, objectId := "65a000000000000000000002" }

/-- A vote for the sample proposal with a numeric identifier. -/
def sampleBody : VoteBody :=
  { proposalId := .num 12, voterAddress := .str sampleAddress }

/-- A sequence of `castVote` runs, each of them stopped after the given number
of its writes (three or more: run to the end). -/
def castVotesStopped (s : System) : List (Nat × Draw × VoteBody) → System
  | [] => s
  | (writes, d, body) :: rest => castVotesStopped (castVoteStopped writes s d body) rest

/-- A vote whose identifier is the string `12abc`: `parseInt` reads it as 12. -/
def trailingTextBody : VoteBody :=
  { proposalId := .str "12abc", voterAddress := .str sampleAddress }

/-- A vote of a second address for the sample proposal. -/
def secondBody : VoteBody :=
  { proposalId := .num 12, voterAddress := .str "0x00000000000000000000000000000000000000a1" }

/-- The sample system with one stored vote for the sample proposal whose
address is kept in mixed case, as a writer other than `castVote` may store it
(the vote schema does not lower-case the field). -/
def mixedCaseSystem : System :=
  { proposals := [{ sampleProposal with voteCount := 1 }]
    votes :=
      [{ _id := "65a000000000000000000001"
         proposalId := 12
         contractAddress := contractAddress
         transactionHash := "0x8a3f1c"
         blockNumber := 12357
         gasUsed := 51234
         gasPrice := "20000000000"
         voterAddress := sampleAddress
         voterBalance := "0"
         timestamp := 1700000001000
         isVerified := false
         verificationHash := none }]
    ledger := { proposals := [], proposalCount := 0, votes := [] } }

/-- A vote of the sample address, written in lower case, for the sample
proposal. -/
def lowerCaseBody : VoteBody :=
  { proposalId := .num 12, voterAddress := .str "0xabcdefabcdefabcdefabcdefabcdefabcdefabcd" }

/-- A system whose only proposal is active and has the identifier 1. -/
def firstProposalSystem : System :=
  { proposals := [{ sampleProposal with proposalId := 1 }]
    votes := []
    ledger := { proposals := [], proposalCount := 0, votes := [] } }

/-- A vote whose identifier is the number `1e21`, which `String` writes
`1e+21`. -/
def largeIdBody : VoteBody :=
  { proposalId := .num 1000000000000000000000, voterAddress := .str sampleAddress }

/-- A vote for the sample proposal whose address is the boolean `true`. -/
def booleanAddressBody : VoteBody :=
  { proposalId := .num 12, voterAddress := .bool true }

/-- A vote whose identifier is the number `Infinity`, which is what
`JSON.parse` makes of `1e400`. -/
def infinityBody : VoteBody :=
  { proposalId := .num (twoPow1024 : ℚ), voterAddress := .str sampleAddress }

/-- A vote whose identifier is a string of 400 digits `1`: `parseInt` reads it
as `Infinity`. -/
def longDigitsBody : VoteBody :=
  { proposalId := .str (String.mk (List.replicate 400 '1')), voterAddress := .str sampleAddress }

/-! ## Request validation (`middleware/validation.js`) -/

/-- The test `typeof v === 'number'`. -/
def JsValue.isNumber : JsValue → Bool
  | .num _ => true
  | .nan => true
  | _ => false

/-- One item of a regular expression: a literal code unit or a class given by
its ranges. -/
inductive RegexAtom where
  | lit (c : Char)
  | cls (ranges : List (Char × Char))
deriving DecidableEq

/-- An item together with the number of times it is to be taken (`{n}`). -/
structure RegexPiece where
  atom : RegexAtom
  count : Nat
deriving DecidableEq

/-- Whether an item accepts a code unit. -/
def RegexAtom.accepts : RegexAtom → Char → Bool
  | .lit c, x => decide (x = c)
  | .cls ranges, x => ranges.any (fun r => decide (r.1.toNat ≤ x.toNat) && decide (x.toNat ≤ r.2.toNat))

/-- Takes an item the given number of times off the front of the input. -/
def matchRepeat (a : RegexAtom) : Nat → List Char → Option (List Char)
  | 0, cs => some cs
  | _ + 1, [] => none
  | k + 1, c :: cs => if a.accepts c then matchRepeat a k cs else none

/-- The test of an expression `^ p1 p2 ... $` (no flags) on a string: the
pieces one after the other must take up the whole input. -/
def regexTest : List RegexPiece → List Char → Bool
  | [], cs => cs.isEmpty
  | p :: ps, cs =>
    match matchRepeat p.atom p.count cs with
    | some rest => regexTest ps rest
    | none => false

/-- The expression `/^0x[a-fA-F0-9]{40}$/` of `validateVote`. -/
def addressRegex : List RegexPiece :=
  [{ atom := .lit '0', count := 1 }, { atom := .lit 'x', count := 1 },
    { atom := .cls [('a', 'f'), ('A', 'F'), ('0', '9')], count := 40 }]

/-- The middleware `validateVote`: `some r` is the answer it sends, `none` is
the call of `next()`.  `Number.isInteger(parseInt(v))` holds exactly when
`parseInt(v)` is neither `NaN` nor an infinity, that is when `parseInt` of
this file returns an integer. -/
def validateVote (body : VoteBody) : Option (Response VoteReceipt) :=
  if !body.proposalId.truthy || !body.voterAddress.truthy then
    some (.failure 400 "Proposal ID and voter address are required")
  else if !body.proposalId.isNumber && (parseInt body.proposalId).isNone then
    some (.failure 400 "Proposal ID must be a valid number")
  else
    match body.voterAddress with
    | .str address =>
      if regexTest addressRegex address.data then none
      else some (.failure 400 "Voter address must be a valid Ethereum address")
    | _ => some (.failure 400 "Voter address must be a valid Ethereum address")

/-- The route `router.post('/', validateVote, voteController.castVote)`. -/
def postVote (s : System) (d : Draw) (body : VoteBody) : System × Response VoteReceipt :=
  match validateVote body with
  | some r => (s, r)
  | none => castVote s d body

/-- The middleware `validateProposalId` on the path parameter. -/
def validateProposalId {α : Type} (proposalId : String) : Option (Response α) :=
  if proposalId = "" ∨ (parseIntString proposalId).isNone then
    some (.failure 400 "Valid proposal ID is required")
  else none

/-- The body of a `POST /api/proposals` request. -/
structure ProposalBody where
  title : JsValue
  description : JsValue
  deadline : JsValue
deriving DecidableEq

/-- The `data` object of the answer to a created proposal. -/
structure ProposalReceipt where
  proposalId : Nat
  title : JsValue
  description : JsValue
  transactionHash : String
  blockNumber : Nat
  gasUsed : Nat
deriving DecidableEq

/-- The test `typeof v !== 'string' || v.trim().length === 0`. -/
def notNonEmptyString : JsValue → Bool
  | .str s => (trimJs s.data).isEmpty
  | _ => true

/-- The test `typeof v === 'string' && v.length > bound`; the middleware
reaches it with strings only. -/
def longerThan (bound : Nat) : JsValue → Bool
  | .str s => decide (bound < jsLength s)
  | _ => false

/-- The test `deadline && (typeof deadline !== 'number' || deadline < 0)`. -/
def badDeadline (deadline : JsValue) : Bool :=
  deadline.truthy &&
    match deadline with
    | .num q => decide (q < 0)
    | _ => true

/-- The middleware `validateProposal`: `some r` is the answer it sends, `none`
is the call of `next()`. -/
def validateProposal (body : ProposalBody) : Option (Response ProposalReceipt) :=
  if !body.title.truthy || !body.description.truthy then
    some (.failure 400 "Title and description are required")
  else if notNonEmptyString body.title then
    some (.failure 400 "Title must be a non-empty string")
  else if longerThan 200 body.title then
    some (.failure 400 "Title must be less than 200 characters")
  else if notNonEmptyString body.description then
    some (.failure 400 "Description must be a non-empty string")
  else if longerThan 2000 body.description then
    some (.failure 400 "Description must be less than 2000 characters")
  else if badDeadline body.deadline then
    some (.failure 400 "Deadline must be a positive number")
  else none

/-! ## `ProposalController.createProposal` and the ledger method it calls -/

/-- The inputs of one `createProposal` that the code does not compute from its
arguments: `Math.floor(Math.random() * 1000)`, the digits of
`Math.random().toString(16).substr(2, 64)`, `Math.floor(Math.random() * 50000)`
and `Date.now()`. -/
structure CreateDraw where
  randomId : Nat
  randomHex : String
  randomGas : Nat
  now : Nat
deriving DecidableEq

/-- What the ledger method `createProposal` returns. -/
structure CreateResult where
  proposalId : Nat
  transactionHash : String
  blockNumber : Nat
  gasUsed : Nat
deriving DecidableEq

/-- The method `mockBlockchainService.createProposal`: the counter is raised,
the identifier is the counter plus a random offset below 1000, and the
proposal object and an empty voter set are `set` under that identifier. -/
def MockLedger.createProposal (l : MockLedger) (d : CreateDraw)
    (title description deadline : JsValue) : MockLedger × CreateResult :=
  let proposalCount := l.proposalCount + 1
  let proposalId := proposalCount + d.randomId
  ({ proposals := mapSet l.proposals (.num proposalId)
        { id := .num proposalId
          title := title
          description := description
          voteCount := 0
          creator := ledgerOwner
          createdAt := d.now / 1000
          deadline := if deadline = .undefined then .num 0 else deadline
          isActive := true }
     proposalCount := proposalCount
     votes := mapSet l.votes (.num proposalId) [] },
    { proposalId := proposalId
      transactionHash := "0x" ++ d.randomHex
      blockNumber := 12345 + proposalId
      gasUsed := 100000 + d.randomGas })

/-- Inserting a proposal document: the collection has a unique index on
`proposalId` and one on `transactionHash`. -/
def insertProposal (ps : List Proposal) (p : Proposal) : Except Thrown (List Proposal) :=
  if ps.any (fun q => decide (q.proposalId = p.proposalId)) then
    .error (.duplicateKey "proposalId_1")
  else if ps.any (fun q => decide (q.transactionHash = p.transactionHash)) then
    .error (.duplicateKey "transactionHash_1")
  else .ok (ps ++ [p])

/-- Lines 96 to 108 of `createProposal` together with the validation run by
`save`: the new proposal document.  Title and description are cast to strings,
the deadline to a number; `voters` and `createdAt` take their defaults. -/
def newProposal (d : CreateDraw) (title description deadline : JsValue) (result : CreateResult) :
    Except Thrown Proposal :=
  match castNumber deadline with
  | none => .error (.validationError "deadline")
  | some deadlineNumber =>
    let p : Proposal :=
      { proposalId := result.proposalId
        contractAddress := contractAddress
        transactionHash := result.transactionHash
        blockNumber := result.blockNumber
        title := jsToString title
        description := jsToString description
        creator := ledgerOwner
        deadline := deadlineNumber
        isActive := some true
        voteCount := 0
        voters := []
        gasUsed := natDigits result.gasUsed
        createdAt := d.now }
    if p.valid then .ok p else .error (.validationError "title or description")

/-- The handler `createProposal`: both texts must be truthy (400 otherwise); the
ledger is called with `deadline || 0`; the document is built and saved; the
answer is 201.  An exception is answered with 500. -/
def createProposal (s : System) (d : CreateDraw) (body : ProposalBody) :
    System × Response ProposalReceipt :=
  if !body.title.truthy || !body.description.truthy then
    (s, .failure 400 "Title and description are required")
  else
    let deadline := if body.deadline.truthy then body.deadline else .num 0
    match s.ledger.createProposal d body.title body.description deadline with
    | (ledger, result) =>
      match newProposal d body.title body.description deadline result with
      | .error e => ({ s with ledger := ledger }, .caught "Failed to create proposal" e)
      | .ok p =>
        match insertProposal s.proposals p with
        | .error e => ({ s with ledger := ledger }, .caught "Failed to create proposal" e)
        | .ok proposals =>
          ({ s with ledger := ledger, proposals := proposals },
            { status := 201, success := true, error := none,
              message := some "Proposal created successfully", thrown := none,
              data := some { proposalId := result.proposalId
                             title := body.title
                             description := body.description
                             transactionHash := result.transactionHash
                             blockNumber := result.blockNumber
                             gasUsed := result.gasUsed } })

/-- The route `router.post('/', validateProposal, proposalController.createProposal)`. -/
def postProposal (s : System) (d : CreateDraw) (body : ProposalBody) :
    System × Response ProposalReceipt :=
  match validateProposal body with
  | some r => (s, r)
  | none => createProposal s d body

/-! ## Closing, deleting and synchronising proposals -/

/-- The assignment made by the model method `close` (`this.isActive = false`). -/
def Proposal.close (p : Proposal) : Proposal :=
  { p with isActive := some false }

/-- The call `save()` on a proposal document read from the store: validation,
then the document is written back. -/
def Proposal.save (ps : List Proposal) (p : Proposal) : Except Thrown (List Proposal) :=
  if p.valid then .ok (replaceProposal ps p)
  else .error (.validationError "title or description")

/-- The handler `deleteProposal`: the proposal named by the path parameter is
looked up (404 when there is none); then `Proposal.deleteOne` removes the first
document with the identifier and `Vote.deleteMany` every vote carrying it. -/
def deleteProposal (s : System) (proposalId : String) : System × Response Unit :=
  match parseIntString proposalId with
  | none =>
    (s, if parseIntStringOverflows proposalId then .failure 404 "Proposal not found"
      else .caught "Failed to delete proposal" (.castError "proposalId"))
  | some n =>
    match s.proposals.find? (fun p => decide (p.proposalId = n)) with
    | none => (s, .failure 404 "Proposal not found")
    | some _ =>
      ({ s with
          proposals := s.proposals.eraseP (fun p => decide (p.proposalId = n))
          votes := s.votes.filter (fun v => !decide (v.proposalId = n)) },
        { status := 200, success := true, error := none,
          message := some "Proposal deleted successfully", thrown := none, data := none })

/-- The method `mockBlockchainService.getAllProposals`: the proposal objects in
the order of the map. -/
def MockLedger.getAllProposals (l : MockLedger) : List LedgerProposal :=
  l.proposals.map (·.2)

/-- The query `Proposal.findOne({ proposalId: v })` for a value taken from the
ledger: the value is cast to a number first (`NaN` is a cast error; `undefined`,
`null` and the empty string match no document). -/
def findProposalByValue (ps : List Proposal) (v : JsValue) : Except Thrown (Option Proposal) :=
  if v = .undefined ∨ v = .null ∨ v = .str "" then .ok none
  else
    match castNumber v with
    | none => .error (.castError "proposalId")
    | some q => .ok (ps.find? (fun p => decide ((p.proposalId : ℚ) = q)))

/-- The loop of `syncProposals`: the first exception it runs into, if any.  A
ledger proposal with no stored document is turned into a new document without
`transactionHash`, `blockNumber` and `gasUsed`; the schema requires the three,
so its `save()` is rejected by the validation. -/
def syncLoop (ps : List Proposal) : List LedgerProposal → Option Thrown
  | [] => none
  | proposal :: rest =>
    match findProposalByValue ps proposal.id with
    | .error e => some e
    | .ok (some _) => syncLoop ps rest
    | .ok none => some (.validationError "transactionHash, blockNumber, gasUsed")

/-- The handler `syncProposals` (`controllers/contractController.js`): the
answer carries the number of ledger proposals when the loop ends, and is 500
when it throws.  No document is ever stored. -/
def syncProposals (s : System) : System × Response Nat :=
  match syncLoop s.proposals s.ledger.getAllProposals with
  | some e => (s, .caught "Failed to sync proposals" e)
  | none =>
    (s, { status := 200, success := true, error := none,
          message := some "Proposals synced successfully", thrown := none,
          data := some s.ledger.getAllProposals.length })

/-- The expression `Date.now() / 1000` at the clock value `now` (whole
milliseconds): the current time in seconds, the quotient rounded to a double. -/
def clockSeconds (now : Nat) : ℚ :=
  toNumberFrac false now 1000

/-- The difference `x - y` of a number and a finite number: an infinity stays
what it is, and the exact difference is rounded to a double otherwise. -/
def jsSubtract (x y : ℚ) : ℚ :=
  if isInfinite x then x else toNumber (x - y)

/-- The virtual `isExpired` of the proposal schema, at the clock value
`Date.now()` (milliseconds). -/
def Proposal.isExpired (p : Proposal) (now : Nat) : Bool :=
  if p.deadline = 0 then false else decide (clockSeconds now > p.deadline)

/-- A proposal document with its deadline set to zero. -/
def Proposal.withoutDeadline (p : Proposal) : Proposal :=
  { p with deadline := 0 }

/-- A ledger proposal with its deadline set to zero. -/
def LedgerProposal.withoutDeadline (p : LedgerProposal) : LedgerProposal :=
  { p with deadline := .num 0 }

/-- The ledger with the deadline of each of its proposals set to zero. -/
def MockLedger.withoutDeadlines (l : MockLedger) : MockLedger :=
  { l with proposals := l.proposals.map (fun e => (e.1, e.2.withoutDeadline)) }

/-- The system with every deadline, stored or held by the ledger, set to zero:
two systems with the same image differ in deadlines only. -/
def eraseDeadlines (s : System) : System :=
  { proposals := s.proposals.map Proposal.withoutDeadline
    votes := s.votes
    ledger := s.ledger.withoutDeadlines }

/-- The sample proposal after it has been closed. -/
def closedProposal : Proposal := sampleProposal.close

/-- A system holding the closed proposal only. -/
def closedSystem : System :=
  { proposals := [closedProposal]
    votes := []
    ledger := { proposals := [], proposalCount := 0, votes := [] } }

/-- The system before anything was created. -/
def emptySystem : System :=
  { proposals := [], votes := [], ledger := { proposals := [], proposalCount := 0, votes := [] } }

/-- A valid proposal request without a deadline. -/
def sampleProposalBody : ProposalBody :=
  { title := .str "Upgrade X", description := .str "Upgrade the protocol", deadline := .undefined }

/-- The sample system with the deadline of its proposal set to one second
after the epoch, long past. -/
def expiredSystem : System :=
  { sampleSystem with proposals := [{ sampleProposal with deadline := 1 }] }

/-- A second valid proposal request without a deadline. -/
def secondProposalBody : ProposalBody :=
  { title := .str "Upgrade Y", description := .str "Another text", deadline := .undefined }

/-! ## Model methods of `models/Proposal.js` and `models/Vote.js` -/

/-- The virtual `timeRemaining` of the proposal schema, at the clock value
`Date.now()` (milliseconds): `none` is the `null` returned for a proposal
without deadline. -/
def Proposal.timeRemaining (p : Proposal) (now : Nat) : Option ℚ :=
  if p.deadline = 0 then none
  else
    let remaining := jsSubtract p.deadline (clockSeconds now)
    some (if remaining > 0 then remaining else 0)

/-- The method `Array.prototype.indexOf`: the first position of the value, or -1. -/
def jsIndexOf (xs : List String) (x : String) : Int :=
  if xs.indexOf x < xs.length then (xs.indexOf x : Int) else -1

/-- The assignments made by the model method `addVote` before its `save()`. -/
def Proposal.addVote (p : Proposal) (voterAddress : String) : Proposal :=
  if !p.voters.contains (toLowerCase voterAddress) then
    { p with
      voters := p.voters ++ [toLowerCase voterAddress]
      voteCount := p.voteCount + 1 }
  else p

/-- The assignments made by the model method `removeVote` before its `save()`:
`splice(index, 1)` takes the entry at the position found out of the list, and
the counter becomes `Math.max(0, voteCount - 1)`. -/
def Proposal.removeVote (p : Proposal) (voterAddress : String) : Proposal :=
  let index := jsIndexOf p.voters (toLowerCase voterAddress)
  if index > -1 then
    { p with
      voters := p.voters.eraseIdx index.toNat
      voteCount := (max 0 ((p.voteCount : Int) - 1)).toNat }
  else p

/-- The assignments made by the model method `verify` before its `save()`; the
identifier is kept as its hexadecimal text, which is what `_id.toString()` gives. -/
def Vote.verify (v : Vote) : Vote :=
  { v with isVerified := true, verificationHash := some v._id }

/-- The object returned by the model method `getSummary` of a vote. -/
structure VoteSummary where
  proposalId : Int
  voterAddress : String
  timestamp : Nat
  isVerified : Bool
  gasUsed : Int
deriving DecidableEq

/-- The model method `getSummary` of a vote. -/
def Vote.getSummary (v : Vote) : VoteSummary :=
  { proposalId := v.proposalId
    voterAddress := v.voterAddress
    timestamp := v.timestamp
    isVerified := v.isVerified
    gasUsed := v.gasUsed }

/-- The validation run when a vote document is saved: required strings are
not empty. -/
def Vote.valid (v : Vote) : Bool :=
  decide (v.contractAddress ≠ "") && decide (v.transactionHash ≠ "") &&
  decide (v.gasPrice ≠ "") && decide (v.voterAddress ≠ "")

/-- Writes a saved vote back: the first document with its `_id` is replaced. -/
def replaceVote : List Vote → Vote → List Vote
  | [], _ => []
  | v :: vs, w => if v._id = w._id then w :: vs else v :: replaceVote vs w

/-- The expression `/^[a-fA-F0-9]{24}$/` of `validateVoteId`. -/
def voteIdRegex : List RegexPiece :=
  [{ atom := .cls [('a', 'f'), ('A', 'F'), ('0', '9')], count := 24 }]

/-- The middleware `validateVoteId` on the path parameter. -/
def validateVoteId {α : Type} (voteId : String) : Option (Response α) :=
  if voteId = "" ∨ !regexTest voteIdRegex voteId.data then
    some (.failure 400 "Valid vote ID is required")
  else none

/-- The query `Vote.findById(voteId)`: the text is cast to an identifier first.
Twenty-four hexadecimal digits name the identifier with the same digits in
lower case; any other text is taken as a failed cast (the route lets no such
text through). -/
def findById (vs : List Vote) (voteId : String) : Except Thrown (Option Vote) :=
  if regexTest voteIdRegex voteId.data then
    .ok (vs.find? (fun v => decide (v._id = toLowerCase voteId)))
  else .error (.castError "_id")

/-- The handler `verifyVote` (`controllers/voteController.js`): the vote named
by the path parameter is looked up (404 when there is none), marked verified
with its own identifier as verification hash, and saved; the answer carries
its summary. -/
def verifyVote (s : System) (voteId : String) : System × Response VoteSummary :=
  match findById s.votes voteId with
  | .error e => (s, .caught "Failed to verify vote" e)
  | .ok none => (s, .failure 404 "Vote not found")
  | .ok (some vote) =>
    if vote.verify.valid then
      ({ s with votes := replaceVote s.votes vote.verify },
        { status := 200, success := true, error := none,
          message := some "Vote verified successfully", thrown := none,
          data := some vote.verify.getSummary })
    else (s, .caught "Failed to verify vote" (.validationError "required path"))

/-- The route `router.put('/:voteId/verify', validateVoteId, voteController.verifyVote)`. -/
def putVerify (s : System) (voteId : String) : System × Response VoteSummary :=
  match validateVoteId voteId with
  | some r => (s, r)
  | none => verifyVote s voteId

/-- The predicate kept by `addVote` and `removeVote`: no address twice among
the voters, each of them in lower case, and the counter equal to their
number (a counter is a natural number, so it is never negative). -/
def Proposal.votersConsistent (p : Proposal) : Prop :=
  p.voters.Nodup ∧ (∀ a ∈ p.voters, toLowerCase a = a) ∧ p.voteCount = p.voters.length

/-- A vote store in which each verified vote carries its own identifier as
verification hash, as `verifyVote` leaves it. -/
def verifiedByHandler (vs : List Vote) : Prop :=
  ∀ v ∈ vs, v.isVerified = true → v.verificationHash = some v._id

/-- The vote document of the sample address for the sample proposal. -/
def sampleVote : Vote :=
  { _id := "65a000000000000000000001"
    proposalId := 12
    contractAddress := contractAddress
    transactionHash := "0x8a3f1c"
    blockNumber := 12357
    gasUsed := 51234
    gasPrice := "20000000000"
    voterAddress := "0xabcdefabcdefabcdefabcdefabcdefabcdefabcd"
    voterBalance := "0"
    timestamp := 1700000001000
    isVerified := false
    verificationHash := none }

/-- The sample system after the sample vote was stored. -/
def votedSystem : System :=
  { proposals := [{ sampleProposal with voteCount := 1 }]
    votes := [sampleVote]
    ledger := { proposals := [], proposalCount := 0, votes := [] } }

/-! ## Reachable ledger states, and the class of `services/mockBlockchainService.js` -/

/-- The ledger before any call. -/
def emptyLedger : MockLedger :=
  { proposals := [], proposalCount := 0, votes := [] }

/-- The ledger states reached from the empty ledger by calls of
`createProposal` and `vote` of the ledger object of `blockchainService.js`. -/
inductive MockLedger.Reachable : MockLedger → Prop where
  | empty : MockLedger.Reachable emptyLedger
  | createProposal (l : MockLedger) (d : CreateDraw) (title description deadline : JsValue) :
    MockLedger.Reachable l →
    MockLedger.Reachable (l.createProposal d title description deadline).1
  | vote (l : MockLedger) (d : Draw) (proposalId voterAddress : JsValue) :
    MockLedger.Reachable l →
    MockLedger.Reachable (l.vote d proposalId voterAddress).1

/-- The owner address of the class `MockBlockchainService`. -/
def standaloneOwner : String := "0xabcdefabcdefabcdefabcdefabcdefabcdefabcd"

/-- The method `createProposal` of the class `MockBlockchainService`
(`services/mockBlockchainService.js`): the identifier is the raised counter. -/
def MockBlockchainService.createProposal (l : MockLedger) (d : CreateDraw)
    (title description deadline : JsValue) : MockLedger × CreateResult :=
  let proposalCount := l.proposalCount + 1
  let proposalId := proposalCount
  ({ proposals := mapSet l.proposals (.num proposalId)
        { id := .num proposalId
          title := title
          description := description
          voteCount := 0
          creator := standaloneOwner
          createdAt := d.now / 1000
          deadline := if deadline = .undefined then .num 0 else deadline
          isActive := true }
     proposalCount := proposalCount
     votes := mapSet l.votes (.num proposalId) [] },
    { proposalId := proposalId
      transactionHash := "0x" ++ d.randomHex
      blockNumber := 12345 + proposalId
      gasUsed := 100000 + d.randomGas })

/-- The method `vote` of the class `MockBlockchainService`: a proposal key
unknown to the ledger is refused. -/
def MockBlockchainService.vote (l : MockLedger) (d : Draw) (proposalId voterAddress : JsValue) :
    MockLedger × Except Thrown LedgerResult :=
  match mapGet l.proposals proposalId with
  | none => (l, .error (.error "Proposal does not exist"))
  | some proposal =>
    if !proposal.isActive then (l, .error (.error "Proposal is not active"))
    else
      match mapGet l.votes proposalId with
      | none => (l, .error (.typeError "voterSet is undefined"))
      | some voterSet =>
        if voterSet.contains voterAddress then
          (l, .error (.error "Already voted on this proposal"))
        else
          ({ l with
              votes := mapSet l.votes proposalId (voterSet ++ [voterAddress])
              proposals := mapSet l.proposals proposalId
                { proposal with voteCount := proposal.voteCount + 1 } },
            .ok { transactionHash := "0x" ++ d.randomHex
                  blockNumber := jsAddNumber 12345 proposalId
                  gasUsed := .num ((50000 + d.randomGas : Nat) : ℚ) })

/-- The method `hasUserVoted` of the class `MockBlockchainService`. -/
def MockBlockchainService.hasUserVoted (l : MockLedger) (proposalId voterAddress : JsValue) :
    Bool :=
  match mapGet l.votes proposalId with
  | some voterSet => voterSet.contains voterAddress
  | none => false

/-- The states of a `MockBlockchainService` reached from a new object by calls
of its `createProposal` and `vote`. -/
inductive MockBlockchainService.Reachable : MockLedger → Prop where
  | empty : MockBlockchainService.Reachable emptyLedger
  | createProposal (l : MockLedger) (d : CreateDraw) (title description deadline : JsValue) :
    MockBlockchainService.Reachable l →
    MockBlockchainService.Reachable
      (MockBlockchainService.createProposal l d title description deadline).1
  | vote (l : MockLedger) (d : Draw) (proposalId voterAddress : JsValue) :
    MockBlockchainService.Reachable l →
    MockBlockchainService.Reachable (MockBlockchainService.vote l d proposalId voterAddress).1

/-- A ledger state is consistent when every proposal it holds is filed under
its own identifier, is active, and has a voter set without repetition whose
size is the proposal counter; and no voter set is kept for a key without
proposal. -/
def MockLedger.Consistent (l : MockLedger) : Prop :=
  ∀ k : JsValue,
    (∀ p, mapGet l.proposals k = some p →
      p.id = k ∧ p.isActive = true ∧
      ∃ voterSet, mapGet l.votes k = some voterSet ∧ voterSet.Nodup ∧
        p.voteCount = voterSet.length) ∧
    (mapGet l.proposals k = none → mapGet l.votes k = none)

/-- The ledger after two addresses voted on key 12 of the empty ledger. -/
def votedLedger : MockLedger :=
  ((emptyLedger.vote sampleDraw (.num 12) (.str "0xa1")).1.vote otherDraw (.num 12)
    (.str "0xb2")).1

/-- The proposal the ledger `votedLedger` holds under key 12. -/
def votedLedgerProposal : LedgerProposal :=
  { id := .num 12
    title := .str "Proposal 12"
    description := .str "Proposal loaded from database"
    voteCount := 2
    creator := ledgerOwner
    createdAt := 1700000001
    deadline := .num 0
    isActive := true }

/-! ## The error middleware (`middleware/errorMiddleware.js`) -/

/-- Whether the characters `sub` open the list `cs`. -/
def startsWith : List Char → List Char → Bool
  | _, [] => true
  | [], _ :: _ => false
  | c :: cs, x :: sub => decide (c = x) && startsWith cs sub

/-- The method `String.prototype.includes`. -/
def includes (s sub : String) : Bool :=
  s.data.tails.any (fun cs => startsWith cs sub.data)

/-- An error object, with the properties `errorHandler` reads.  `errors` holds
the `message` of each value of the property `errors` (`none`: no such
property). -/
structure JsError where
  name : String
  message : String
  code : JsValue
  status : JsValue
  statusCode : JsValue
  errors : Option (List String)
  stack : String
deriving DecidableEq

/-- The object made by `new Error(message)`. -/
def newError (message : String) (stack : String) : JsError :=
  { name := "Error", message := message, code := .undefined, status := .undefined,
    statusCode := .undefined, errors := none, stack := stack }

/-- The object made by `new AppError(message, statusCode)`: the number goes to
`statusCode`, and `status` is the text `fail` or `error`. -/
def AppError (message : String) (statusCode : JsValue) (stack : String) : JsError :=
  { name := "Error"
    message := message
    code := .undefined
    status := if startsWith (jsToString statusCode).data ['4'] then .str "fail" else .str "error"
    statusCode := statusCode
    errors := none
    stack := stack }

/-- The error handed on by the middleware `notFound`. -/
def notFound (originalUrl : String) (stack : String) : JsError :=
  { newError ("Not Found - " ++ originalUrl) stack with status := .num 404 }

/-- What `errorHandler` sends: the argument of `res.status` and the body. -/
structure ErrorAnswer where
  status : JsValue
  success : Bool
  error : String
  stack : Option String
deriving DecidableEq

/-- The special cases of `errorHandler`, in the order of the source; each one
that applies replaces the pair of message and status built so far.  The case
`ValidationError` reads `err.errors`, and throws when there is none. -/
def errorHandler (development : Bool) (err : JsError) : Except Thrown ErrorAnswer :=
  let e0 : String × JsValue := (err.message, err.status)
  let e1 := if err.name = "CastError" then ("Resource not found", .num 404) else e0
  let e2 := if err.code = .num 11000 then ("Duplicate field value entered", .num 400) else e1
  let e3 : Option (String × JsValue) :=
    if err.name = "ValidationError" then
      match err.errors with
      | none => none
      | some messages => some (", ".intercalate messages, .num 400)
    else some e2
  match e3 with
  | none => .error (.typeError "Cannot convert undefined or null to object")
  | some e3 =>
    let e4 := if err.name = "JsonWebTokenError" then ("Invalid token", .num 401) else e3
    let e5 := if err.name = "TokenExpiredError" then ("Token expired", .num 401) else e4
    let e6 := if err.status = .num 429 then
      ("Too many requests, please try again later", .num 429) else e5
    let e7 := if err.message ≠ "" ∧ includes err.message "insufficient funds" then
      ("Insufficient funds for transaction", .num 400) else e6
    let e8 := if err.message ≠ "" ∧ includes err.message "user rejected" then
      ("Transaction rejected by user", .num 400) else e7
    let e9 := if err.message ≠ "" ∧ includes err.message "already voted" then
      ("User has already voted on this proposal", .num 400) else e8
    let e10 := if err.message ≠ "" ∧ includes err.message "proposal not found" then
      ("Proposal not found", .num 404) else e9
    let e11 := if err.message ≠ "" ∧ includes err.message "proposal expired" then
      ("Proposal has expired", .num 400) else e10
    .ok { status := if e11.2.truthy then e11.2 else .num 500
          success := false
          error := if e11.1 ≠ "" then e11.1 else "Internal Server Error"
          stack := if development then some err.stack else none }

/-- An error matches none of the special cases of `errorHandler`. -/
def JsError.plain (err : JsError) : Bool :=
  decide (err.name ≠ "CastError") && decide (err.code ≠ .num 11000) &&
  decide (err.name ≠ "ValidationError") && decide (err.name ≠ "JsonWebTokenError") &&
  decide (err.name ≠ "TokenExpiredError") && decide (err.status ≠ .num 429) &&
  !includes err.message "insufficient funds" && !includes err.message "user rejected" &&
  !includes err.message "already voted" && !includes err.message "proposal not found" &&
  !includes err.message "proposal expired"

/-! ## The read operations of the three controllers -/

/-- The query parameters of `GET /api/proposals`. -/
structure ListQuery where
  contractAddress : JsValue
  active : JsValue
  limit : JsValue
  page : JsValue
deriving DecidableEq

/-- The object `pagination` of the answer of `getAllProposals`; `pages` is
`none` when `Math.ceil(total / limit)` is not a finite number, which the JSON
body renders as `null`. -/
structure Pagination where
  page : Int
  limit : Int
  total : Nat
  pages : Option Int
deriving DecidableEq

/-- The `data` object of the answer of `getAllProposals`. -/
structure ProposalPage where
  proposals : List Proposal
  pagination : Pagination
deriving DecidableEq

/-- The filter `query` built by `getAllProposals`. -/
def matchesQuery (q : ListQuery) (p : Proposal) : Bool :=
  (!q.contractAddress.truthy || decide (p.contractAddress = jsToString q.contractAddress)) &&
  (decide (q.active = .undefined) || decide (p.isActive = some (decide (q.active = .str "true"))))

/-- The cursor option `sort({ createdAt: -1 })`; documents created at the same
time keep their order. -/
def newestFirst (ps : List Proposal) : List Proposal :=
  ps.insertionSort (fun a b => b.createdAt ≤ a.createdAt)

/-- The cursor options `skip` and `limit`: the store refuses a negative
`skip`; a `limit` of zero is no limit, and a negative one counts as its
absolute value. -/
def skipLimit {α : Type} (xs : List α) (skip limit : Int) : Except Thrown (List α) :=
  if skip < 0 then .error (.error "skip value must be non-negative")
  else .ok (if limit = 0 then xs.drop skip.toNat else (xs.drop skip.toNat).take limit.natAbs)

/-- The body of `getAllProposals` once `page` and `limit` are read: the query
with `skip` and `limit`, the count, and the answer. -/
def proposalsPage (s : System) (q : ListQuery) (pageNumber limitNumber : Int) :
    Response ProposalPage :=
  match skipLimit (newestFirst (s.proposals.filter (matchesQuery q)))
      ((pageNumber - 1) * limitNumber) limitNumber with
  | .error e => .caught "Failed to get proposals" e
  | .ok proposals =>
    { status := 200, success := true, error := none, message := none, thrown := none,
      data := some
        { proposals := proposals
          pagination :=
            { page := pageNumber
              limit := limitNumber
              total := (s.proposals.filter (matchesQuery q)).length
              pages := if limitNumber = 0 then none
                else some ⌈((s.proposals.filter (matchesQuery q)).length : ℚ) /
                  (limitNumber : ℚ)⌉ } } }

/-- The handler `getAllProposals`: `limit` and `page` default to 50 and 1 and go
through `parseInt`; a `NaN` or an infinity among them is refused by the store. -/
def getAllProposals (s : System) (q : ListQuery) : Response ProposalPage :=
  let limit := if q.limit = .undefined then .num 50 else q.limit
  let page := if q.page = .undefined then .num 1 else q.page
  match parseInt page, parseInt limit with
  | some pageNumber, some limitNumber => proposalsPage s q pageNumber limitNumber
  | _, _ => .caught "Failed to get proposals" (.castError "skip")

/-- The proposals answered under the query `q` when its `page` parameter is
read as `page` (counted from one); no proposals when the request fails. -/
def pageOf (s : System) (q : ListQuery) (page : Nat) : List Proposal :=
  match parseInt (if q.limit = .undefined then .num 50 else q.limit) with
  | some limitNumber =>
    match (proposalsPage s q page limitNumber).data with
    | some data => data.proposals
    | none => []
  | none => []

/-- The `data` object of the answer of `getProposalById`. -/
structure ProposalDetails where
  proposal : Proposal
  votes : List Vote
  voteCount : Nat
deriving DecidableEq

/-- The handler `getProposalById`. -/
def getProposalById (s : System) (proposalId : String) : Response ProposalDetails :=
  match parseIntString proposalId with
  | none =>
    if parseIntStringOverflows proposalId then .failure 404 "Proposal not found"
    else .caught "Failed to get proposal" (.castError "proposalId")
  | some n =>
    match s.proposals.find? (fun p => decide (p.proposalId = n)) with
    | none => .failure 404 "Proposal not found"
    | some proposal =>
      { status := 200, success := true, error := none, message := none, thrown := none,
        data := some
          { proposal := proposal
            votes := s.votes.filter (fun v => decide (v.proposalId = n))
            voteCount := (s.votes.filter (fun v => decide (v.proposalId = n))).length } }

/-- The `data` object of the answer of `getProposalStats`. -/
structure ProposalStats where
  proposalId : Int
  totalVotes : Nat
  uniqueVoters : Nat
  voters : List String
  isActive : Option Bool
  createdAt : Nat
  deadline : ℚ
deriving DecidableEq

/-- The handler `getProposalStats`; `[...new Set(xs)]` keeps the first
occurrence of each value. -/
def getProposalStats (s : System) (proposalId : String) : Response ProposalStats :=
  match parseIntString proposalId with
  | none =>
    if parseIntStringOverflows proposalId then .failure 404 "Proposal not found"
    else .caught "Failed to get proposal stats" (.castError "proposalId")
  | some n =>
    match s.proposals.find? (fun p => decide (p.proposalId = n)) with
    | none => .failure 404 "Proposal not found"
    | some proposal =>
      let votes := s.votes.filter (fun v => decide (v.proposalId = n))
      let uniqueVoters := (votes.map (fun v => v.voterAddress)).eraseDups
      { status := 200, success := true, error := none, message := none, thrown := none,
        data := some
          { proposalId := n
            totalVotes := votes.length
            uniqueVoters := uniqueVoters.length
            voters := uniqueVoters
            isActive := proposal.isActive
            createdAt := proposal.createdAt
            deadline := proposal.deadline } }

/-- The `data` object of the answer of `getActiveProposals`. -/
structure ProposalList where
  proposals : List Proposal
  count : Nat
deriving DecidableEq

/-- The handler `getActiveProposals`. -/
def getActiveProposals (s : System) : Response ProposalList :=
  let proposals := newestFirst (s.proposals.filter (fun p => decide (p.isActive = some true)))
  { status := 200, success := true, error := none, message := none, thrown := none,
    data := some { proposals := proposals, count := proposals.length } }

/-- The number of days a `timeRange` parameter stands for (`switch` with the
default of seven). -/
def daysOfRange (timeRange : JsValue) : Nat :=
  if timeRange = .str "1d" then 1
  else if timeRange = .str "30d" then 30
  else 7

/-- The day, counted from 1 January 1970 (UTC), a time in milliseconds falls on. -/
def dayNumber (ms : Nat) : Nat := ms / 86400000

/-- Year, month and day of the month (`$year`, `$month`, `$dayOfMonth`) of a
day counted from 1 January 1970. -/
def civilFromDays (day : Nat) : Nat × Nat × Nat :=
  let z := day + 719468
  let era := z / 146097
  let doe := z % 146097
  let yoe := (doe - doe / 1460 + doe / 36524 - doe / 146096) / 365
  let doy := doe - (365 * yoe + yoe / 4 - yoe / 100)
  let mp := (5 * doy + 2) / 153
  let d := doy - (153 * mp + 2) / 5 + 1
  let m := if mp < 10 then mp + 3 else mp - 9
  let y := yoe + era * 400
  (if m ≤ 2 then y + 1 else y, m, d)

/-- The call `n.toString().padStart(2, '0')`. -/
def padStart2 (n : Nat) : String :=
  if (natDigits n).length < 2 then "0" ++ natDigits n else natDigits n

/-- The label `year-month-day` the analytics handlers give to a day. -/
def dateLabel (day : Nat) : String :=
  natDigits (civilFromDays day).1 ++ "-" ++ padStart2 (civilFromDays day).2.1 ++ "-" ++
    padStart2 (civilFromDays day).2.2

/-- Whether a date (milliseconds) is at or after `now` less the days of the range. -/
def withinRange (now : Nat) (timeRange : JsValue) (date : Nat) : Bool :=
  decide ((now : Int) - (daysOfRange timeRange : Int) * 86400000 ≤ (date : Int))

/-- The days, in rising order, on which some of the given dates fall: the keys
of a `$group` by year, month and day followed by the `$sort` on them. -/
def groupDays (dates : List Nat) : List Nat :=
  ((dates.map dayNumber).eraseDups).insertionSort (fun a b => a ≤ b)

/-- One entry of the proposal analytics. -/
structure ProposalAnalyticsRow where
  date : String
  proposals : Nat
  totalVotes : Nat
deriving DecidableEq

/-- The `data` object of the answer of `getProposalAnalytics`. -/
structure ProposalAnalytics where
  timeRange : JsValue
  analytics : List ProposalAnalyticsRow
deriving DecidableEq

/-- The handler `getProposalAnalytics` at the clock value `now`. -/
def getProposalAnalytics (s : System) (now : Nat) (timeRange : JsValue) :
    Response ProposalAnalytics :=
  let range := if timeRange = .undefined then .str "7d" else timeRange
  let found := s.proposals.filter (fun p => withinRange now range p.createdAt)
  { status := 200, success := true, error := none, message := none, thrown := none,
    data := some
      { timeRange := range
        analytics := (groupDays (found.map (fun p => p.createdAt))).map (fun day =>
          { date := dateLabel day
            proposals := (found.filter (fun p => decide (dayNumber p.createdAt = day))).length
            totalVotes := ((found.filter (fun p => decide (dayNumber p.createdAt = day))).map
              (fun p => p.voteCount)).sum }) } }

/-- The `data` object of the answers of `checkUserVote` and `checkVoteStatus`. -/
structure VoteCheck where
  hasVoted : Bool
  vote : Option Vote
deriving DecidableEq

/-- The handler `checkUserVote` on the query parameters `proposalId` and
`voterAddress`; an identifier read as an infinity is one no vote carries. -/
def checkUserVote (s : System) (query : VoteBody) : Response VoteCheck :=
  if !query.proposalId.truthy || !query.voterAddress.truthy then
    .failure 400 "Proposal ID and voter address are required"
  else
    match query.voterAddress with
    | .str address =>
      match parseInt query.proposalId with
      | none =>
        if parseIntOverflows query.proposalId then
          { status := 200, success := true, error := none, message := none, thrown := none,
            data := some { hasVoted := false, vote := none } }
        else .caught "Failed to check vote status" (.castError "proposalId")
      | some n =>
        { status := 200, success := true, error := none, message := none, thrown := none,
          data := some
            { hasVoted := (findVote s.votes n (toLowerCase address)).isSome
              vote := findVote s.votes n (toLowerCase address) } }
    | _ =>
      .caught "Failed to check vote status"
        (.typeError "voterAddress.toLowerCase is not a function")

/-- The handler `checkVoteStatus` on its two path parameters. -/
def checkVoteStatus (s : System) (proposalId voterAddress : String) : Response VoteCheck :=
  match parseIntString proposalId with
  | none =>
    if parseIntStringOverflows proposalId then
      { status := 200, success := true, error := none, message := none, thrown := none,
        data := some { hasVoted := false, vote := none } }
    else .caught "Failed to check vote status" (.castError "proposalId")
  | some n =>
    { status := 200, success := true, error := none, message := none, thrown := none,
      data := some
        { hasVoted := (findVote s.votes n (toLowerCase voterAddress)).isSome
          vote := findVote s.votes n (toLowerCase voterAddress) } }

/-- The cursor option `sort({ timestamp: -1 })`. -/
def latestFirst (vs : List Vote) : List Vote :=
  vs.insertionSort (fun a b => b.timestamp ≤ a.timestamp)

/-- The `data` object of the answer of `getVotesForProposal`; `proposalId` is
`none` for an infinity, which the JSON body renders as `null`. -/
structure ProposalVotes where
  proposalId : Option Int
  votes : List Vote
  count : Nat
deriving DecidableEq

/-- The handler `getVotesForProposal`. -/
def getVotesForProposal (s : System) (proposalId : String) : Response ProposalVotes :=
  match parseIntString proposalId with
  | none =>
    if parseIntStringOverflows proposalId then
      { status := 200, success := true, error := none, message := none, thrown := none,
        data := some { proposalId := none, votes := [], count := 0 } }
    else .caught "Failed to get votes for proposal" (.castError "proposalId")
  | some n =>
    let votes := latestFirst (s.votes.filter (fun v => decide (v.proposalId = n)))
    { status := 200, success := true, error := none, message := none, thrown := none,
      data := some { proposalId := some n, votes := votes, count := votes.length } }

/-- The `data` object of the answer of `getVotesByVoter`. -/
structure VoterVotes where
  voterAddress : String
  votes : List Vote
  count : Nat
deriving DecidableEq

/-- The handler `getVotesByVoter`. -/
def getVotesByVoter (s : System) (voterAddress : String) : Response VoterVotes :=
  let votes := latestFirst
    (s.votes.filter (fun v => decide (v.voterAddress = toLowerCase voterAddress)))
  { status := 200, success := true, error := none, message := none, thrown := none,
    data := some
      { voterAddress := toLowerCase voterAddress, votes := votes, count := votes.length } }

/-- The `data` object of the answer of `getVotingStats`. -/
structure VotingStats where
  totalVotes : Nat
  uniqueVoterCount : Nat
  totalGasUsed : Int
deriving DecidableEq

/-- The handler `getVotingStats`: one group over the whole collection, or the
zeros of lines 217 to 221 when the collection is empty. -/
def getVotingStats (s : System) : Response VotingStats :=
  { status := 200, success := true, error := none, message := none, thrown := none,
    data := some
      (if s.votes.isEmpty then { totalVotes := 0, uniqueVoterCount := 0, totalGasUsed := 0 }
       else
        { totalVotes := s.votes.length
          uniqueVoterCount := ((s.votes.map (fun v => v.voterAddress)).eraseDups).length
          totalGasUsed := (s.votes.map (fun v => v.gasUsed)).sum }) }

/-- The `data` object of the answer of `getRecentVotes`. -/
structure VoteList where
  votes : List Vote
  count : Nat
deriving DecidableEq

/-- The handler `getRecentVotes`; `limit` defaults to 10. -/
def getRecentVotes (s : System) (limit : JsValue) : Response VoteList :=
  match parseInt (if limit = .undefined then .num 10 else limit) with
  | none => .caught "Failed to get recent votes" (.castError "limit")
  | some limitNumber =>
    match skipLimit (latestFirst s.votes) 0 limitNumber with
    | .error e => .caught "Failed to get recent votes" e
    | .ok votes =>
      { status := 200, success := true, error := none, message := none, thrown := none,
        data := some { votes := votes, count := votes.length } }

/-- One entry of the vote analytics. -/
structure VoteAnalyticsRow where
  date : String
  votes : Nat
  uniqueVoters : Nat
  totalGasUsed : Int
deriving DecidableEq

/-- The `data` object of the answer of `getVoteAnalytics`. -/
structure VoteAnalytics where
  timeRange : JsValue
  analytics : List VoteAnalyticsRow
deriving DecidableEq

/-- The handler `getVoteAnalytics` at the clock value `now`.  The stage
`$toInt` fails on a number outside the 32-bit range, which fails the whole
aggregation. -/
def getVoteAnalytics (s : System) (now : Nat) (contractAddress timeRange : JsValue) :
    Response VoteAnalytics :=
  let range := if timeRange = .undefined then .str "7d" else timeRange
  let found := s.votes.filter (fun v => withinRange now range v.timestamp &&
    (!contractAddress.truthy || decide (JsValue.str v.contractAddress = contractAddress)))
  if found.all (fun v => decide (-2147483648 ≤ v.gasUsed) && decide (v.gasUsed ≤ 2147483647)) then
    { status := 200, success := true, error := none, message := none, thrown := none,
      data := some
        { timeRange := range
          analytics := (groupDays (found.map (fun v => v.timestamp))).map (fun day =>
            { date := dateLabel day
              votes := (found.filter (fun v => decide (dayNumber v.timestamp = day))).length
              uniqueVoters := (((found.filter (fun v => decide (dayNumber v.timestamp = day))).map
                (fun v => v.voterAddress)).eraseDups).length
              totalGasUsed := ((found.filter (fun v => decide (dayNumber v.timestamp = day))).map
                (fun v => v.gasUsed)).sum }) } }
  else .caught "Failed to get vote analytics" (.error "Conversion would overflow target type")

/-- The object returned by `getContractInfo` of the ledger object. -/
structure ContractInfo where
  address : String
  owner : String
  isInitialized : Bool
  isMock : Bool
deriving DecidableEq

/-- The handler `getContractInfo`: it calls `blockchainService.getContractInfo`,
a method the ledger object has and the service object has not, so the call
throws and the answer is 500. -/
def getContractInfo : Response ContractInfo :=
  { status := 500, success := false, error := some "Failed to fetch contract information",
    message := some "blockchainService.getContractInfo is not a function",
    thrown := some (.typeError "blockchainService.getContractInfo is not a function"),
    data := none }

/-- The `data` object of the answer of `getContractStats`. -/
structure ContractStats where
  totalProposals : Nat
  activeProposals : Nat
  totalVotes : Nat
  uniqueVoters : Nat
deriving DecidableEq

/-- The handler `getContractStats`. -/
def getContractStats (s : System) : Response ContractStats :=
  { status := 200, success := true, error := none, message := none, thrown := none,
    data := some
      { totalProposals := s.proposals.length
        activeProposals := (s.proposals.filter (fun p => decide (p.isActive = some true))).length
        totalVotes := s.votes.length
        uniqueVoters := ((s.votes.map (fun v => v.voterAddress)).eraseDups).length } }

/-- The list returned by `blockchainService.getContractABI`. -/
def contractABI : List String :=
  ["event ProposalCreated(uint256 indexed proposalId, string title, string description, address indexed creator, uint256 timestamp)",
    "event VoteCasted(uint256 indexed proposalId, address indexed voter, uint256 timestamp)",
    "event ProposalClosed(uint256 indexed proposalId, uint256 finalVoteCount, uint256 timestamp)",
    "function createProposal(string memory _title, string memory _description, uint256 _deadline) external returns (uint256)",
    "function vote(uint256 _proposalId) external",
    "function getProposal(uint256 _proposalId) external view returns (string memory title, string memory description, uint256 voteCount, address creator, uint256 createdAt, uint256 deadline, bool isActive)",
    "function getAllProposals() external view returns (uint256[] memory proposalIds, string[] memory titles, string[] memory descriptions, uint256[] memory voteCounts, address[] memory creators, uint256[] memory createdAts, uint256[] memory deadlines, bool[] memory isActives)",
    "function hasUserVoted(uint256 _proposalId, address _voter) external view returns (bool hasVoted)",
    "function closeProposal(uint256 _proposalId) external",
    "function getProposalCount() external view returns (uint256 count)",
    "function getWinningProposal() external view returns (uint256 winningProposalId, uint256 maxVotes)",
    "function isProposalExpired(uint256 _proposalId) external view returns (bool isExpired)",
    "function getProposalStats(uint256 _proposalId) external view returns (uint256 totalVotes, bool isExpired, uint256 timeRemaining)",
    "function transferOwnership(address _newOwner) external",
    "function authorizeVoter(address _voter) external",
    "function revokeVoterAuthorization(address _voter) external"]

/-- The handler `getContractABI`. -/
def getContractABI : Response (List String) :=
  { status := 200, success := true, error := none, message := none, thrown := none,
    data := some contractABI }

/-- The `data` object of the answer of `getContractHealth`. -/
structure ContractHealth where
  isHealthy : Bool
  timestamp : Nat
deriving DecidableEq

/-- The handler `getContractHealth`: like `getContractInfo` it calls the method
the service object has not, and answers 500. -/
def getContractHealth : Response ContractHealth :=
  Response.caught "Contract health check failed"
    (.typeError "blockchainService.getContractInfo is not a function")

/-- The shape asked of an answer: `data` when `success` is true, an `error`
text when it is false. -/
def Response.wellFormed {α : Type} (r : Response α) : Bool :=
  if r.success then r.data.isSome else r.error.isSome

/-! ## More sample data -/

/-- A system that holds no document while its ledger holds proposal 12: the
state after proposal 12 was created and then deleted. -/
def unsyncedSystem : System :=
  (deleteProposal
    (createProposal emptySystem ⟨11, "8a3f1c", 40, 1700000000000⟩ sampleProposalBody).1 "12").1

/-- A store with two active proposals, the second one created later. -/
def twoProposalSystem : System :=
  { proposals :=
      [sampleProposal,
        { proposalId := 13
          contractAddress := contractAddress
          transactionHash := "0x6a4b"
          blockNumber := 12358
          title := "Upgrade Y"
          description := "Another text"
          creator := ledgerOwner
          deadline := 0
          isActive := some true
          voteCount := 0
          voters := []
          gasUsed := "100001"
          createdAt := 1700000005000 }]
    votes := []
    ledger := emptyLedger }

/-- The query `?limit=1&page=2`. -/
def secondPageQuery : ListQuery :=
  { contractAddress := .undefined, active := .undefined, limit := .str "1", page := .str "2" }

/-! ## Basic facts about the handler -/

theorem admission_error_status (s : System) (body : VoteBody) (r : Response VoteReceipt)
    (h : admission s body = .error r) : r.status = 400 ∨ r.status = 404 ∨ r.status = 500 := by
  unfold admission at h
  split at h
  · cases h; simp [Response.failure]
  · split at h
    · split at h <;> (cases h; simp [Response.failure, Response.caught])
    · split at h
      · cases h; simp [Response.failure]
      · split at h
        · split at h
          · cases h; simp [Response.failure]
          · split at h
            · cases h; simp [Response.failure]
            · cases h
        · cases h; simp [Response.caught]

theorem admission_ok (s : System) (body : VoteBody) (n : Int) (voter : String)
    (h : admission s body = .ok (n, voter)) :
    body.proposalId.truthy = true ∧ body.voterAddress.truthy = true ∧
    parseInt body.proposalId = some n ∧
    (∃ a, body.voterAddress = .str a ∧ voter = toLowerCase a) ∧
    (∃ p, findActiveProposal s.proposals n = some p) ∧
    findVote s.votes n voter = none ∧
    hasUserVoted s.ledger body.proposalId body.voterAddress = false := by
  unfold admission at h
  split at h
  · cases h
  · rename_i hargs
    split at h
    · split at h <;> cases h
    · rename_i m hm
      split at h
      · cases h
      · rename_i p hp
        split at h
        · rename_i a ha
          split at h
          · cases h
          · rename_i hv
            split at h
            · cases h
            · rename_i hl
              simp only [Except.ok.injEq, Prod.mk.injEq] at h
              obtain ⟨h1, h2⟩ := h
              subst h1 h2
              simp only [Bool.or_eq_true, Bool.not_eq_true', not_or, Bool.not_eq_false] at hargs
              exact ⟨hargs.1, hargs.2, hm, ⟨a, ha, rfl⟩, ⟨p, hp⟩, hv, by simpa using hl⟩
        · cases h

theorem insertVote_ok (vs vs' : List Vote) (v : Vote) (h : insertVote vs v = .ok vs') :
    vs' = vs ++ [v] ∧
    (∀ w ∈ vs, w.transactionHash ≠ v.transactionHash) ∧
    (∀ w ∈ vs, ¬ (w.contractAddress = v.contractAddress ∧ w.proposalId = v.proposalId ∧
      w.voterAddress = v.voterAddress)) := by
  unfold insertVote at h
  split at h
  · cases h
  · rename_i h1
    split at h
    · cases h
    · rename_i h2
      simp only [Except.ok.injEq] at h
      refine ⟨h.symm, ?_, ?_⟩
      · intro w hw hEq
        exact h1 (List.any_eq_true.mpr ⟨w, hw, by simpa using hEq⟩)
      · intro w hw hEq
        exact h2 (List.any_eq_true.mpr ⟨w, hw, by simp [hEq.1, hEq.2.1, hEq.2.2]⟩)

theorem newVote_ok (d : Draw) (n : Int) (voter : String) (result : LedgerResult) (v : Vote)
    (h : newVote d n voter result = .ok v) :
    v.proposalId = n ∧ v.voterAddress = voter ∧ v.contractAddress = contractAddress ∧
    v.transactionHash = result.transactionHash ∧
    castNumber result.blockNumber = some v.blockNumber ∧
    parseInt result.gasUsed = some v.gasUsed ∧ v.isVerified = false := by
  unfold newVote at h
  split at h
  · rename_i b g hb hg
    simp only [Except.ok.injEq] at h
    subst h
    exact ⟨rfl, rfl, rfl, rfl, hb, hg, rfl⟩
  · cases h
  · cases h

theorem castVote_of_admission_error (s : System) (d : Draw) (body : VoteBody)
    (r : Response VoteReceipt) (h : admission s body = .error r) :
    castVote s d body = (s, r) := by
  simp [castVote, h]

theorem castVote_of_ledger_error (s : System) (d : Draw) (body : VoteBody) (n : Int)
    (voter : String) (ledger : MockLedger) (e : Thrown)
    (h : admission s body = .ok (n, voter))
    (hl : voteOnProposal s.ledger d body.proposalId body.voterAddress = (ledger, .error e)) :
    castVote s d body = ({ s with ledger := ledger }, .caught "Failed to cast vote" e) := by
  simp [castVote, h, hl]

theorem castVote_of_save_error (s : System) (d : Draw) (body : VoteBody) (n : Int)
    (voter : String) (ledger : MockLedger) (result : LedgerResult) (e : Thrown)
    (h : admission s body = .ok (n, voter))
    (hl : voteOnProposal s.ledger d body.proposalId body.voterAddress = (ledger, .ok result))
    (hs : saveVote s.votes d n voter result = .error e) :
    castVote s d body = ({ s with ledger := ledger }, .caught "Failed to cast vote" e) := by
  simp [castVote, h, hl, hs]

theorem castVote_of_save_ok (s : System) (d : Draw) (body : VoteBody) (n : Int)
    (voter : String) (ledger : MockLedger) (result : LedgerResult) (votes : List Vote)
    (h : admission s body = .ok (n, voter))
    (hl : voteOnProposal s.ledger d body.proposalId body.voterAddress = (ledger, .ok result))
    (hs : saveVote s.votes d n voter result = .ok votes) :
    castVote s d body =
      ({ proposals := incVoteCount s.proposals n, votes := votes, ledger := ledger },
        .created (receiptOf n voter result)) := by
  simp [castVote, h, hl, hs]

theorem saveVote_ok (vs votes : List Vote) (d : Draw) (n : Int) (voter : String)
    (result : LedgerResult) (h : saveVote vs d n voter result = .ok votes) :
    ∃ v, newVote d n voter result = .ok v ∧ insertVote vs v = .ok (vs ++ [v]) ∧
      votes = vs ++ [v] := by
  unfold saveVote at h
  split at h
  · cases h
  · rename_i v hv
    have hins := (insertVote_ok _ _ _ h).1
    subst hins
    exact ⟨v, hv, h, rfl⟩

theorem castVote_accepted (s : System) (d : Draw) (body : VoteBody)
    (h : (castVote s d body).2.status = 201) :
    ∃ n voter ledger result v,
      admission s body = .ok (n, voter) ∧
      voteOnProposal s.ledger d body.proposalId body.voterAddress = (ledger, .ok result) ∧
      newVote d n voter result = .ok v ∧
      insertVote s.votes v = .ok (s.votes ++ [v]) ∧
      castVote s d body =
        ({ proposals := incVoteCount s.proposals n, votes := s.votes ++ [v], ledger := ledger },
          .created (receiptOf n voter result)) := by
  cases hadm : admission s body with
  | error r =>
    rw [castVote_of_admission_error s d body r hadm] at h
    have := admission_error_status s body r hadm
    simp only at h
    omega
  | ok pr =>
    obtain ⟨n, voter⟩ := pr
    cases hl : voteOnProposal s.ledger d body.proposalId body.voterAddress with
    | mk ledger res =>
      cases res with
      | error e =>
        rw [castVote_of_ledger_error s d body n voter ledger e hadm hl] at h
        simp [Response.caught] at h
      | ok result =>
        cases hs : saveVote s.votes d n voter result with
        | error e =>
          rw [castVote_of_save_error s d body n voter ledger result e hadm hl hs] at h
          simp [Response.caught] at h
        | ok votes =>
          obtain ⟨v, hv, hins, hvotes⟩ := saveVote_ok _ _ _ _ _ _ hs
          subst hvotes
          exact ⟨n, voter, ledger, result, v, rfl, rfl, hv, hins,
            castVote_of_save_ok s d body n voter ledger result _ hadm hl hs⟩

theorem castVote_rejected (s : System) (d : Draw) (body : VoteBody)
    (h : (castVote s d body).2.status ≠ 201) :
    (castVote s d body).1.proposals = s.proposals ∧ (castVote s d body).1.votes = s.votes := by
  cases hadm : admission s body with
  | error r =>
    rw [castVote_of_admission_error s d body r hadm]
    exact ⟨rfl, rfl⟩
  | ok pr =>
    obtain ⟨n, voter⟩ := pr
    cases hl : voteOnProposal s.ledger d body.proposalId body.voterAddress with
    | mk ledger res =>
      cases res with
      | error e =>
        rw [castVote_of_ledger_error s d body n voter ledger e hadm hl]
        exact ⟨rfl, rfl⟩
      | ok result =>
        cases hs : saveVote s.votes d n voter result with
        | error e =>
          rw [castVote_of_save_error s d body n voter ledger result e hadm hl hs]
          exact ⟨rfl, rfl⟩
        | ok votes =>
          rw [castVote_of_save_ok s d body n voter ledger result votes hadm hl hs] at h
          simp [Response.created] at h

theorem voteTally_append (vs : List Vote) (v : Vote) (i : Int) :
    voteTally (vs ++ [v]) i = voteTally vs i + (if v.proposalId = i then 1 else 0) := by
  unfold voteTally
  rw [List.countP_append]
  by_cases h : v.proposalId = i <;> simp [List.countP_cons, h]

theorem incVoteCount_ids (ps : List Proposal) (n : Int) :
    (incVoteCount ps n).map (·.proposalId) = ps.map (·.proposalId) := by
  induction ps with
  | nil => rfl
  | cons p ps ih =>
    unfold incVoteCount
    split
    · simp
    · simp [ih]

theorem incVoteCount_getElem? (ps : List Proposal) (n : Int)
    (hnd : (ps.map (·.proposalId)).Nodup) (i : Nat) (P : Proposal) (h : ps[i]? = some P) :
    (incVoteCount ps n)[i]? =
      some (if P.proposalId = n then { P with voteCount := P.voteCount + 1 } else P) := by
  induction ps generalizing i with
  | nil => simp at h
  | cons p ps ih =>
    simp only [List.map_cons, List.nodup_cons, List.mem_map, not_exists, not_and] at hnd
    unfold incVoteCount
    cases i with
    | zero =>
      simp only [List.getElem?_cons_zero, Option.some.injEq] at h
      subst h
      split <;> simp
    | succ j =>
      simp only [List.getElem?_cons_succ] at h
      split
      · rename_i hp
        have hne : P.proposalId ≠ n := by
          intro hP
          exact hnd.1 P (List.getElem?_mem h) (by rw [hP, hp])
        simp [h, hne]
      · simp only [List.getElem?_cons_succ]
        exact ih hnd.2 j h

theorem incVoteCount_getElem?_le (ps : List Proposal) (n : Int) (i : Nat) (P : Proposal)
    (h : ps[i]? = some P) :
    ∃ P', (incVoteCount ps n)[i]? = some P' ∧ P'.proposalId = P.proposalId ∧
      (P' = P ∨ (P.proposalId = n ∧ P'.voteCount = P.voteCount + 1)) := by
  induction ps generalizing i with
  | nil => simp at h
  | cons p ps ih =>
    unfold incVoteCount
    cases i with
    | zero =>
      simp only [List.getElem?_cons_zero, Option.some.injEq] at h
      subst h
      split
      · rename_i hp
        exact ⟨{ p with voteCount := p.voteCount + 1 }, by simp, rfl, Or.inr ⟨hp, rfl⟩⟩
      · exact ⟨_, by simp, rfl, Or.inl rfl⟩
    | succ j =>
      simp only [List.getElem?_cons_succ] at h
      split
      · exact ⟨P, by simp [h], rfl, Or.inl rfl⟩
      · simp only [List.getElem?_cons_succ]
        exact ih j h

theorem castVote_ids (s : System) (d : Draw) (body : VoteBody) :
    (castVote s d body).1.proposals.map (·.proposalId) = s.proposals.map (·.proposalId) := by
  by_cases h : (castVote s d body).2.status = 201
  · obtain ⟨n, voter, ledger, result, v, -, -, -, -, heq⟩ := castVote_accepted s d body h
    rw [heq]
    exact incVoteCount_ids s.proposals n
  · rw [(castVote_rejected s d body h).1]

theorem castVote_tally_step (s : System) (d : Draw) (body : VoteBody)
    (hnd : (s.proposals.map (·.proposalId)).Nodup) (i : Nat) (P : Proposal)
    (hP : s.proposals[i]? = some P) (hc : P.voteCount = voteTally s.votes P.proposalId) :
    ∃ P', (castVote s d body).1.proposals[i]? = some P' ∧ P'.proposalId = P.proposalId ∧
      P'.voteCount = voteTally (castVote s d body).1.votes P.proposalId := by
  by_cases h : (castVote s d body).2.status = 201
  · obtain ⟨n, voter, ledger, result, v, -, -, hv, -, heq⟩ := castVote_accepted s d body h
    have hvn := (newVote_ok d n voter result v hv).1
    rw [heq]
    simp only
    rw [incVoteCount_getElem? s.proposals n hnd i P hP, voteTally_append, hvn]
    by_cases hn : P.proposalId = n
    · refine ⟨_, rfl, ?_, ?_⟩
      · simp [hn]
      · simp [hn, hc]
    · refine ⟨_, rfl, ?_, ?_⟩
      · simp [hn]
      · have hn' : ¬ n = P.proposalId := fun e => hn e.symm
        simp [hn, hn', hc]
  · obtain ⟨h1, h2⟩ := castVote_rejected s d body h
    rw [h1, h2]
    exact ⟨P, hP, rfl, hc⟩

/-- C1. The tally invariant of a proposal survives every sequence of `castVote`
requests: a stored proposal whose `voteCount` equals the number of vote
documents carrying its identifier is, after the sequence, still stored at the
same place with the same identifier, and its `voteCount` again equals the
number of vote documents carrying that identifier.  The proposal store is
taken with its unique index on `proposalId`. -/
theorem castVotes_voteCount_eq_tally (s : System) (reqs : List (Draw × VoteBody))
    (hnd : (s.proposals.map (·.proposalId)).Nodup) (i : Nat) (P : Proposal)
    (hP : s.proposals[i]? = some P) (hc : P.voteCount = voteTally s.votes P.proposalId) :
    ∃ P', (castVotes s reqs).proposals[i]? = some P' ∧ P'.proposalId = P.proposalId ∧
      P'.voteCount = voteTally (castVotes s reqs).votes P.proposalId := by
  induction reqs generalizing s P with
  | nil => exact ⟨P, hP, rfl, hc⟩
  | cons req rest ih =>
    obtain ⟨d, body⟩ := req
    obtain ⟨P1, hP1, hid1, hc1⟩ := castVote_tally_step s d body hnd i P hP hc
    have hnd1 : ((castVote s d body).1.proposals.map (·.proposalId)).Nodup := by
      rw [castVote_ids]; exact hnd
    obtain ⟨P2, hP2, hid2, hc2⟩ := ih (castVote s d body).1 hnd1 P1 hP1 (by rw [hid1]; exact hc1)
    exact ⟨P2, hP2, by rw [hid2, hid1], by rw [hid1] at hc2; exact hc2⟩

/-- C1, at the sample system: one accepted vote. -/
theorem castVotes_voteCount_eq_tally_witness :
    (sampleSystem.proposals.map (·.proposalId)).Nodup ∧
    sampleSystem.proposals[0]? = some sampleProposal ∧
    sampleProposal.voteCount = voteTally sampleSystem.votes sampleProposal.proposalId ∧
    ∃ P', (castVotes sampleSystem [(sampleDraw, sampleBody)]).proposals[0]? = some P' ∧
      P'.proposalId = sampleProposal.proposalId ∧
      P'.voteCount =
        voteTally (castVotes sampleSystem [(sampleDraw, sampleBody)]).votes
          sampleProposal.proposalId :=
  ⟨by decide, by decide, by decide,
    castVotes_voteCount_eq_tally sampleSystem [(sampleDraw, sampleBody)] (by decide) 0
      sampleProposal (by decide) (by decide)⟩

/-- C2. `castVote` raises `voteCount` and leaves `voters` alone: on a freshly
created proposal, for which `voteCount = |voters| = 0`, an accepted vote
(answer 201) leaves `voteCount = 1` with an empty `voters` list. -/
theorem castVote_leaves_voters_untouched :
    sampleProposal.voteCount = sampleProposal.voters.length ∧
    (castVote sampleSystem sampleDraw sampleBody).2.status = 201 ∧
    (castVote sampleSystem sampleDraw sampleBody).1.proposals.map
      (fun p => (p.proposalId, p.voteCount, p.voters)) = [(12, 1, [])] := by
  decide

theorem findVote_eq_none (vs : List Vote) (n : Int) (voter : String)
    (h : findVote vs n voter = none) :
    ∀ w ∈ vs, ¬ (w.proposalId = n ∧ w.voterAddress = voter) := by
  unfold findVote at h
  rw [List.find?_eq_none] at h
  intro w hw hEq
  exact h w hw (by simp [hEq.1, hEq.2])

theorem findVote_isSome (vs : List Vote) (n : Int) (voter : String) (w : Vote) (hw : w ∈ vs)
    (h1 : w.proposalId = n) (h2 : w.voterAddress = voter) :
    ∃ v, findVote vs n voter = some v := by
  cases h : findVote vs n voter with
  | some v => exact ⟨v, rfl⟩
  | none => exact absurd ⟨h1, h2⟩ (findVote_eq_none vs n voter h w hw)

theorem toLower_toLower (c : Char) : c.toLower.toLower = c.toLower := by
  by_cases h : c.toNat ≥ 65 ∧ c.toNat ≤ 90
  · have hc : c = Char.ofNat c.toNat := (Char.ofNat_toNat c).symm
    obtain ⟨h1, h2⟩ := h
    generalize c.toNat = n at *
    subst hc
    interval_cases n <;> decide
  · have : c.toLower = c := by simp [Char.toLower, h]
    rw [this, this]

theorem toLowerCase_idem (a : String) : toLowerCase (toLowerCase a) = toLowerCase a := by
  simp [toLowerCase, List.map_map, Function.comp_def, toLower_toLower]

/-- What an accepted or rejected `castVote` does to the vote store. -/
theorem castVote_votes (s : System) (d : Draw) (body : VoteBody) :
    (castVote s d body).1.votes = s.votes ∨
    ∃ v a, (castVote s d body).1.votes = s.votes ++ [v] ∧
      body.voterAddress = .str a ∧ v.voterAddress = toLowerCase a ∧
      parseInt body.proposalId = some v.proposalId ∧
      ∀ w ∈ s.votes, ¬ (w.proposalId = v.proposalId ∧ w.voterAddress = v.voterAddress) := by
  by_cases h : (castVote s d body).2.status = 201
  · obtain ⟨n, voter, ledger, result, v, hadm, -, hv, -, heq⟩ := castVote_accepted s d body h
    obtain ⟨-, -, hn, ⟨a, ha, hvoter⟩, -, hfind, -⟩ := admission_ok s body n voter hadm
    obtain ⟨hvn, hva, -⟩ := newVote_ok d n voter result v hv
    refine Or.inr ⟨v, a, by rw [heq], ha, by rw [hva, hvoter], by rw [hvn]; exact hn, ?_⟩
    rw [hvn, hva]
    exact findVote_eq_none s.votes n voter hfind
  · exact Or.inl (castVote_rejected s d body h).2

theorem castVote_nodup_pairs (s : System) (d : Draw) (body : VoteBody)
    (h : (s.votes.map (fun v => (v.proposalId, v.voterAddress))).Nodup) :
    ((castVote s d body).1.votes.map (fun v => (v.proposalId, v.voterAddress))).Nodup := by
  rcases castVote_votes s d body with h1 | ⟨v, a, h1, -, -, -, hnew⟩
  · rw [h1]; exact h
  · rw [h1, List.map_append, List.nodup_append]
    refine ⟨h, List.nodup_singleton _, ?_⟩
    intro x hx hx'
    simp only [List.map_cons, List.map_nil, List.mem_singleton] at hx'
    subst hx'
    obtain ⟨w, hw, hwe⟩ := List.mem_map.mp hx
    simp only [Prod.mk.injEq] at hwe
    exact hnew w hw hwe

theorem castVote_lowercased (s : System) (d : Draw) (body : VoteBody)
    (h : ∀ v ∈ s.votes, toLowerCase v.voterAddress = v.voterAddress) :
    ∀ v ∈ (castVote s d body).1.votes, toLowerCase v.voterAddress = v.voterAddress := by
  rcases castVote_votes s d body with h1 | ⟨v, a, h1, -, hva, -, -⟩
  · rw [h1]; exact h
  · rw [h1]
    intro w hw
    rcases List.mem_append.mp hw with hw | hw
    · exact h w hw
    · simp only [List.mem_singleton] at hw
      subst hw
      rw [hva, toLowerCase_idem]

theorem castVotes_nodup_pairs (s : System) (reqs : List (Draw × VoteBody))
    (h : (s.votes.map (fun v => (v.proposalId, v.voterAddress))).Nodup) :
    ((castVotes s reqs).votes.map (fun v => (v.proposalId, v.voterAddress))).Nodup := by
  induction reqs generalizing s with
  | nil => exact h
  | cons req rest ih => exact ih _ (castVote_nodup_pairs s req.1 req.2 h)

theorem castVotes_lowercased (s : System) (reqs : List (Draw × VoteBody))
    (h : ∀ v ∈ s.votes, toLowerCase v.voterAddress = v.voterAddress) :
    ∀ v ∈ (castVotes s reqs).votes, toLowerCase v.voterAddress = v.voterAddress := by
  induction reqs generalizing s with
  | nil => exact h
  | cons req rest ih => exact ih _ (castVote_lowercased s req.1 req.2 h)

theorem map_lowercased_pairs (vs : List Vote)
    (h : ∀ v ∈ vs, toLowerCase v.voterAddress = v.voterAddress) :
    vs.map (fun v => (v.proposalId, toLowerCase v.voterAddress)) =
      vs.map (fun v => (v.proposalId, v.voterAddress)) := by
  apply List.map_congr_left
  intro v hv
  rw [h v hv]

/-- C3, as stated, fails: the store of `mixedCaseSystem` holds one vote, whose
address is kept in mixed case, so it holds at most one vote for each
`(proposalId, lower-cased voterAddress)`; a vote of the same address written
in lower case for the same proposal is accepted, and the store then holds two
votes with the same `(proposalId, lower-cased voterAddress)`. -/
theorem castVote_second_vote_of_mixed_case_voter :
    (mixedCaseSystem.votes.map (fun v => (v.proposalId, toLowerCase v.voterAddress))).Nodup ∧
    (castVote mixedCaseSystem otherDraw lowerCaseBody).2.status = 201 ∧
    (castVotes mixedCaseSystem [(otherDraw, lowerCaseBody)]).votes.map
        (fun v => (v.proposalId, toLowerCase v.voterAddress)) =
      [(12, "0xabcdefabcdefabcdefabcdefabcdefabcdefabcd"),
        (12, "0xabcdefabcdefabcdefabcdefabcdefabcdefabcd")] ∧
    ¬ ((castVotes mixedCaseSystem [(otherDraw, lowerCaseBody)]).votes.map
        (fun v => (v.proposalId, toLowerCase v.voterAddress))).Nodup := by
  decide

/-- C3, amended. Every sequence of `castVote` requests keeps the vote store
free of two documents with the same `(proposalId, voterAddress)`; and when the
stored addresses are lower-cased to begin with (as every address written by
`castVote` is), they stay so and the store stays free of two documents with
the same `(proposalId, lower-cased voterAddress)`. -/
theorem castVotes_one_vote_per_voter (s : System) (reqs : List (Draw × VoteBody)) :
    ((s.votes.map (fun v => (v.proposalId, v.voterAddress))).Nodup →
      ((castVotes s reqs).votes.map (fun v => (v.proposalId, v.voterAddress))).Nodup) ∧
    ((∀ v ∈ s.votes, toLowerCase v.voterAddress = v.voterAddress) →
      (s.votes.map (fun v => (v.proposalId, toLowerCase v.voterAddress))).Nodup →
      ((castVotes s reqs).votes.map
          (fun v => (v.proposalId, toLowerCase v.voterAddress))).Nodup ∧
        ∀ v ∈ (castVotes s reqs).votes, toLowerCase v.voterAddress = v.voterAddress) := by
  refine ⟨castVotes_nodup_pairs s reqs, ?_⟩
  intro hl hnd
  have hl' := castVotes_lowercased s reqs hl
  refine ⟨?_, hl'⟩
  rw [map_lowercased_pairs _ hl']
  apply castVotes_nodup_pairs
  rw [← map_lowercased_pairs _ hl]
  exact hnd

/-- C3, amended, from the state left by the accepted sample vote: the same vote sent
again in lower case, then a vote of a second address. -/
theorem castVotes_one_vote_per_voter_witness :
    (∀ v ∈ (castVote sampleSystem sampleDraw sampleBody).1.votes,
      toLowerCase v.voterAddress = v.voterAddress) ∧
    ((castVote sampleSystem sampleDraw sampleBody).1.votes.map
      (fun v => (v.proposalId, toLowerCase v.voterAddress))).Nodup ∧
    ((castVotes (castVote sampleSystem sampleDraw sampleBody).1
        [(otherDraw, { proposalId := .str "12", voterAddress := .str (toLowerCase sampleAddress) }),
          (otherDraw, secondBody)]
      ).votes.map (fun v => (v.proposalId, toLowerCase v.voterAddress))).Nodup :=
  ⟨by decide, by decide,
    ((castVotes_one_vote_per_voter (castVote sampleSystem sampleDraw sampleBody).1 _).2
      (by decide) (by decide)).1⟩

theorem findActiveProposal_eq_none (ps : List Proposal) (n : Int)
    (h : ∀ p ∈ ps, p.proposalId = n → p.isActive ≠ some true) :
    findActiveProposal ps n = none := by
  unfold findActiveProposal
  rw [List.find?_eq_none]
  intro p hp
  have := h p hp
  simp only [Bool.and_eq_true, decide_eq_true_eq, not_and]
  exact this

/-- C4, as stated, fails: the number `1e21` names no proposal of the store of
`firstProposalSystem`, whose only proposal has the identifier 1, and passes
`validateVote`; `parseInt` reads 1 from its text `1e+21`, and the vote is
accepted as a vote for proposal 1, stored and counted.  The number `Infinity`
names no stored proposal either and is answered 500, not 404. -/
theorem castVote_unstored_id_accepted :
    largeIdBody.proposalId.truthy = true ∧ largeIdBody.voterAddress.truthy = true ∧
    validateVote largeIdBody = none ∧
    (∀ p ∈ firstProposalSystem.proposals,
      JsValue.num (p.proposalId : ℚ) ≠ largeIdBody.proposalId) ∧
    (castVote firstProposalSystem sampleDraw largeIdBody).2.status = 201 ∧
    (castVote firstProposalSystem sampleDraw largeIdBody).1.votes.map (·.proposalId) = [1] ∧
    (castVote firstProposalSystem sampleDraw largeIdBody).1.proposals.map
      (fun p => (p.proposalId, p.voteCount)) = [(1, 1)] ∧
    infinityBody.proposalId.truthy = true ∧ infinityBody.voterAddress.truthy = true ∧
    validateVote infinityBody = none ∧
    (castVote sampleSystem sampleDraw infinityBody).2.status = 500 := by
  decide

/-- C4, amended. A request with both arguments present, from whose
`proposalId` `parseInt` reads an integer that names no stored proposal, or
only a proposal that is not active, is answered 404 with `success: false`,
and the whole state (votes, proposals with their counters, ledger) is left as
it was. -/
theorem castVote_proposal_unavailable (s : System) (d : Draw) (body : VoteBody) (n : Int)
    (hp : body.proposalId.truthy = true) (ha : body.voterAddress.truthy = true)
    (hn : parseInt body.proposalId = some n)
    (hna : ∀ p ∈ s.proposals, p.proposalId = n → p.isActive ≠ some true) :
    (castVote s d body).1 = s ∧
    (castVote s d body).2 = Response.failure 404 "Proposal not found or not active" ∧
    (castVote s d body).2.status = 404 ∧ (castVote s d body).2.success = false := by
  have hadm : admission s body = .error (.failure 404 "Proposal not found or not active") := by
    simp [admission, hp, ha, hn, findActiveProposal_eq_none s.proposals n hna]
  rw [castVote_of_admission_error s d body _ hadm]
  exact ⟨rfl, rfl, rfl, rfl⟩

/-- C4, amended, at the sample system: a vote for proposal 13, which is not
stored. -/
theorem castVote_proposal_unavailable_witness :
    (castVote sampleSystem sampleDraw
        { proposalId := .num 13, voterAddress := .str sampleAddress }).1 = sampleSystem ∧
    (castVote sampleSystem sampleDraw
        { proposalId := .num 13, voterAddress := .str sampleAddress }).2.status = 404 :=
  have h := castVote_proposal_unavailable sampleSystem sampleDraw
    { proposalId := .num 13, voterAddress := .str sampleAddress } 13
    (by decide) (by decide) (by decide) (by decide)
  ⟨h.1, h.2.2.1⟩

theorem findActiveProposal_isSome (ps : List Proposal) (n : Int)
    (h : ∃ p ∈ ps, p.proposalId = n ∧ p.isActive = some true) :
    ∃ p, findActiveProposal ps n = some p := by
  cases hf : findActiveProposal ps n with
  | some p => exact ⟨p, rfl⟩
  | none =>
    obtain ⟨p, hp, h1, h2⟩ := h
    unfold findActiveProposal at hf
    rw [List.find?_eq_none] at hf
    exact absurd (by simp [h1, h2]) (hf p hp)

theorem findActiveProposal_some (ps : List Proposal) (n : Int) (p : Proposal)
    (h : findActiveProposal ps n = some p) :
    p ∈ ps ∧ p.proposalId = n ∧ p.isActive = some true := by
  unfold findActiveProposal at h
  have h1 := List.mem_of_find?_eq_some h
  have h2 := List.find?_some h
  simp only [Bool.and_eq_true, decide_eq_true_eq] at h2
  exact ⟨h1, h2.1, h2.2⟩

/-- The duplicate check: with both arguments present, an active proposal and a
stored vote for the lower-cased address, the answer is 400 and nothing changes. -/
theorem castVote_duplicate (s : System) (d : Draw) (pid : JsValue) (b : String) (n : Int)
    (hp : pid.truthy = true) (hb : b ≠ "") (hn : parseInt pid = some n)
    (hactive : ∃ p ∈ s.proposals, p.proposalId = n ∧ p.isActive = some true)
    (hvote : ∃ w ∈ s.votes, w.proposalId = n ∧ w.voterAddress = toLowerCase b) :
    castVote s d { proposalId := pid, voterAddress := .str b } =
      (s, Response.failure 400 "User has already voted on this proposal") := by
  obtain ⟨p, hfp⟩ := findActiveProposal_isSome s.proposals n hactive
  obtain ⟨w, hw, hw1, hw2⟩ := hvote
  obtain ⟨v, hfv⟩ := findVote_isSome s.votes n (toLowerCase b) w hw hw1 hw2
  have hbt : (JsValue.str b).truthy = true := by simp [JsValue.truthy, hb]
  apply castVote_of_admission_error
  simp [admission, hp, hbt, hn, hfp, hfv]

theorem incVoteCount_active (ps : List Proposal) (m n : Int)
    (h : ∃ p ∈ ps, p.proposalId = n ∧ p.isActive = some true) :
    ∃ p ∈ incVoteCount ps m, p.proposalId = n ∧ p.isActive = some true := by
  induction ps with
  | nil => simp at h
  | cons q qs ih =>
    obtain ⟨p, hp, h1, h2⟩ := h
    unfold incVoteCount
    rcases List.mem_cons.mp hp with hpq | hpq
    · subst hpq
      split
      · exact ⟨{ p with voteCount := p.voteCount + 1 }, List.mem_cons_self _ _, h1, h2⟩
      · exact ⟨p, List.mem_cons_self _ _, h1, h2⟩
    · split
      · exact ⟨p, List.mem_cons_of_mem _ hpq, h1, h2⟩
      · obtain ⟨p', hp', h1', h2'⟩ := ih ⟨p, hpq, h1, h2⟩
        exact ⟨p', List.mem_cons_of_mem _ hp', h1', h2'⟩

theorem castVote_keeps_active (s : System) (d : Draw) (body : VoteBody) (n : Int)
    (h : ∃ p ∈ s.proposals, p.proposalId = n ∧ p.isActive = some true) :
    ∃ p ∈ (castVote s d body).1.proposals, p.proposalId = n ∧ p.isActive = some true := by
  by_cases h201 : (castVote s d body).2.status = 201
  · obtain ⟨m, voter, ledger, result, v, -, -, -, -, heq⟩ := castVote_accepted s d body h201
    rw [heq]
    exact incVoteCount_active s.proposals m n h
  · rw [(castVote_rejected s d body h201).1]
    exact h

theorem castVote_keeps_votes (s : System) (d : Draw) (body : VoteBody) (w : Vote)
    (h : w ∈ s.votes) : w ∈ (castVote s d body).1.votes := by
  rcases castVote_votes s d body with h1 | ⟨v, a, h1, -⟩
  · rw [h1]; exact h
  · rw [h1]; exact List.mem_append_left _ h

theorem castVotes_keeps_active (s : System) (reqs : List (Draw × VoteBody)) (n : Int)
    (h : ∃ p ∈ s.proposals, p.proposalId = n ∧ p.isActive = some true) :
    ∃ p ∈ (castVotes s reqs).proposals, p.proposalId = n ∧ p.isActive = some true := by
  induction reqs generalizing s with
  | nil => exact h
  | cons req rest ih => exact ih _ (castVote_keeps_active s req.1 req.2 n h)

theorem castVotes_keeps_votes (s : System) (reqs : List (Draw × VoteBody)) (w : Vote)
    (h : w ∈ s.votes) : w ∈ (castVotes s reqs).votes := by
  induction reqs generalizing s with
  | nil => exact h
  | cons req rest ih => exact ih _ (castVote_keeps_votes s req.1 req.2 w h)

/-- What an accepted `castVote` leaves behind: the new vote document and an
active proposal with the requested identifier. -/
theorem castVote_accepted_facts (s : System) (d : Draw) (body : VoteBody)
    (h : (castVote s d body).2.status = 201) :
    ∃ n a v, body.proposalId.truthy = true ∧ parseInt body.proposalId = some n ∧
      body.voterAddress = .str a ∧ a ≠ "" ∧
      (castVote s d body).1.votes = s.votes ++ [v] ∧
      v.proposalId = n ∧ v.voterAddress = toLowerCase a ∧
      ∃ p ∈ (castVote s d body).1.proposals, p.proposalId = n ∧ p.isActive = some true := by
  obtain ⟨n, voter, ledger, result, v, hadm, -, hv, -, heq⟩ := castVote_accepted s d body h
  obtain ⟨hp, hat, hn, ⟨a, ha, hvoter⟩, ⟨p, hfp⟩, -, -⟩ := admission_ok s body n voter hadm
  obtain ⟨hvn, hva, -⟩ := newVote_ok d n voter result v hv
  have hne : a ≠ "" := by
    rw [ha] at hat
    simpa [JsValue.truthy] using hat
  obtain ⟨hmem, h1, h2⟩ := findActiveProposal_some s.proposals n p hfp
  refine ⟨n, a, v, hp, hn, ha, hne, by rw [heq], hvn, by rw [hva, hvoter], ?_⟩
  exact castVote_keeps_active s d body n ⟨p, hmem, h1, h2⟩

/-- C5, as stated, fails: the sample vote is accepted, the proposal is then
closed through `updateProposal`, and the same vote sent again is answered 404
(proposal unavailable), not 400 (duplicate vote). -/
theorem castVote_again_after_close_is_404 :
    (castVote sampleSystem sampleDraw sampleBody).2.status = 201 ∧
    (updateProposal (castVote sampleSystem sampleDraw sampleBody).1 "12"
      { title := .undefined, description := .undefined, isActive := .bool false }).2.status
      = 200 ∧
    (castVote
      (updateProposal (castVote sampleSystem sampleDraw sampleBody).1 "12"
        { title := .undefined, description := .undefined, isActive := .bool false }).1
      otherDraw sampleBody).2.status = 404 := by
  decide

/-- C5, amended. Once a `castVote` for a pair has been accepted, the same
request sent in any later state that still holds the vote documents and an
active proposal with that identifier is answered 400 'User has already voted
on this proposal' and changes nothing: no vote is added, no counter moves. -/
theorem castVote_again_is_duplicate (s : System) (d : Draw) (body : VoteBody)
    (h : (castVote s d body).2.status = 201) (s2 : System) (d2 : Draw) (n : Int)
    (hn : parseInt body.proposalId = some n)
    (hvotes : ∀ v ∈ (castVote s d body).1.votes, v ∈ s2.votes)
    (hactive : ∃ p ∈ s2.proposals, p.proposalId = n ∧ p.isActive = some true) :
    castVote s2 d2 body =
      (s2, Response.failure 400 "User has already voted on this proposal") := by
  obtain ⟨m, a, v, hp, hm, ha, hne, hvs, hvn, hva, -⟩ := castVote_accepted_facts s d body h
  have hmn : m = n := by rw [hm] at hn; exact Option.some.inj hn
  subst hmn
  have hv2 : v ∈ s2.votes := hvotes v (by rw [hvs]; simp)
  have hbody : body = { proposalId := body.proposalId, voterAddress := .str a } := by
    cases body; simp_all
  rw [hbody]
  exact castVote_duplicate s2 d2 body.proposalId a m hp hne hm hactive ⟨v, hv2, hvn, hva⟩

/-- C5, amended, at the sample system: the vote is repeated after a vote of
another address for the same proposal. -/
theorem castVote_again_is_duplicate_witness :
    (castVote sampleSystem sampleDraw sampleBody).2.status = 201 ∧
    castVote
      (castVotes (castVote sampleSystem sampleDraw sampleBody).1
        [(otherDraw, { proposalId := .num 12, voterAddress := .str "0x00000000000000000000000000000000000000a1" })])
      otherDraw sampleBody =
      (castVotes (castVote sampleSystem sampleDraw sampleBody).1
        [(otherDraw, { proposalId := .num 12, voterAddress := .str "0x00000000000000000000000000000000000000a1" })],
        Response.failure 400 "User has already voted on this proposal") :=
  ⟨by decide,
    castVote_again_is_duplicate sampleSystem sampleDraw sampleBody (by decide) _ otherDraw 12
      (by decide) (fun v hv => castVotes_keeps_votes _ _ v hv)
      (castVotes_keeps_active _ _ 12 (by decide))⟩

theorem toLowerCase_eq_empty (a : String) (h : toLowerCase a = "") : a = "" := by
  unfold toLowerCase at h
  have h1 : (String.mk (a.data.map Char.toLower)).data = "".data := by rw [h]
  have h2 : a.data = [] := by simpa using h1
  cases a
  simp_all

/-- C6. Addresses are compared lower-cased: when `castVote` for `(pid, a)` has
been accepted, the store has gained one vote whose `voterAddress` is the
lower-cased `a` and whose `proposalId` is the integer value of `pid`, and a
`castVote` for `(pid, b)` with `b` equal to `a` up to letter case, sent right
away or after any further `castVote` requests, is answered 400 'User has
already voted on this proposal' and changes nothing. -/
theorem castVote_case_insensitive (s : System) (d : Draw) (pid : JsValue) (a b : String)
    (hab : toLowerCase a = toLowerCase b)
    (h : (castVote s d { proposalId := pid, voterAddress := .str a }).2.status = 201)
    (reqs : List (Draw × VoteBody)) (d2 : Draw) :
    (∃ v, (castVote s d { proposalId := pid, voterAddress := .str a }).1.votes = s.votes ++ [v] ∧
      v.voterAddress = toLowerCase a ∧ parseInt pid = some v.proposalId) ∧
    castVote (castVotes (castVote s d { proposalId := pid, voterAddress := .str a }).1 reqs) d2
        { proposalId := pid, voterAddress := .str b } =
      (castVotes (castVote s d { proposalId := pid, voterAddress := .str a }).1 reqs,
        Response.failure 400 "User has already voted on this proposal") := by
  obtain ⟨n, a', v, hp, hn, ha, hne, hvs, hvn, hva, hact⟩ := castVote_accepted_facts s d _ h
  simp only [JsValue.str.injEq] at ha
  subst ha
  have hb : b ≠ "" := by
    intro hb
    subst hb
    exact hne (toLowerCase_eq_empty a hab)
  refine ⟨⟨v, hvs, hva, by rw [hvn]; exact hn⟩, ?_⟩
  apply castVote_duplicate _ d2 pid b n hp hb hn (castVotes_keeps_active _ reqs n hact)
  refine ⟨v, castVotes_keeps_votes _ reqs v (by rw [hvs]; simp), hvn, ?_⟩
  rw [hva, hab]

/-- C6, at the sample system: the mixed-case sample address, then its
lower-cased form. -/
theorem castVote_case_insensitive_witness :
    toLowerCase sampleAddress = toLowerCase "0xabcdefabcdefabcdefabcdefabcdefabcdefabcd" ∧
    (castVote (castVote sampleSystem sampleDraw sampleBody).1 otherDraw
      { proposalId := .num 12,
        voterAddress := .str "0xabcdefabcdefabcdefabcdefabcdefabcdefabcd" }).2.status = 400 :=
  ⟨by decide,
    by
      have h := (castVote_case_insensitive sampleSystem sampleDraw (.num 12) sampleAddress
        "0xabcdefabcdefabcdefabcdefabcdefabcdefabcd" (by decide) (by decide) [] otherDraw).2
      simp only [castVotes] at h
      exact congrArg (fun r => r.2.status) h⟩

theorem incVoteCount_length (ps : List Proposal) (n : Int) :
    (incVoteCount ps n).length = ps.length := by
  have := congrArg List.length (incVoteCount_ids ps n)
  simpa using this

/-- C7, as stated, fails.  For the identifier `12abc` all four checks pass and
the answer is 500, not 201 (the ledger returns the block number `1234512abc`,
which the vote schema cannot cast to a number).  For the identifier `Infinity`
the arguments are present and the answer is 500, the failure of none of the
checks: `parseInt` reads `NaN`, which the proposal query refuses.  For the
address `true` the arguments are present and the proposal is stored and
active, and the answer is again 500: the value has no `toLowerCase`. -/
theorem castVote_checks_pass_but_500 :
    (trailingTextBody.proposalId.truthy = true ∧ trailingTextBody.voterAddress.truthy = true ∧
      parseInt trailingTextBody.proposalId = some 12 ∧
      (∃ p ∈ sampleSystem.proposals, p.proposalId = 12 ∧ p.isActive = some true) ∧
      (¬ ∃ v ∈ sampleSystem.votes, v.proposalId = 12 ∧
        v.voterAddress = toLowerCase sampleAddress) ∧
      hasUserVoted sampleSystem.ledger trailingTextBody.proposalId
        trailingTextBody.voterAddress = false ∧
      (castVote sampleSystem sampleDraw trailingTextBody).2.status = 500 ∧
      (castVote sampleSystem sampleDraw trailingTextBody).2.thrown =
        some (.validationError "blockNumber")) ∧
    (infinityBody.proposalId.truthy = true ∧ infinityBody.voterAddress.truthy = true ∧
      parseInt infinityBody.proposalId = none ∧
      (castVote sampleSystem sampleDraw infinityBody).2.status = 500 ∧
      (castVote sampleSystem sampleDraw infinityBody).2.thrown =
        some (.castError "proposalId")) ∧
    (booleanAddressBody.proposalId.truthy = true ∧
      booleanAddressBody.voterAddress.truthy = true ∧
      parseInt booleanAddressBody.proposalId = some 12 ∧
      (∃ p ∈ sampleSystem.proposals, p.proposalId = 12 ∧ p.isActive = some true) ∧
      (castVote sampleSystem sampleDraw booleanAddressBody).2.status = 500) := by
  decide

theorem findVote_none_of (vs : List Vote) (n : Int) (voter : String)
    (h : ¬ ∃ v ∈ vs, v.proposalId = n ∧ v.voterAddress = voter) :
    findVote vs n voter = none := by
  unfold findVote
  rw [List.find?_eq_none]
  intro v hv hEq
  simp only [Bool.and_eq_true, decide_eq_true_eq] at hEq
  exact h ⟨v, hv, hEq⟩

/-- The outcome of the checks for a request with both arguments present, an
integer identifier and a string address. -/
theorem admission_wellformed (s : System) (pid : JsValue) (a : String) (n : Int)
    (hp : pid.truthy = true) (ha : a ≠ "") (hn : parseInt pid = some n) :
    admission s { proposalId := pid, voterAddress := .str a } =
      if ¬ ∃ p ∈ s.proposals, p.proposalId = n ∧ p.isActive = some true then
        .error (.failure 404 "Proposal not found or not active")
      else if ∃ v ∈ s.votes, v.proposalId = n ∧ v.voterAddress = toLowerCase a then
        .error (.failure 400 "User has already voted on this proposal")
      else if hasUserVoted s.ledger pid (.str a) = true then
        .error (.failure 400 "User has already voted on this proposal on the blockchain")
      else .ok (n, toLowerCase a) := by
  have hat : (JsValue.str a).truthy = true := by simp [JsValue.truthy, ha]
  by_cases h2 : ∃ p ∈ s.proposals, p.proposalId = n ∧ p.isActive = some true
  · obtain ⟨p, hfp⟩ := findActiveProposal_isSome s.proposals n h2
    by_cases h3 : ∃ v ∈ s.votes, v.proposalId = n ∧ v.voterAddress = toLowerCase a
    · obtain ⟨w, hw, hw1, hw2⟩ := h3
      obtain ⟨v, hfv⟩ := findVote_isSome s.votes n (toLowerCase a) w hw hw1 hw2
      have h3' : ∃ v ∈ s.votes, v.proposalId = n ∧ v.voterAddress = toLowerCase a :=
        ⟨w, hw, hw1, hw2⟩
      rw [if_neg (not_not.mpr h2), if_pos h3']
      simp [admission, hp, hat, hn, hfp, hfv]
    · have hfv := findVote_none_of s.votes n (toLowerCase a) h3
      rw [if_neg (not_not.mpr h2), if_neg h3]
      by_cases h4 : hasUserVoted s.ledger pid (.str a) = true
      · rw [if_pos h4]
        simp [admission, hp, hat, hn, hfp, hfv, h4]
      · rw [if_neg h4]
        simp [admission, hp, hat, hn, hfp, hfv, h4]
  · rw [if_pos h2]
    have hfp : findActiveProposal s.proposals n = none := by
      apply findActiveProposal_eq_none
      intro p hp1 hp2 hp3
      exact h2 ⟨p, hp1, hp2, hp3⟩
    simp [admission, hp, hat, hn, hfp]

/-- C7, amended. A request with a falsy argument is answered 400.  For a
request from whose `proposalId` `parseInt` reads an integer and whose
`voterAddress` is a string, the checks run in the order (1) arguments present,
(2) an active proposal with that integer as identifier is stored, (3) no vote
is stored for that integer and the lower-cased address, (4) the ledger reports
no vote, and the answer is that of the first check that fails: 400, 404, 400,
400, the state being left as it was; so a missing or inactive proposal is
answered 404 whether or not the voter has a vote stored.  A request is
accepted (201) only if it is such a request and all four checks pass. -/
theorem castVote_check_order (s : System) (d : Draw) (body : VoteBody) :
    ((body.proposalId.truthy = false ∨ body.voterAddress.truthy = false) →
      castVote s d body =
        (s, Response.failure 400 "Proposal ID and voter address are required")) ∧
    (∀ n a, body.proposalId.truthy = true → parseInt body.proposalId = some n →
      body.voterAddress = .str a → a ≠ "" →
      ((¬ ∃ p ∈ s.proposals, p.proposalId = n ∧ p.isActive = some true) →
        castVote s d body = (s, Response.failure 404 "Proposal not found or not active")) ∧
      ((∃ p ∈ s.proposals, p.proposalId = n ∧ p.isActive = some true) →
        (∃ v ∈ s.votes, v.proposalId = n ∧ v.voterAddress = toLowerCase a) →
        castVote s d body =
          (s, Response.failure 400 "User has already voted on this proposal")) ∧
      ((∃ p ∈ s.proposals, p.proposalId = n ∧ p.isActive = some true) →
        (¬ ∃ v ∈ s.votes, v.proposalId = n ∧ v.voterAddress = toLowerCase a) →
        hasUserVoted s.ledger body.proposalId body.voterAddress = true →
        castVote s d body =
          (s, Response.failure 400
            "User has already voted on this proposal on the blockchain"))) ∧
    ((castVote s d body).2.status = 201 →
      ∃ n a, body.proposalId.truthy = true ∧ parseInt body.proposalId = some n ∧
        body.voterAddress = .str a ∧ a ≠ "" ∧
        (∃ p ∈ s.proposals, p.proposalId = n ∧ p.isActive = some true) ∧
        (¬ ∃ v ∈ s.votes, v.proposalId = n ∧ v.voterAddress = toLowerCase a) ∧
        hasUserVoted s.ledger body.proposalId body.voterAddress = false) := by
  refine ⟨?_, ?_, ?_⟩
  · intro h
    apply castVote_of_admission_error
    rcases h with h | h <;> simp [admission, h]
  · intro n a hp hn ha hne
    obtain ⟨pid, addr⟩ := body
    simp only at hp hn ha
    subst ha
    have hadm := admission_wellformed s pid a n hp hne hn
    refine ⟨?_, ?_, ?_⟩
    · intro h2
      rw [if_pos h2] at hadm
      exact castVote_of_admission_error s d _ _ hadm
    · intro h2 h3
      rw [if_neg (not_not.mpr h2), if_pos h3] at hadm
      exact castVote_of_admission_error s d _ _ hadm
    · intro h2 h3 h4
      rw [if_neg (not_not.mpr h2), if_neg h3, if_pos h4] at hadm
      exact castVote_of_admission_error s d _ _ hadm
  · intro h
    obtain ⟨n, voter, ledger, result, v, hadm, -, -, -, -⟩ := castVote_accepted s d body h
    obtain ⟨hp, hat, hn, ⟨a, ha, hvoter⟩, ⟨p, hfp⟩, hfind, hl⟩ := admission_ok s body n voter hadm
    have hne : a ≠ "" := by
      rw [ha] at hat
      simpa [JsValue.truthy] using hat
    obtain ⟨hmem, h1, h2⟩ := findActiveProposal_some s.proposals n p hfp
    refine ⟨n, a, hp, hn, ha, hne, ⟨p, hmem, h1, h2⟩, ?_, hl⟩
    rintro ⟨w, hw, hw1, hw2⟩
    exact findVote_eq_none s.votes n voter hfind w hw ⟨hw1, by rw [hw2, hvoter]⟩

/-- C7, amended, at the sample system: after the sample vote has been accepted
and the proposal closed, the same voter is answered 404. -/
theorem castVote_check_order_witness :
    castVote
      (updateProposal (castVote sampleSystem sampleDraw sampleBody).1 "12"
        { title := .undefined, description := .undefined, isActive := .bool false }).1
      otherDraw sampleBody =
    ((updateProposal (castVote sampleSystem sampleDraw sampleBody).1 "12"
        { title := .undefined, description := .undefined, isActive := .bool false }).1,
      Response.failure 404 "Proposal not found or not active") :=
  ((castVote_check_order _ otherDraw sampleBody).2.1 12 sampleAddress (by decide) (by decide)
    rfl (by decide)).1 (by decide)

/-- C8, as stated, fails: the vote with the identifier `1e21` is accepted at
`firstProposalSystem`, and the stored document and the receipt carry the
identifier 1, which `parseInt` reads from the text `1e+21`, not the integer
value of the requested identifier. -/
theorem castVote_stores_parsed_id :
    largeIdBody.proposalId = .num 1000000000000000000000 ∧
    numberToString 1000000000000000000000 = "1e+21" ∧
    parseInt largeIdBody.proposalId = some 1 ∧
    (castVote firstProposalSystem sampleDraw largeIdBody).2.status = 201 ∧
    (castVote firstProposalSystem sampleDraw largeIdBody).1.votes.map (·.proposalId) = [1] ∧
    (castVote firstProposalSystem sampleDraw largeIdBody).2.data.map (·.proposalId) =
      some 1 := by
  decide

/-- C8, amended. An accepted `castVote` adds exactly one vote document at the end
of the vote store and keeps the others; the new document carries the integer
that `parseInt` reads from the requested identifier, the lower-cased address,
the transaction hash returned by the ledger and the block number returned by
the ledger (as the number the schema casts it to).  In the proposal store,
taken with its unique index on `proposalId`, the proposal with that integer as
identifier exists, its `voteCount` grows by one and nothing else changes.  The
receipt carries the same integer and address and the hash, block number and
gas used returned by the ledger. -/
theorem castVote_accepted_effect (s : System) (d : Draw) (body : VoteBody)
    (hnd : (s.proposals.map (·.proposalId)).Nodup)
    (h : (castVote s d body).2.status = 201) :
    ∃ n a ledger result v,
      parseInt body.proposalId = some n ∧ body.voterAddress = .str a ∧
      voteOnProposal s.ledger d body.proposalId body.voterAddress = (ledger, .ok result) ∧
      (castVote s d body).1.votes = s.votes ++ [v] ∧
      v.proposalId = n ∧ v.voterAddress = toLowerCase a ∧
      v.transactionHash = result.transactionHash ∧
      castNumber result.blockNumber = some v.blockNumber ∧
      parseInt result.gasUsed = some v.gasUsed ∧
      (∃ P ∈ s.proposals, P.proposalId = n) ∧
      (castVote s d body).1.proposals.length = s.proposals.length ∧
      (∀ (i : Nat) (P : Proposal), s.proposals[i]? = some P →
        (castVote s d body).1.proposals[i]? =
          some (if P.proposalId = n then { P with voteCount := P.voteCount + 1 } else P)) ∧
      (castVote s d body).2.success = true ∧
      (castVote s d body).2.data =
        some { proposalId := n
               voterAddress := toLowerCase a
               transactionHash := result.transactionHash
               blockNumber := result.blockNumber
               gasUsed := result.gasUsed } := by
  obtain ⟨n, voter, ledger, result, v, hadm, hl, hv, -, heq⟩ := castVote_accepted s d body h
  obtain ⟨-, -, hn, ⟨a, ha, hvoter⟩, ⟨p, hfp⟩, -, -⟩ := admission_ok s body n voter hadm
  obtain ⟨hvn, hva, -, hvt, hvb, hvg, -⟩ := newVote_ok d n voter result v hv
  obtain ⟨hmem, hpn, -⟩ := findActiveProposal_some s.proposals n p hfp
  refine ⟨n, a, ledger, result, v, hn, ha, hl, by rw [heq], hvn, by rw [hva, hvoter], hvt, hvb,
    hvg, ⟨p, hmem, hpn⟩, ?_, ?_, by rw [heq]; rfl, ?_⟩
  · rw [heq]; exact incVoteCount_length s.proposals n
  · intro i P hP
    rw [heq]
    exact incVoteCount_getElem? s.proposals n hnd i P hP
  · rw [heq, hvoter]; rfl

/-- C8, amended, at the sample system. -/
theorem castVote_accepted_effect_witness :
    (sampleSystem.proposals.map (·.proposalId)).Nodup ∧
    (castVote sampleSystem sampleDraw sampleBody).2.status = 201 ∧
    ∃ n a ledger result v,
      parseInt sampleBody.proposalId = some n ∧ sampleBody.voterAddress = .str a ∧
      voteOnProposal sampleSystem.ledger sampleDraw sampleBody.proposalId
        sampleBody.voterAddress = (ledger, .ok result) ∧
      (castVote sampleSystem sampleDraw sampleBody).1.votes = sampleSystem.votes ++ [v] ∧
      v.proposalId = n ∧ v.voterAddress = toLowerCase a ∧
      v.transactionHash = result.transactionHash ∧
      castNumber result.blockNumber = some v.blockNumber ∧
      parseInt result.gasUsed = some v.gasUsed ∧
      (∃ P ∈ sampleSystem.proposals, P.proposalId = n) ∧
      (castVote sampleSystem sampleDraw sampleBody).1.proposals.length =
        sampleSystem.proposals.length ∧
      (∀ (i : Nat) (P : Proposal), sampleSystem.proposals[i]? = some P →
        (castVote sampleSystem sampleDraw sampleBody).1.proposals[i]? =
          some (if P.proposalId = n then { P with voteCount := P.voteCount + 1 } else P)) ∧
      (castVote sampleSystem sampleDraw sampleBody).2.success = true ∧
      (castVote sampleSystem sampleDraw sampleBody).2.data =
        some { proposalId := n
               voterAddress := toLowerCase a
               transactionHash := result.transactionHash
               blockNumber := result.blockNumber
               gasUsed := result.gasUsed } :=
  ⟨by decide, by decide,
    castVote_accepted_effect sampleSystem sampleDraw sampleBody (by decide) (by decide)⟩

/-- C9. A duplicate-key error of the vote store on `save` is answered 500, not
400: after the sample vote, a second address passes the four checks, the
ledger draws the transaction hash already stored, the insert fails on the
unique index of `transactionHash`, and the answer is the 500 of the `catch`
block, with the vote of the second address recorded in the ledger only. -/
theorem castVote_duplicate_key_is_500 :
    (admission (castVote sampleSystem sampleDraw sampleBody).1 secondBody).toOption =
      some (12, "0x00000000000000000000000000000000000000a1") ∧
    (castVote (castVote sampleSystem sampleDraw sampleBody).1 sampleDraw secondBody).2 =
      Response.caught "Failed to cast vote" (.duplicateKey "transactionHash_1") ∧
    (castVote (castVote sampleSystem sampleDraw sampleBody).1 sampleDraw secondBody).2.status
      = 500 ∧
    ((castVote (castVote sampleSystem sampleDraw sampleBody).1 sampleDraw secondBody).1.votes.map
      (·.voterAddress)) = [toLowerCase sampleAddress] ∧
    hasUserVoted
      (castVote (castVote sampleSystem sampleDraw sampleBody).1 sampleDraw secondBody).1.ledger
      secondBody.proposalId secondBody.voterAddress = true := by
  decide

theorem castVoteStopped_cases (writes : Nat) (s : System) (d : Draw) (body : VoteBody) :
    ((castVoteStopped writes s d body).proposals = s.proposals ∧
      ((castVoteStopped writes s d body).votes = s.votes ∨
        ∃ v, (castVoteStopped writes s d body).votes = s.votes ++ [v])) ∨
    (3 ≤ writes ∧ ∃ n v, (castVoteStopped writes s d body).proposals = incVoteCount s.proposals n ∧
      (castVoteStopped writes s d body).votes = s.votes ++ [v] ∧ v.proposalId = n) := by
  unfold castVoteStopped
  cases admission s body with
  | error r => exact Or.inl ⟨rfl, Or.inl rfl⟩
  | ok pr =>
    obtain ⟨n, voter⟩ := pr
    simp only
    by_cases h0 : writes = 0
    · rw [if_pos h0]; exact Or.inl ⟨rfl, Or.inl rfl⟩
    · rw [if_neg h0]
      cases voteOnProposal s.ledger d body.proposalId body.voterAddress with
      | mk ledger res =>
        cases res with
        | error e => exact Or.inl ⟨rfl, Or.inl rfl⟩
        | ok result =>
          simp only
          by_cases h1 : writes = 1
          · rw [if_pos h1]; exact Or.inl ⟨rfl, Or.inl rfl⟩
          · rw [if_neg h1]
            cases hs : saveVote s.votes d n voter result with
            | error e => exact Or.inl ⟨rfl, Or.inl rfl⟩
            | ok votes =>
              obtain ⟨v, hv, -, hvotes⟩ := saveVote_ok _ _ _ _ _ _ hs
              have hvn := (newVote_ok d n voter result v hv).1
              simp only
              by_cases h2 : writes = 2
              · rw [if_pos h2]; exact Or.inl ⟨rfl, Or.inr ⟨v, hvotes⟩⟩
              · rw [if_neg h2]
                exact Or.inr ⟨by omega, n, v, rfl, hvotes, hvn⟩

/-- Run to the end, the stopped handler leaves the state of `castVote`. -/
theorem castVoteStopped_complete (writes : Nat) (hw : 3 ≤ writes) (s : System) (d : Draw)
    (body : VoteBody) : castVoteStopped writes s d body = (castVote s d body).1 := by
  have h0 : writes ≠ 0 := by omega
  have h1 : writes ≠ 1 := by omega
  have h2 : writes ≠ 2 := by omega
  unfold castVoteStopped castVote
  cases admission s body with
  | error r => rfl
  | ok pr =>
    obtain ⟨n, voter⟩ := pr
    simp only [if_neg h0]
    cases voteOnProposal s.ledger d body.proposalId body.voterAddress with
    | mk ledger res =>
      cases res with
      | error e => rfl
      | ok result =>
        simp only [if_neg h1]
        cases saveVote s.votes d n voter result with
        | error e => rfl
        | ok votes => simp only [if_neg h2]

theorem castVoteStopped_le_step (writes : Nat) (s : System) (d : Draw) (body : VoteBody)
    (i : Nat) (P : Proposal) (hP : s.proposals[i]? = some P)
    (hle : P.voteCount ≤ voteTally s.votes P.proposalId) :
    ∃ P', (castVoteStopped writes s d body).proposals[i]? = some P' ∧
      P'.proposalId = P.proposalId ∧
      P'.voteCount ≤ voteTally (castVoteStopped writes s d body).votes P.proposalId := by
  rcases castVoteStopped_cases writes s d body with ⟨h1, h2 | ⟨v, h2⟩⟩ | ⟨-, n, v, h1, h2, hvn⟩
  · rw [h1, h2]; exact ⟨P, hP, rfl, hle⟩
  · rw [h1, h2, voteTally_append]; exact ⟨P, hP, rfl, by omega⟩
  · obtain ⟨P', hP', hid, hcase⟩ := incVoteCount_getElem?_le s.proposals n i P hP
    rw [h1, h2, voteTally_append]
    refine ⟨P', hP', hid, ?_⟩
    rcases hcase with hsame | ⟨hPn, hinc⟩
    · rw [hsame]; omega
    · rw [hinc, hvn, if_pos hPn.symm]; omega

/-- C10. The vote document is written before the counter: a `castVote` stopped
after fewer than its three writes has not touched the proposal store, and
stopped after the second write it has at most added a vote.  Hence through
every sequence of `castVote` runs, each run to the end or stopped after any
number of its writes, a proposal whose `voteCount` is at most the number of
vote documents carrying its identifier stays stored at its place with its
identifier and with a `voteCount` that is at most that number. -/
theorem castVotesStopped_voteCount_le_tally (s : System)
    (runs : List (Nat × Draw × VoteBody)) (i : Nat) (P : Proposal)
    (hP : s.proposals[i]? = some P)
    (hle : P.voteCount ≤ voteTally s.votes P.proposalId) :
    (∃ P', (castVotesStopped s runs).proposals[i]? = some P' ∧
      P'.proposalId = P.proposalId ∧
      P'.voteCount ≤ voteTally (castVotesStopped s runs).votes P.proposalId) ∧
    (∀ writes d body, writes < 3 →
      (castVoteStopped writes s d body).proposals = s.proposals ∧
      ((castVoteStopped writes s d body).votes = s.votes ∨
        ∃ v, (castVoteStopped writes s d body).votes = s.votes ++ [v])) ∧
    (∀ writes d body, 3 ≤ writes → castVoteStopped writes s d body = (castVote s d body).1) := by
  refine ⟨?_, ?_, fun writes d body hw => castVoteStopped_complete writes hw s d body⟩
  · induction runs generalizing s P with
    | nil => exact ⟨P, hP, rfl, hle⟩
    | cons run rest ih =>
      obtain ⟨writes, d, body⟩ := run
      obtain ⟨P1, hP1, hid1, hle1⟩ := castVoteStopped_le_step writes s d body i P hP hle
      obtain ⟨P2, hP2, hid2, hle2⟩ :=
        ih (castVoteStopped writes s d body) P1 hP1 (by rw [hid1]; exact hle1)
      exact ⟨P2, hP2, by rw [hid2, hid1], by rw [hid1] at hle2; exact hle2⟩
  · intro writes d body hw
    rcases castVoteStopped_cases writes s d body with h | ⟨h3, -⟩
    · exact h
    · omega

/-- C10, at the sample system: the sample vote stopped after the vote document
was saved, then a complete vote of a second address. -/
theorem castVotesStopped_voteCount_le_tally_witness :
    sampleSystem.proposals[0]? = some sampleProposal ∧
    sampleProposal.voteCount ≤ voteTally sampleSystem.votes sampleProposal.proposalId ∧
    ∃ P', (castVotesStopped sampleSystem
        [(2, sampleDraw, sampleBody), (3, otherDraw, secondBody)]).proposals[0]? = some P' ∧
      P'.proposalId = sampleProposal.proposalId ∧
      P'.voteCount ≤
        voteTally (castVotesStopped sampleSystem
          [(2, sampleDraw, sampleBody), (3, otherDraw, secondBody)]).votes
          sampleProposal.proposalId :=
  ⟨by decide, by decide,
    (castVotesStopped_voteCount_le_tally sampleSystem
      [(2, sampleDraw, sampleBody), (3, otherDraw, secondBody)] 0 sampleProposal
      (by decide) (by decide)).1⟩

/-! ## Request validation -/

theorem validateVote_status (body : VoteBody) (r : Response VoteReceipt)
    (h : validateVote body = some r) : r.status = 400 ∧ r.success = false := by
  unfold validateVote at h
  split at h
  · cases h; exact ⟨rfl, rfl⟩
  · split at h
    · cases h; exact ⟨rfl, rfl⟩
    · split at h
      · split at h
        · cases h
        · cases h; exact ⟨rfl, rfl⟩
      · cases h; exact ⟨rfl, rfl⟩

/-- C11, as stated, fails: the number 1.5, the string `12abc` and the number
`Infinity` (what `JSON.parse` makes of `1e400`) all pass `validateVote` and
reach `castVote`; the number 12.5 is then accepted as a vote for proposal 12,
and `12abc` and `Infinity`, from which `parseInt` reads no integer, end in the
answer 500. -/
theorem validateVote_passes_non_integers :
    (mkRat 3 2 : ℚ) = 3 / 2 ∧
    validateVote { proposalId := .num (mkRat 3 2), voterAddress := .str sampleAddress } = none ∧
    validateVote trailingTextBody = none ∧
    (postVote sampleSystem sampleDraw
      { proposalId := .num (mkRat 25 2), voterAddress := .str sampleAddress }).2.status = 201 ∧
    ((postVote sampleSystem sampleDraw
      { proposalId := .num (mkRat 25 2), voterAddress := .str sampleAddress }).2.data.map
        (·.proposalId)) = some 12 ∧
    (postVote sampleSystem sampleDraw trailingTextBody).2.status = 500 ∧
    numberToString (twoPow1024 : ℚ) = "Infinity" ∧
    validateVote infinityBody = none ∧
    parseInt infinityBody.proposalId = none ∧
    (postVote sampleSystem sampleDraw infinityBody).2.status = 500 := by
  refine ⟨?_, by decide, by decide, by decide, by decide, by decide, by decide, by decide,
    by decide, by decide⟩
  rw [Rat.mkRat_eq_div]
  norm_num

/-- C11, amended. `validateVote` answers 400 to every body whose `proposalId`
is falsy, or is not a number and is not read as an integer by `parseInt`; every
answer it sends is a 400 and keeps `castVote` from running.  A body it passes
on has a truthy `proposalId` that is a number (of any value) or is read as an
integer by `parseInt`, and every such body with an address of the accepted
form is passed on to `castVote`. -/
theorem validateVote_proposalId (s : System) (d : Draw) (body : VoteBody) :
    (body.proposalId.truthy = false →
      validateVote body =
        some (Response.failure 400 "Proposal ID and voter address are required")) ∧
    (body.proposalId.truthy = true → body.voterAddress.truthy = true →
      body.proposalId.isNumber = false → parseInt body.proposalId = none →
      validateVote body = some (Response.failure 400 "Proposal ID must be a valid number")) ∧
    (∀ r, validateVote body = some r → r.status = 400 ∧ postVote s d body = (s, r)) ∧
    (validateVote body = none →
      body.proposalId.truthy = true ∧
      (body.proposalId.isNumber = true ∨ ∃ n, parseInt body.proposalId = some n) ∧
      postVote s d body = castVote s d body) ∧
    (body.proposalId.truthy = true →
      (body.proposalId.isNumber = true ∨ ∃ n, parseInt body.proposalId = some n) →
      (∃ a, body.voterAddress = .str a ∧ a ≠ "" ∧ regexTest addressRegex a.data = true) →
      validateVote body = none ∧ postVote s d body = castVote s d body) := by
  refine ⟨?_, ?_, ?_, ?_, ?_⟩
  · intro h
    simp [validateVote, h]
  · intro h1 h2 h3 h4
    simp [validateVote, h1, h2, h3, h4]
  · intro r h
    exact ⟨(validateVote_status body r h).1, by simp [postVote, h]⟩
  · intro h
    have hpost : postVote s d body = castVote s d body := by simp [postVote, h]
    unfold validateVote at h
    split at h
    · cases h
    · rename_i hargs
      simp only [Bool.or_eq_true, Bool.not_eq_true', not_or, Bool.not_eq_false] at hargs
      split at h
      · cases h
      · rename_i hnum
        refine ⟨hargs.1, ?_, hpost⟩
        by_cases hn : body.proposalId.isNumber = true
        · exact Or.inl hn
        · have hn' : body.proposalId.isNumber = false := by simpa using hn
          cases hp : parseInt body.proposalId with
          | some n => exact Or.inr ⟨n, rfl⟩
          | none => simp [hn', hp] at hnum
  · rintro hp hv ⟨a, ha, hne, hre⟩
    have hcheck : (!body.proposalId.isNumber && (parseInt body.proposalId).isNone) = false := by
      rcases hv with h | ⟨n, h⟩ <;> simp [h]
    have hat : (JsValue.str a).truthy = true := by
      simp [JsValue.truthy, hne]
    have hval : validateVote body = none := by
      simp [validateVote, hp, ha, hat, hcheck, hre]
    exact ⟨hval, by simp [postVote, hval]⟩

/-- C11, amended, at three bodies: the identifier `abc` is answered 400, so is
an identifier of 400 digits, which `parseInt` reads as `Infinity`, and the
sample body is passed on to `castVote`. -/
theorem validateVote_proposalId_witness :
    validateVote { proposalId := .str "abc", voterAddress := .str sampleAddress } =
      some (Response.failure 400 "Proposal ID must be a valid number") ∧
    validateVote longDigitsBody =
      some (Response.failure 400 "Proposal ID must be a valid number") ∧
    postVote sampleSystem sampleDraw sampleBody = castVote sampleSystem sampleDraw sampleBody :=
  ⟨(validateVote_proposalId sampleSystem sampleDraw
      { proposalId := .str "abc", voterAddress := .str sampleAddress }).2.1
      (by decide) (by decide) (by decide) (by decide),
    (validateVote_proposalId sampleSystem sampleDraw longDigitsBody).2.1
      (by decide) (by decide) (by decide) (by decide),
    ((validateVote_proposalId sampleSystem sampleDraw sampleBody).2.2.2.1 (by decide)).2.2⟩

theorem matchRepeat_eq_some (a : RegexAtom) (k : Nat) (cs rest : List Char) :
    matchRepeat a k cs = some rest ↔
      ∃ pre, cs = pre ++ rest ∧ pre.length = k ∧ ∀ c ∈ pre, a.accepts c = true := by
  induction k generalizing cs with
  | zero =>
    simp only [matchRepeat, Option.some.injEq]
    constructor
    · intro h; exact ⟨[], by simp [h], rfl, by simp⟩
    · rintro ⟨pre, h1, h2, -⟩
      have : pre = [] := List.length_eq_zero.mp h2
      subst this
      simpa using h1
  | succ k ih =>
    cases cs with
    | nil =>
      simp only [matchRepeat]
      constructor
      · intro h; cases h
      · rintro ⟨pre, h1, h2, -⟩
        have : pre = [] := by
          cases pre with
          | nil => rfl
          | cons x xs => simp at h1
        subst this
        simp at h2
    | cons c cs =>
      simp only [matchRepeat]
      constructor
      · intro h
        split at h
        · rename_i hc
          obtain ⟨pre, h1, h2, h3⟩ := (ih cs).mp h
          refine ⟨c :: pre, by simp [h1], by simp [h2], ?_⟩
          intro x hx
          rcases List.mem_cons.mp hx with hx | hx
          · subst hx; exact hc
          · exact h3 x hx
        · cases h
      · rintro ⟨pre, h1, h2, h3⟩
        cases pre with
        | nil => simp at h2
        | cons x xs =>
          simp only [List.cons_append, List.cons.injEq] at h1
          obtain ⟨hx, hxs⟩ := h1
          subst hx
          have hc : a.accepts c = true := h3 c (List.mem_cons_self _ _)
          rw [if_pos hc]
          refine (ih cs).mpr ⟨xs, hxs, by simpa using h2, ?_⟩
          intro y hy
          exact h3 y (List.mem_cons_of_mem _ hy)

theorem hexClass_accepts (c : Char) :
    (RegexAtom.cls [('a', 'f'), ('A', 'F'), ('0', '9')]).accepts c = true ↔
      c ∈ "0123456789abcdefABCDEF".data := by
  constructor
  · intro h
    have hc : c = Char.ofNat c.toNat := (Char.ofNat_toNat c).symm
    have hr : (97 ≤ c.toNat ∧ c.toNat ≤ 102) ∨ (65 ≤ c.toNat ∧ c.toNat ≤ 70) ∨
        (48 ≤ c.toNat ∧ c.toNat ≤ 57) := by
      simpa [RegexAtom.accepts] using h
    generalize c.toNat = n at hc hr
    subst hc
    rcases hr with ⟨h1, h2⟩ | ⟨h1, h2⟩ | ⟨h1, h2⟩ <;> interval_cases n <;> decide
  · intro h
    have h' : c = '0' ∨ c = '1' ∨ c = '2' ∨ c = '3' ∨ c = '4' ∨ c = '5' ∨ c = '6' ∨ c = '7' ∨
        c = '8' ∨ c = '9' ∨ c = 'a' ∨ c = 'b' ∨ c = 'c' ∨ c = 'd' ∨ c = 'e' ∨ c = 'f' ∨
        c = 'A' ∨ c = 'B' ∨ c = 'C' ∨ c = 'D' ∨ c = 'E' ∨ c = 'F' := by
      simpa using h
    rcases h' with h | h | h | h | h | h | h | h | h | h | h | h | h | h | h | h | h | h | h |
      h | h | h <;> subst h <;> decide

theorem addressRegex_test (cs : List Char) :
    regexTest addressRegex cs = true ↔
      ∃ hex, cs = '0' :: 'x' :: hex ∧ hex.length = 40 ∧
        ∀ c ∈ hex, c ∈ "0123456789abcdefABCDEF".data := by
  constructor
  · intro h
    unfold addressRegex regexTest at h
    split at h
    · rename_i r1 h1
      obtain ⟨p1, e1, l1, a1⟩ := (matchRepeat_eq_some _ _ _ _).mp h1
      unfold regexTest at h
      split at h
      · rename_i r2 h2
        obtain ⟨p2, e2, l2, a2⟩ := (matchRepeat_eq_some _ _ _ _).mp h2
        unfold regexTest at h
        split at h
        · rename_i r3 h3
          obtain ⟨p3, e3, l3, a3⟩ := (matchRepeat_eq_some _ _ _ _).mp h3
          simp only [regexTest, List.isEmpty_iff] at h
          subst h
          obtain ⟨x, hx⟩ := List.length_eq_one.mp l1
          obtain ⟨y, hy⟩ := List.length_eq_one.mp l2
          subst hx hy
          have hx0 : x = '0' := by simpa [RegexAtom.accepts] using a1 x (by simp)
          have hy0 : y = 'x' := by simpa [RegexAtom.accepts] using a2 y (by simp)
          subst hx0 hy0
          refine ⟨p3, by simp [e1, e2, e3], l3, ?_⟩
          intro c hc
          exact (hexClass_accepts c).mp (a3 c hc)
        · cases h
      · cases h
    · cases h
  · rintro ⟨hex, rfl, hl, hh⟩
    have h3 : matchRepeat (.cls [('a', 'f'), ('A', 'F'), ('0', '9')]) 40 hex = some [] :=
      (matchRepeat_eq_some _ _ _ _).mpr
        ⟨hex, by simp, hl, fun c hc => (hexClass_accepts c).mpr (hh c hc)⟩
    simp [addressRegex, regexTest, matchRepeat, RegexAtom.accepts, h3]

/-- C12. For a body whose `proposalId` is truthy and either a number or read as
an integer by `parseInt`, `validateVote` passes the request on exactly when
`voterAddress` is a string made of `0x` followed by 40 hexadecimal digits of
either case; in every other case it answers 400. -/
theorem validateVote_address (body : VoteBody) (hp : body.proposalId.truthy = true)
    (hv : body.proposalId.isNumber = true ∨ ∃ n, parseInt body.proposalId = some n) :
    (validateVote body = none ↔
      ∃ hex : List Char, body.voterAddress = .str (String.mk ('0' :: 'x' :: hex)) ∧
        hex.length = 40 ∧ ∀ c ∈ hex, c ∈ "0123456789abcdefABCDEF".data) ∧
    (validateVote body ≠ none → ∃ r, validateVote body = some r ∧ r.status = 400) := by
  have hcheck : (!body.proposalId.isNumber && (parseInt body.proposalId).isNone) = false := by
    rcases hv with h | ⟨n, h⟩ <;> simp [h]
  refine ⟨?_, ?_⟩
  · constructor
    · intro h
      unfold validateVote at h
      split at h
      · cases h
      · split at h
        · cases h
        · split at h
          · rename_i a ha
            split at h
            · rename_i hre
              obtain ⟨hex, h1, h2, h3⟩ := (addressRegex_test a.data).mp hre
              refine ⟨hex, ?_, h2, h3⟩
              rw [ha, ← h1]
            · cases h
          · cases h
    · rintro ⟨hex, ha, hl, hh⟩
      have hre : regexTest addressRegex ('0' :: 'x' :: hex) = true :=
        (addressRegex_test _).mpr ⟨hex, rfl, hl, hh⟩
      have hat : (JsValue.str (String.mk ('0' :: 'x' :: hex))).truthy = true := by
        simp only [JsValue.truthy, decide_eq_true_eq]
        intro hEq
        have := congrArg String.data hEq
        simp at this
      simp [validateVote, hp, ha, hat, hcheck, hre]
  · intro h
    cases hr : validateVote body with
    | none => exact absurd hr h
    | some r => exact ⟨r, rfl, (validateVote_status body r hr).1⟩

/-- C12, at the sample body: its mixed-case address is passed on. -/
theorem validateVote_address_witness :
    sampleBody.proposalId.truthy = true ∧ validateVote sampleBody = none :=
  ⟨by decide,
    ((validateVote_address sampleBody (by decide) (Or.inl (by decide))).1).mpr
      ⟨"AbCdEfAbCdEfAbCdEfAbCdEfAbCdEfAbCdEfAbCd".data, by decide, by decide, by decide⟩⟩

theorem validateProposal_status (body : ProposalBody) (r : Response ProposalReceipt)
    (h : validateProposal body = some r) : r.status = 400 ∧ r.success = false := by
  unfold validateProposal at h
  repeat' split at h
  all_goals first
    | (cases h; exact ⟨rfl, rfl⟩)
    | cases h

/-- C13. `validateProposal` answers 400, and the route leaves the whole state
as it was (the handler `createProposal` is not run), for every request whose
title or description is not a string, is empty or blank, or is longer than 200
(title) or 2000 (description) code units; and it passes on every request
without a deadline whose title and description are non-blank strings of at most
200 and 2000 code units, those of exactly 200 and 2000 included. -/
theorem validateProposal_bounds (s : System) (d : CreateDraw) (body : ProposalBody) :
    (((∀ t, body.title ≠ .str t) ∨
        (∃ t, body.title = .str t ∧ (trimJs t.data = [] ∨ 200 < jsLength t)) ∨
        (∀ t, body.description ≠ .str t) ∨
        (∃ t, body.description = .str t ∧ (trimJs t.data = [] ∨ 2000 < jsLength t))) →
      ∃ r, validateProposal body = some r ∧ r.status = 400 ∧ r.success = false ∧
        postProposal s d body = (s, r)) ∧
    (∀ t e, body.title = .str t → body.description = .str e → body.deadline = .undefined →
      trimJs t.data ≠ [] → trimJs e.data ≠ [] → jsLength t ≤ 200 → jsLength e ≤ 2000 →
      validateProposal body = none ∧ postProposal s d body = createProposal s d body) := by
  refine ⟨?_, ?_⟩
  · intro h
    have hsome : ∃ r, validateProposal body = some r := by
      cases hv : validateProposal body with
      | some r => exact ⟨r, rfl⟩
      | none =>
        exfalso
        unfold validateProposal at hv
        split at hv
        · cases hv
        · rename_i h0
          split at hv
          · cases hv
          · rename_i h1
            split at hv
            · cases hv
            · rename_i h2
              split at hv
              · cases hv
              · rename_i h3
                split at hv
                · cases hv
                · rename_i h4
                  rcases h with h | ⟨t, ht, h⟩ | h | ⟨t, ht, h⟩
                  · cases hb : body.title with
                    | str t => exact h t hb
                    | _ => simp [hb, notNonEmptyString] at h1
                  · rcases h with h | h
                    · simp [ht, notNonEmptyString, h] at h1
                    · simp [ht, longerThan, h] at h2
                  · cases hb : body.description with
                    | str t => exact h t hb
                    | _ => simp [hb, notNonEmptyString] at h3
                  · rcases h with h | h
                    · simp [ht, notNonEmptyString, h] at h3
                    · simp [ht, longerThan, h] at h4
    obtain ⟨r, hr⟩ := hsome
    obtain ⟨h1, h2⟩ := validateProposal_status body r hr
    exact ⟨r, hr, h1, h2, by simp [postProposal, hr]⟩
  · intro t e ht he hd htb heb htl hel
    have ht0 : t ≠ "" := by
      intro h0
      subst h0
      exact htb (by decide)
    have he0 : e ≠ "" := by
      intro h0
      subst h0
      exact heb (by decide)
    have hv : validateProposal body = none := by
      simp [validateProposal, ht, he, hd, JsValue.truthy, ht0, he0, notNonEmptyString,
        longerThan, badDeadline, htb, heb, Nat.not_lt.mpr htl, Nat.not_lt.mpr hel]
    exact ⟨hv, by simp [postProposal, hv]⟩

theorem jsLength_replicate (n : Nat) (c : Char) (hc : c.toNat < 0x10000) :
    jsLength (String.mk (List.replicate n c)) = n := by
  simp [jsLength, hc]

theorem trimJs_replicate (n : Nat) (c : Char) (hc : isJsWhiteSpace c = false) :
    trimJs (List.replicate (n + 1) c) = List.replicate (n + 1) c := by
  have h1 : (List.replicate (n + 1) c).dropWhile isJsWhiteSpace = List.replicate (n + 1) c := by
    rw [List.replicate_succ, List.dropWhile_cons_of_neg (by simp [hc])]
  unfold trimJs
  rw [h1, List.reverse_replicate, h1, List.reverse_replicate]

theorem trimJs_replicate_ne_nil (n : Nat) (c : Char) (hc : isJsWhiteSpace c = false) :
    trimJs (List.replicate (n + 1) c) ≠ [] := by
  rw [trimJs_replicate n c hc, List.replicate_succ]
  exact List.cons_ne_nil _ _

/-- C13, at the bounds: a title of exactly 200 letters with a description of
exactly 2000 letters is passed on, and a title of 201 letters is answered 400. -/
theorem validateProposal_bounds_witness :
    jsLength (String.mk (List.replicate 200 'a')) = 200 ∧
    jsLength (String.mk (List.replicate 2000 'b')) = 2000 ∧
    validateProposal
      { title := .str (String.mk (List.replicate 200 'a'))
        description := .str (String.mk (List.replicate 2000 'b'))
        deadline := .undefined } = none ∧
    ∃ r, validateProposal
      { title := .str (String.mk (List.replicate 201 'a'))
        description := .str "Upgrade the protocol"
        deadline := .undefined } = some r ∧ r.status = 400 :=
  have h1 : jsLength (String.mk (List.replicate 200 'a')) = 200 :=
    jsLength_replicate 200 'a' (by decide)
  have h2 : jsLength (String.mk (List.replicate 2000 'b')) = 2000 :=
    jsLength_replicate 2000 'b' (by decide)
  have h3 : jsLength (String.mk (List.replicate 201 'a')) = 201 :=
    jsLength_replicate 201 'a' (by decide)
  have t1 : trimJs (String.mk (List.replicate 200 'a')).data ≠ [] :=
    trimJs_replicate_ne_nil 199 'a' (by decide)
  have t2 : trimJs (String.mk (List.replicate 2000 'b')).data ≠ [] :=
    trimJs_replicate_ne_nil 1999 'b' (by decide)
  ⟨h1, h2,
    ((validateProposal_bounds emptySystem ⟨0, "", 0, 0⟩
      { title := .str (String.mk (List.replicate 200 'a'))
        description := .str (String.mk (List.replicate 2000 'b'))
        deadline := .undefined }).2 _ _ rfl rfl rfl t1 t2 (by omega) (by omega)).1,
    by
      obtain ⟨r, hr, hs, -⟩ := (validateProposal_bounds emptySystem ⟨0, "", 0, 0⟩
        { title := .str (String.mk (List.replicate 201 'a'))
          description := .str "Upgrade the protocol"
          deadline := .undefined }).1 (Or.inr (Or.inl ⟨_, rfl, Or.inr (by omega)⟩))
      exact ⟨r, hr, hs⟩⟩

/-! ## Creating proposals -/

theorem toDigitsCore_ne_nil (base : Nat) (fuel n : Nat) (ds : List Char) (h : ds ≠ []) :
    Nat.toDigitsCore base fuel n ds ≠ [] := by
  induction fuel generalizing n ds with
  | zero => simpa [Nat.toDigitsCore] using h
  | succ fuel ih =>
    unfold Nat.toDigitsCore
    simp only
    split
    · exact List.cons_ne_nil _ _
    · exact ih _ _ (List.cons_ne_nil _ _)

theorem natDigits_ne_empty (n : Nat) : natDigits n ≠ "" := by
  intro h
  have h1 := congrArg String.data h
  simp only [natDigits, Nat.toDigits] at h1
  unfold Nat.toDigitsCore at h1
  simp only at h1
  split at h1
  · exact List.cons_ne_nil _ _ h1
  · exact toDigitsCore_ne_nil _ _ _ _ (List.cons_ne_nil _ _) h1

theorem hashString_ne_empty (h : String) : "0x" ++ h ≠ "" := by
  intro e
  have h1 := congrArg String.data e
  simp only [String.data_append] at h1
  exact absurd h1 (by simp [show "0x".data = ['0', 'x'] from rfl, show "".data = [] from rfl])

/-- What `validateProposal` guarantees about a body it passes on. -/
theorem validateProposal_none (body : ProposalBody) (h : validateProposal body = none) :
    ∃ t e, body.title = .str t ∧ body.description = .str e ∧ t ≠ "" ∧ e ≠ "" ∧
      jsLength t ≤ 200 ∧ jsLength e ≤ 2000 ∧ badDeadline body.deadline = false := by
  unfold validateProposal at h
  split at h
  · cases h
  · rename_i h0
    split at h
    · cases h
    · rename_i h1
      split at h
      · cases h
      · rename_i h2
        split at h
        · cases h
        · rename_i h3
          split at h
          · cases h
          · rename_i h4
            split at h
            · cases h
            · rename_i h5
              simp only [Bool.or_eq_true, Bool.not_eq_true', not_or, Bool.not_eq_false] at h0
              cases ht : body.title with
              | str t =>
                cases he : body.description with
                | str e =>
                  rw [ht] at h0 h2
                  rw [he] at h0 h4
                  refine ⟨t, e, rfl, rfl, ?_, ?_, ?_, ?_, by simpa using h5⟩
                  · simpa [JsValue.truthy] using h0.1
                  · simpa [JsValue.truthy] using h0.2
                  · simpa [longerThan] using h2
                  · simpa [longerThan] using h4
                | _ => simp [he, notNonEmptyString] at h3
              | _ => simp [ht, notNonEmptyString] at h1

/-- The deadline handed on by `deadline || 0` casts to a number when the body
passed the validation. -/
theorem castNumber_deadline (deadline : JsValue) (h : badDeadline deadline = false) :
    ∃ q, castNumber (if deadline.truthy then deadline else .num 0) = some q ∧ 0 ≤ q ∧
      ((deadline.truthy = true ∧ deadline = .num q) ∨ (deadline.truthy = false ∧ q = 0)) := by
  by_cases ht : deadline.truthy = true
  · rw [if_pos ht]
    cases deadline with
    | num q =>
      have hq : ¬ q < 0 := by simpa [badDeadline, ht] using h
      exact ⟨q, rfl, not_lt.mp hq, Or.inl ⟨ht, rfl⟩⟩
    | undefined => simp [JsValue.truthy] at ht
    | null => simp [JsValue.truthy] at ht
    | nan => simp [JsValue.truthy] at ht
    | bool b => simp [badDeadline, ht] at h
    | str s => simp [badDeadline, ht] at h
  · have ht' : deadline.truthy = false := by simpa using ht
    rw [if_neg ht]
    exact ⟨0, rfl, le_refl _, Or.inr ⟨ht', rfl⟩⟩

/-- C14, as stated, fails: the second of two valid requests is given by the
ledger the identifier 12 the first one got (counter 1 plus 11, then counter 2
plus 10), the insert breaks the unique index on `proposalId`, the answer is 500
and the store still holds one proposal. -/
theorem createProposal_not_persisted :
    validateProposal sampleProposalBody = none ∧
    validateProposal secondProposalBody = none ∧
    (createProposal emptySystem ⟨11, "8a3f1c", 40, 1700000000000⟩ sampleProposalBody).2.status
      = 201 ∧
    ((createProposal emptySystem ⟨11, "8a3f1c", 40, 1700000000000⟩ sampleProposalBody).1.proposals.map
      (·.proposalId)) = [12] ∧
    ((createProposal emptySystem ⟨11, "8a3f1c", 40, 1700000000000⟩ sampleProposalBody).1.ledger.createProposal
      ⟨10, "27bd04", 41, 1700000001000⟩ secondProposalBody.title secondProposalBody.description
        (.num 0)).2.proposalId = 12 ∧
    (createProposal
      (createProposal emptySystem ⟨11, "8a3f1c", 40, 1700000000000⟩ sampleProposalBody).1
      ⟨10, "27bd04", 41, 1700000001000⟩ secondProposalBody).2.status = 500 ∧
    (createProposal
      (createProposal emptySystem ⟨11, "8a3f1c", 40, 1700000000000⟩ sampleProposalBody).1
      ⟨10, "27bd04", 41, 1700000001000⟩ secondProposalBody).2.thrown =
        some (.duplicateKey "proposalId_1") ∧
    ((createProposal
      (createProposal emptySystem ⟨11, "8a3f1c", 40, 1700000000000⟩ sampleProposalBody).1
      ⟨10, "27bd04", 41, 1700000001000⟩ secondProposalBody).1.proposals.map (·.title))
      = ["Upgrade X"] := by
  decide

/-- C14, amended. For a body passed on by `validateProposal`, when no stored
proposal carries the identifier or the transaction hash returned by the ledger,
`createProposal` answers 201 and adds exactly one document to the store: its
`proposalId` is the identifier returned by the ledger, it is active, has
`voteCount` 0 and no voters, carries the given title and description, and its
deadline is the given one, or 0 when none (or a falsy one) is given.  When a
stored proposal carries that identifier or hash, the answer is 500 and the
store is left as it was. -/
theorem createProposal_persists (s : System) (d : CreateDraw) (body : ProposalBody)
    (hv : validateProposal body = none) :
    ((∀ q ∈ s.proposals,
        q.proposalId ≠ ((s.ledger.proposalCount + 1 + d.randomId : Nat) : Int) ∧
        q.transactionHash ≠ "0x" ++ d.randomHex) →
      ∃ p, (createProposal s d body).1.proposals = s.proposals ++ [p] ∧
        (createProposal s d body).2.status = 201 ∧
        p.proposalId = ((s.ledger.createProposal d body.title body.description
          (if body.deadline.truthy then body.deadline else .num 0)).2.proposalId : Int) ∧
        p.isActive = some true ∧ p.voteCount = 0 ∧ p.voters = [] ∧
        body.title = .str p.title ∧ body.description = .str p.description ∧
        ((body.deadline.truthy = true ∧ body.deadline = .num p.deadline) ∨
          (body.deadline.truthy = false ∧ p.deadline = 0))) ∧
    ((∃ q ∈ s.proposals,
        q.proposalId = ((s.ledger.proposalCount + 1 + d.randomId : Nat) : Int) ∨
        q.transactionHash = "0x" ++ d.randomHex) →
      (createProposal s d body).1.proposals = s.proposals ∧
      (createProposal s d body).2.status = 500) := by
  obtain ⟨t, e, ht, he, ht0, he0, htl, hel, hd⟩ := validateProposal_none body hv
  obtain ⟨q, hq, -, hqd⟩ := castNumber_deadline body.deadline hd
  have htt : (JsValue.str t).truthy = true := by simp [JsValue.truthy, ht0]
  have het : (JsValue.str e).truthy = true := by simp [JsValue.truthy, he0]
  have hvalid : ∀ pid bn gas : Nat,
      newProposal d (.str t) (.str e) (if body.deadline.truthy then body.deadline else .num 0)
        { proposalId := pid, transactionHash := "0x" ++ d.randomHex, blockNumber := bn,
          gasUsed := gas } =
      .ok { proposalId := pid
            contractAddress := contractAddress
            transactionHash := "0x" ++ d.randomHex
            blockNumber := bn
            title := t
            description := e
            creator := ledgerOwner
            deadline := q
            isActive := some true
            voteCount := 0
            voters := []
            gasUsed := natDigits gas
            createdAt := d.now } := by
    intro pid bn gas
    have hc : contractAddress ≠ "" := by decide
    have ho : ledgerOwner ≠ "" := by decide
    simp [newProposal, hq, Proposal.valid, jsToString, hc, ho, ht0, he0, htl, hel,
      hashString_ne_empty, natDigits_ne_empty]
  have hrun : ∀ x : Except Thrown (List Proposal),
      insertProposal s.proposals
        { proposalId := ((s.ledger.proposalCount + 1 + d.randomId : Nat) : Int)
          contractAddress := contractAddress
          transactionHash := "0x" ++ d.randomHex
          blockNumber := ((12345 + (s.ledger.proposalCount + 1 + d.randomId) : Nat) : ℚ)
          title := t
          description := e
          creator := ledgerOwner
          deadline := q
          isActive := some true
          voteCount := 0
          voters := []
          gasUsed := natDigits (100000 + d.randomGas)
          createdAt := d.now } = x →
      (createProposal s d body).1.proposals = (match x with | .ok ps => ps | .error _ => s.proposals) ∧
      (createProposal s d body).2.status = (match x with | .ok _ => 201 | .error _ => 500) := by
    intro x hx
    simp only [createProposal, ht, he, htt, het, MockLedger.createProposal]
    simp only [Bool.not_true, Bool.or_self, Bool.false_eq_true, if_false]
    rw [hvalid]
    simp only
    rw [hx]
    cases x <;> exact ⟨rfl, rfl⟩
  refine ⟨?_, ?_⟩
  · intro hfree
    have hins : insertProposal s.proposals
        { proposalId := ((s.ledger.proposalCount + 1 + d.randomId : Nat) : Int)
          contractAddress := contractAddress
          transactionHash := "0x" ++ d.randomHex
          blockNumber := ((12345 + (s.ledger.proposalCount + 1 + d.randomId) : Nat) : ℚ)
          title := t
          description := e
          creator := ledgerOwner
          deadline := q
          isActive := some true
          voteCount := 0
          voters := []
          gasUsed := natDigits (100000 + d.randomGas)
          createdAt := d.now } = .ok (s.proposals ++ [
        { proposalId := ((s.ledger.proposalCount + 1 + d.randomId : Nat) : Int)
          contractAddress := contractAddress
          transactionHash := "0x" ++ d.randomHex
          blockNumber := ((12345 + (s.ledger.proposalCount + 1 + d.randomId) : Nat) : ℚ)
          title := t
          description := e
          creator := ledgerOwner
          deadline := q
          isActive := some true
          voteCount := 0
          voters := []
          gasUsed := natDigits (100000 + d.randomGas)
          createdAt := d.now }]) := by
      unfold insertProposal
      rw [if_neg, if_neg]
      · simp only [List.any_eq_true, decide_eq_true_eq, not_exists, not_and]
        intro x hx hEq
        exact (hfree x hx).2 hEq
      · simp only [List.any_eq_true, decide_eq_true_eq, not_exists, not_and]
        intro x hx hEq
        exact (hfree x hx).1 hEq
    obtain ⟨h1, h2⟩ := hrun _ hins
    exact ⟨_, h1, h2, rfl, rfl, rfl, rfl, ht, he, hqd⟩
  · rintro ⟨x, hx, hcol⟩
    have hins : ∃ err, insertProposal s.proposals
        { proposalId := ((s.ledger.proposalCount + 1 + d.randomId : Nat) : Int)
          contractAddress := contractAddress
          transactionHash := "0x" ++ d.randomHex
          blockNumber := ((12345 + (s.ledger.proposalCount + 1 + d.randomId) : Nat) : ℚ)
          title := t
          description := e
          creator := ledgerOwner
          deadline := q
          isActive := some true
          voteCount := 0
          voters := []
          gasUsed := natDigits (100000 + d.randomGas)
          createdAt := d.now } = .error err := by
      unfold insertProposal
      by_cases hid : (s.proposals.any (fun q =>
          decide (q.proposalId = ((s.ledger.proposalCount + 1 + d.randomId : Nat) : Int)))) = true
      · rw [if_pos hid]; exact ⟨_, rfl⟩
      · rw [if_neg hid]
        have htx : (s.proposals.any
            (fun q => decide (q.transactionHash = "0x" ++ d.randomHex))) = true := by
          rcases hcol with hcol | hcol
          · exact absurd (List.any_eq_true.mpr ⟨x, hx, by simp [hcol]⟩) hid
          · exact List.any_eq_true.mpr ⟨x, hx, by simp [hcol]⟩
        rw [if_pos htx]; exact ⟨_, rfl⟩
    obtain ⟨err, herr⟩ := hins
    exact hrun _ herr

/-- C14, amended, at the sample system: the ledger hands out the identifier 11,
which no stored proposal carries. -/
theorem createProposal_persists_witness :
    validateProposal sampleProposalBody = none ∧
    ∃ p, (createProposal sampleSystem ⟨10, "27bd04", 41, 1700000001000⟩
        sampleProposalBody).1.proposals = sampleSystem.proposals ++ [p] ∧
      p.proposalId = 11 ∧ p.isActive = some true ∧ p.voteCount = 0 ∧ p.voters = [] ∧
      p.title = "Upgrade X" ∧ p.deadline = 0 :=
  ⟨by decide,
    by
      obtain ⟨p, h1, -, h3, h4, h5, h6, h7, -, h9⟩ :=
        (createProposal_persists sampleSystem ⟨10, "27bd04", 41, 1700000001000⟩
          sampleProposalBody (by decide)).1 (by decide)
      refine ⟨p, h1, h3, h4, h5, h6, ?_, ?_⟩
      · have : JsValue.str "Upgrade X" = JsValue.str p.title := h7
        exact (JsValue.str.inj this).symm
      · rcases h9 with ⟨h, -⟩ | ⟨-, h⟩
        · exact absurd h (by decide)
        · exact h⟩

/-- C15. The ledger hands out the same identifier twice: on the empty ledger
the first `createProposal` draws the offset 11 and returns 1 + 11 = 12, the
second draws 10 and returns 2 + 10 = 12 again; the second call overwrites the
first proposal, so the ledger holds one proposal after two calls. -/
theorem createProposal_identifier_reused :
    (emptySystem.ledger.createProposal ⟨11, "8a3f1c", 40, 1700000000000⟩
      (.str "Upgrade X") (.str "Upgrade the protocol") (.num 0)).2.proposalId = 12 ∧
    (mapGet
      (emptySystem.ledger.createProposal ⟨11, "8a3f1c", 40, 1700000000000⟩
        (.str "Upgrade X") (.str "Upgrade the protocol") (.num 0)).1.proposals
      (.num 12)).isSome = true ∧
    ((emptySystem.ledger.createProposal ⟨11, "8a3f1c", 40, 1700000000000⟩
        (.str "Upgrade X") (.str "Upgrade the protocol") (.num 0)).1.createProposal
      ⟨10, "27bd04", 41, 1700000001000⟩
      (.str "Upgrade Y") (.str "Another text") (.num 0)).2.proposalId = 12 ∧
    (((emptySystem.ledger.createProposal ⟨11, "8a3f1c", 40, 1700000000000⟩
        (.str "Upgrade X") (.str "Upgrade the protocol") (.num 0)).1.createProposal
      ⟨10, "27bd04", 41, 1700000001000⟩
      (.str "Upgrade Y") (.str "Another text") (.num 0)).1.getAllProposals.map (·.title))
      = [.str "Upgrade Y"] := by
  decide

/-! ## The life cycle of a proposal -/

theorem incVoteCount_getElem?_cases (ps : List Proposal) (n : Int) (i : Nat) (P : Proposal)
    (h : ps[i]? = some P) :
    (incVoteCount ps n)[i]? = some P ∨
      (incVoteCount ps n)[i]? = some { P with voteCount := P.voteCount + 1 } := by
  induction ps generalizing i with
  | nil => simp at h
  | cons p ps ih =>
    unfold incVoteCount
    cases i with
    | zero =>
      simp only [List.getElem?_cons_zero, Option.some.injEq] at h
      subst h
      split
      · exact Or.inr (by simp)
      · exact Or.inl (by simp)
    | succ j =>
      simp only [List.getElem?_cons_succ] at h
      split
      · exact Or.inl (by simp [h])
      · simp only [List.getElem?_cons_succ]
        exact ih j h

theorem replaceProposal_length (ps : List Proposal) (q : Proposal) :
    (replaceProposal ps q).length = ps.length := by
  induction ps with
  | nil => rfl
  | cons p ps ih =>
    unfold replaceProposal
    split <;> simp [ih]

/-- After a document has been written back, each place of the store holds what
it held, or the written document where the first document with its identifier
stood. -/
theorem replaceProposal_getElem? (ps : List Proposal) (q : Proposal) (i : Nat) (P : Proposal)
    (h : ps[i]? = some P) :
    (replaceProposal ps q)[i]? = some P ∨
      ((replaceProposal ps q)[i]? = some q ∧
        ps.find? (fun p => decide (p.proposalId = q.proposalId)) = some P) := by
  induction ps generalizing i with
  | nil => simp at h
  | cons p ps ih =>
    unfold replaceProposal
    cases i with
    | zero =>
      simp only [List.getElem?_cons_zero, Option.some.injEq] at h
      subst h
      split
      · rename_i hp
        exact Or.inr ⟨by simp, by simp [List.find?_cons, hp]⟩
      · exact Or.inl (by simp)
    | succ j =>
      simp only [List.getElem?_cons_succ] at h
      split
      · exact Or.inl (by simp [h])
      · rename_i hp
        simp only [List.getElem?_cons_succ]
        rcases ih j h with h1 | ⟨h1, h2⟩
        · exact Or.inl h1
        · exact Or.inr ⟨h1, by simp [List.find?_cons, hp, h2]⟩

/-- What `updateProposal` does, once the path parameter has been read. -/
theorem updateProposal_cases (s : System) (proposalId : String) (body : UpdateBody) :
    (updateProposal s proposalId body).1 = s ∨
    ∃ n proposal flag,
      parseIntString proposalId = some n ∧
      s.proposals.find? (fun p => decide (p.proposalId = n)) = some proposal ∧
      (if body.isActive = .undefined then some proposal.isActive
        else castBoolean body.isActive) = some flag ∧
      (updateProposal s proposalId body).1 =
        { proposals := replaceProposal s.proposals
            { proposalId := proposal.proposalId
              contractAddress := proposal.contractAddress
              transactionHash := proposal.transactionHash
              blockNumber := proposal.blockNumber
              title := if body.title.truthy then jsToString body.title else proposal.title
              description :=
                if body.description.truthy then jsToString body.description
                else proposal.description
              creator := proposal.creator
              deadline := proposal.deadline
              isActive := flag
              voteCount := proposal.voteCount
              voters := proposal.voters
              gasUsed := proposal.gasUsed
              createdAt := proposal.createdAt }
          votes := s.votes
          ledger := s.ledger } := by
  cases hn : parseIntString proposalId with
  | none => exact Or.inl (by simp [updateProposal, hn])
  | some n =>
    cases hfind : s.proposals.find? (fun p => decide (p.proposalId = n)) with
    | none => exact Or.inl (by simp [updateProposal, hn, hfind])
    | some proposal =>
      cases hflag : (if body.isActive = .undefined then some proposal.isActive
          else castBoolean body.isActive) with
      | none =>
        refine Or.inl ?_
        by_cases h1 : body.title.truthy = true <;> by_cases h2 : body.description.truthy = true <;>
          simp [updateProposal, hn, hfind, h1, h2, hflag]
      | some flag =>
        by_cases h1 : body.title.truthy = true <;> by_cases h2 : body.description.truthy = true
        all_goals
          simp only [updateProposal, hn, hfind, h1, h2, hflag, if_true, if_false,
            Bool.false_eq_true]
          split
          · exact Or.inr ⟨n, proposal, flag, rfl, hfind, hflag, rfl⟩
          · exact Or.inl rfl

/-- C16, as stated, fails: `updateProposal` with `isActive: true` in the body
turns a closed proposal active again. -/
theorem updateProposal_reopens :
    closedSystem.proposals.map (·.isActive) = [some false] ∧
    (updateProposal closedSystem "12"
      { title := .undefined, description := .undefined, isActive := .bool true }).2.status
      = 200 ∧
    ((updateProposal closedSystem "12"
      { title := .undefined, description := .undefined, isActive := .bool true }).1.proposals.map
      (·.isActive)) = [some true] := by
  decide

/-- C16, amended. A stored proposal with `isActive = false` still has
`isActive = false` after `castVote`, after `syncProposals` (which stores
nothing), after `close` and its `save`, and after `updateProposal` with a body
whose `isActive` is `undefined` or is cast to false by the schema. -/
theorem closed_stays_closed (s : System) (i : Nat) (P : Proposal)
    (hP : s.proposals[i]? = some P) (hc : P.isActive = some false) :
    (∀ d body, ∃ P', (castVote s d body).1.proposals[i]? = some P' ∧
      P'.proposalId = P.proposalId ∧ P'.isActive = some false) ∧
    (syncProposals s).1 = s ∧
    (P.close.isActive = some false ∧
      ∀ ps, P.close.save s.proposals = .ok ps →
        ∃ P', ps[i]? = some P' ∧ P'.proposalId = P.proposalId ∧ P'.isActive = some false) ∧
    (∀ proposalId body,
      (body.isActive = .undefined ∨ castBoolean body.isActive = some (some false)) →
      ∃ P', (updateProposal s proposalId body).1.proposals[i]? = some P' ∧
        P'.proposalId = P.proposalId ∧ P'.isActive = some false) := by
  refine ⟨?_, ?_, ⟨rfl, ?_⟩, ?_⟩
  · intro d body
    by_cases h : (castVote s d body).2.status = 201
    · obtain ⟨n, voter, ledger, result, v, -, -, -, -, heq⟩ := castVote_accepted s d body h
      rw [heq]
      rcases incVoteCount_getElem?_cases s.proposals n i P hP with h1 | h1
      · exact ⟨_, h1, rfl, hc⟩
      · exact ⟨_, h1, rfl, hc⟩
    · rw [(castVote_rejected s d body h).1]
      exact ⟨P, hP, rfl, hc⟩
  · unfold syncProposals
    split <;> rfl
  · intro ps hps
    unfold Proposal.save at hps
    split at hps
    · simp only [Except.ok.injEq] at hps
      subst hps
      rcases replaceProposal_getElem? s.proposals P.close i P hP with h1 | ⟨h1, h2⟩
      · exact ⟨_, h1, rfl, hc⟩
      · exact ⟨_, h1, rfl, rfl⟩
    · cases hps
  · intro proposalId body hbody
    rcases updateProposal_cases s proposalId body with h | ⟨n, proposal, flag, -, hfind, hflag, h⟩
    · rw [h]; exact ⟨P, hP, rfl, hc⟩
    · rw [h]
      simp only
      rcases replaceProposal_getElem? s.proposals _ i P hP with h1 | ⟨h1, h2⟩
      · exact ⟨_, h1, rfl, hc⟩
      · have hPp : proposal = P := by
          have h3 := List.find?_some hfind
          simp only [decide_eq_true_eq] at h3
          rw [h3] at h2
          rw [hfind] at h2
          exact Option.some.inj h2
        subst hPp
        refine ⟨_, h1, ?_, ?_⟩
        · have h3 := List.find?_some hfind
          simp only [decide_eq_true_eq] at h3
          rfl
        · rcases hbody with hb | hb
          · rw [if_pos hb] at hflag
            simp only [Option.some.injEq] at hflag
            simp only
            rw [← hflag, hc]
          · by_cases hu : body.isActive = .undefined
            · rw [if_pos hu] at hflag
              simp only [Option.some.injEq] at hflag
              simp only
              rw [← hflag, hc]
            · rw [if_neg hu, hb] at hflag
              simp only [Option.some.injEq] at hflag
              simp only
              exact hflag.symm

/-- C16, amended, at the closed sample proposal: an update of the title alone. -/
theorem closed_stays_closed_witness :
    closedSystem.proposals[0]? = some closedProposal ∧ closedProposal.isActive = some false ∧
    ∃ P', (updateProposal closedSystem "12"
        { title := .str "Upgrade Z", description := .undefined,
          isActive := .undefined }).1.proposals[0]? = some P' ∧
      P'.proposalId = closedProposal.proposalId ∧ P'.isActive = some false :=
  ⟨by decide, by decide,
    (closed_stays_closed closedSystem 0 closedProposal (by decide) (by decide)).2.2.2 "12"
      { title := .str "Upgrade Z", description := .undefined, isActive := .undefined }
      (Or.inl rfl)⟩

/-- C17. `updateProposal` keeps the length of the proposal store, the votes and
the ledger; every stored proposal keeps its place and all its fields except
possibly `title`, `description` and `isActive`, and a proposal whose identifier
is not the one named by the path parameter is left as it was.  When the
parameter names no stored proposal the answer is 404 and the state is left as
it was. -/
theorem updateProposal_frame (s : System) (proposalId : String) (body : UpdateBody) :
    (updateProposal s proposalId body).1.proposals.length = s.proposals.length ∧
    (updateProposal s proposalId body).1.votes = s.votes ∧
    (updateProposal s proposalId body).1.ledger = s.ledger ∧
    (∀ (i : Nat) (P : Proposal), s.proposals[i]? = some P →
      ∃ P', (updateProposal s proposalId body).1.proposals[i]? = some P' ∧
        P'.proposalId = P.proposalId ∧ P'.voteCount = P.voteCount ∧ P'.voters = P.voters ∧
        P'.deadline = P.deadline ∧ P'.contractAddress = P.contractAddress ∧
        P'.transactionHash = P.transactionHash ∧ P'.blockNumber = P.blockNumber ∧
        P'.creator = P.creator ∧ P'.gasUsed = P.gasUsed ∧ P'.createdAt = P.createdAt ∧
        (parseIntString proposalId ≠ some P.proposalId → P' = P)) ∧
    (∀ n, parseIntString proposalId = some n → (∀ p ∈ s.proposals, p.proposalId ≠ n) →
      updateProposal s proposalId body = (s, Response.failure 404 "Proposal not found")) := by
  refine ⟨?_, ?_, ?_, ?_, ?_⟩
  · rcases updateProposal_cases s proposalId body with h | ⟨n, proposal, flag, -, -, -, h⟩
    · rw [h]
    · rw [h]; exact replaceProposal_length _ _
  · rcases updateProposal_cases s proposalId body with h | ⟨n, proposal, flag, -, -, -, h⟩ <;>
      rw [h]
  · rcases updateProposal_cases s proposalId body with h | ⟨n, proposal, flag, -, -, -, h⟩ <;>
      rw [h]
  · intro i P hP
    rcases updateProposal_cases s proposalId body with h | ⟨n, proposal, flag, hn, hfind, -, h⟩
    · rw [h]
      exact ⟨P, hP, rfl, rfl, rfl, rfl, rfl, rfl, rfl, rfl, rfl, rfl, fun _ => rfl⟩
    · rw [h]
      have hpn : proposal.proposalId = n := by
        have h3 := List.find?_some hfind
        simpa using h3
      rcases replaceProposal_getElem? s.proposals _ i P hP with h1 | ⟨h1, h2⟩
      · exact ⟨P, h1, rfl, rfl, rfl, rfl, rfl, rfl, rfl, rfl, rfl, rfl, fun _ => rfl⟩
      · have hPp : proposal = P := by
          simp only [hpn] at h2
          rw [hfind] at h2
          exact Option.some.inj h2
        subst hPp
        refine ⟨_, h1, rfl, rfl, rfl, rfl, rfl, rfl, rfl, rfl, rfl, rfl, ?_⟩
        intro hne
        exact absurd (by rw [hn, hpn]) hne
  · intro n hn hnone
    have hfind : s.proposals.find? (fun p => decide (p.proposalId = n)) = none := by
      rw [List.find?_eq_none]
      intro p hp
      simpa using hnone p hp
    simp [updateProposal, hn, hfind]

/-- C17, at the sample system: proposal 13 is not stored. -/
theorem updateProposal_frame_witness :
    updateProposal sampleSystem "13"
      { title := .str "Upgrade Z", description := .undefined, isActive := .bool false } =
      (sampleSystem, Response.failure 404 "Proposal not found") :=
  (updateProposal_frame sampleSystem "13"
    { title := .str "Upgrade Z", description := .undefined, isActive := .bool false }).2.2.2.2
    13 (by decide) (by decide)

theorem eraseP_eq_filter (ps : List Proposal) (n : Int)
    (hnd : (ps.map (·.proposalId)).Nodup) :
    ps.eraseP (fun p => decide (p.proposalId = n)) =
      ps.filter (fun p => !decide (p.proposalId = n)) := by
  induction ps with
  | nil => rfl
  | cons p ps ih =>
    simp only [List.map_cons, List.nodup_cons, List.mem_map, not_exists, not_and] at hnd
    by_cases hp : p.proposalId = n
    · have hrest : ps.filter (fun q => !decide (q.proposalId = n)) = ps := by
        rw [List.filter_eq_self]
        intro q hq
        have : q.proposalId ≠ n := fun h => hnd.1 q hq (by rw [h, hp])
        simp [this]
      simp [List.eraseP_cons, List.filter_cons, hp, hrest]
    · simp [List.eraseP_cons, List.filter_cons, hp, ih hnd.2]

/-- C18. When the path parameter names a stored proposal, `deleteProposal`
answers 200, removes the first stored proposal with that identifier and every
vote carrying it, and leaves the ledger alone; with the unique index on
`proposalId` the proposal store becomes the old one without the proposals of
that identifier, in the same order, so that no proposal and no vote carries the
identifier any more and all others are kept as they were.  When the parameter
names no stored proposal the answer is 404 and the state is left as it was. -/
theorem deleteProposal_effect (s : System) (proposalId : String) (n : Int)
    (hn : parseIntString proposalId = some n) :
    ((∃ p ∈ s.proposals, p.proposalId = n) →
      (deleteProposal s proposalId).2.status = 200 ∧
      (deleteProposal s proposalId).1.votes = s.votes.filter (fun v => !decide (v.proposalId = n)) ∧
      (∀ v ∈ (deleteProposal s proposalId).1.votes, v.proposalId ≠ n) ∧
      (deleteProposal s proposalId).1.ledger = s.ledger ∧
      (deleteProposal s proposalId).1.proposals =
        s.proposals.eraseP (fun p => decide (p.proposalId = n)) ∧
      ((s.proposals.map (·.proposalId)).Nodup →
        (deleteProposal s proposalId).1.proposals =
          s.proposals.filter (fun p => !decide (p.proposalId = n)) ∧
        ∀ p ∈ (deleteProposal s proposalId).1.proposals, p.proposalId ≠ n)) ∧
    ((∀ p ∈ s.proposals, p.proposalId ≠ n) →
      deleteProposal s proposalId = (s, Response.failure 404 "Proposal not found")) := by
  refine ⟨?_, ?_⟩
  · rintro ⟨p, hp, hpn⟩
    have hfind : ∃ q, s.proposals.find? (fun p => decide (p.proposalId = n)) = some q := by
      cases hf : s.proposals.find? (fun p => decide (p.proposalId = n)) with
      | some q => exact ⟨q, rfl⟩
      | none =>
        rw [List.find?_eq_none] at hf
        exact absurd (by simpa using hpn) (hf p hp)
    obtain ⟨q, hq⟩ := hfind
    have hdel : deleteProposal s proposalId =
        ({ s with
            proposals := s.proposals.eraseP (fun p => decide (p.proposalId = n))
            votes := s.votes.filter (fun v => !decide (v.proposalId = n)) },
          { status := 200, success := true, error := none,
            message := some "Proposal deleted successfully", thrown := none, data := none }) := by
      simp [deleteProposal, hn, hq]
    rw [hdel]
    refine ⟨rfl, rfl, ?_, rfl, rfl, ?_⟩
    · intro v hv
      simp only [List.mem_filter, Bool.not_eq_true', decide_eq_false_iff_not] at hv
      exact hv.2
    · intro hnd
      simp only
      rw [eraseP_eq_filter s.proposals n hnd]
      refine ⟨rfl, ?_⟩
      intro x hx
      simp only [List.mem_filter, Bool.not_eq_true', decide_eq_false_iff_not] at hx
      exact hx.2
  · intro hnone
    have hfind : s.proposals.find? (fun p => decide (p.proposalId = n)) = none := by
      rw [List.find?_eq_none]
      intro p hp
      simpa using hnone p hp
    simp [deleteProposal, hn, hfind]

/-- C18, from the state left by the accepted sample vote: deleting proposal 12
leaves no proposal and no vote. -/
theorem deleteProposal_effect_witness :
    parseIntString "12" = some 12 ∧
    (deleteProposal (castVote sampleSystem sampleDraw sampleBody).1 "12").2.status = 200 ∧
    (deleteProposal (castVote sampleSystem sampleDraw sampleBody).1 "12").1.votes.length = 0 ∧
    (deleteProposal (castVote sampleSystem sampleDraw sampleBody).1 "12").1.proposals.length = 0 :=
  have h := (deleteProposal_effect (castVote sampleSystem sampleDraw sampleBody).1 "12" 12
    (by decide)).1 (by decide)
  ⟨by decide, h.1, by decide, by decide⟩

/-! ## Deadlines -/

theorem mapGet_map {β γ : Type} (f : β → γ) (m : List (JsValue × β)) (k : JsValue) :
    mapGet (m.map (fun e => (e.1, f e.2))) k = (mapGet m k).map f := by
  induction m with
  | nil => rfl
  | cons e m ih =>
    obtain ⟨k', v⟩ := e
    simp only [List.map_cons, mapGet]
    split
    · rfl
    · exact ih

theorem mapSet_map {β γ : Type} (f : β → γ) (m : List (JsValue × β)) (k : JsValue) (v : β) :
    (mapSet m k v).map (fun e => (e.1, f e.2)) =
      mapSet (m.map (fun e => (e.1, f e.2))) k (f v) := by
  induction m with
  | nil => rfl
  | cons e m ih =>
    obtain ⟨k', v'⟩ := e
    simp only [List.map_cons, mapSet]
    split
    · simp
    · simp [ih]

theorem mapGet_mapSet_self {β : Type} (m : List (JsValue × β)) (k : JsValue) (v : β) :
    mapGet (mapSet m k v) k = some v := by
  induction m with
  | nil => simp [mapSet, mapGet]
  | cons e m ih =>
    obtain ⟨k', v'⟩ := e
    simp only [mapSet]
    split
    · rename_i h; simp [mapGet, h]
    · rename_i h; simp [mapGet, h, ih]

/-- The ledger method `vote` on a proposal key the ledger does not know: the
key is registered and the vote recorded. -/
theorem vote_unknown (l : MockLedger) (d : Draw) (proposalId voterAddress : JsValue)
    (h : mapGet l.proposals proposalId = none) :
    l.vote d proposalId voterAddress =
      ({ proposals := mapSet
            (mapSet l.proposals proposalId
              { id := proposalId
                title := .str ("Proposal " ++ jsToString proposalId)
                description := .str "Proposal loaded from database"
                voteCount := 0
                creator := ledgerOwner
                createdAt := d.now / 1000
                deadline := .num 0
                isActive := true })
            proposalId
            { id := proposalId
              title := .str ("Proposal " ++ jsToString proposalId)
              description := .str "Proposal loaded from database"
              voteCount := 0 + 1
              creator := ledgerOwner
              createdAt := d.now / 1000
              deadline := .num 0
              isActive := true }
         proposalCount := l.proposalCount
         votes := mapSet (mapSet l.votes proposalId []) proposalId ([] ++ [voterAddress]) },
        .ok { transactionHash := "0x" ++ d.randomHex
              blockNumber := jsAddNumber 12345 proposalId
              gasUsed := .num ((50000 + d.randomGas : Nat) : ℚ) }) := by
  simp [MockLedger.vote, h, mapGet_mapSet_self]

/-- The ledger method `vote` on a proposal key the ledger knows. -/
theorem vote_known (l : MockLedger) (d : Draw) (proposalId voterAddress : JsValue)
    (p : LedgerProposal) (h : mapGet l.proposals proposalId = some p) :
    l.vote d proposalId voterAddress =
      if !p.isActive then (l, .error (.error "Proposal is not active"))
      else
        match mapGet l.votes proposalId with
        | none => (l, .error (.typeError "voterSet is undefined"))
        | some voterSet =>
          if voterSet.contains voterAddress then
            (l, .error (.error "Already voted on this proposal"))
          else
            ({ l with
                votes := mapSet l.votes proposalId (voterSet ++ [voterAddress])
                proposals := mapSet l.proposals proposalId
                  { p with voteCount := p.voteCount + 1 } },
              .ok { transactionHash := "0x" ++ d.randomHex
                    blockNumber := jsAddNumber 12345 proposalId
                    gasUsed := .num ((50000 + d.randomGas : Nat) : ℚ) }) := by
  simp [MockLedger.vote, h]

theorem vote_withoutDeadlines (l : MockLedger) (d : Draw) (proposalId voterAddress : JsValue) :
    l.withoutDeadlines.vote d proposalId voterAddress =
      ((l.vote d proposalId voterAddress).1.withoutDeadlines,
        (l.vote d proposalId voterAddress).2) := by
  cases h : mapGet l.proposals proposalId with
  | none =>
    have h' : mapGet l.withoutDeadlines.proposals proposalId = none := by
      simp [MockLedger.withoutDeadlines, mapGet_map LedgerProposal.withoutDeadline, h]
    rw [vote_unknown _ d proposalId voterAddress h', vote_unknown l d proposalId voterAddress h]
    simp only [MockLedger.withoutDeadlines, mapSet_map LedgerProposal.withoutDeadline]
    rfl
  | some p =>
    have h' : mapGet l.withoutDeadlines.proposals proposalId = some p.withoutDeadline := by
      simp [MockLedger.withoutDeadlines, mapGet_map LedgerProposal.withoutDeadline, h]
    rw [vote_known _ d proposalId voterAddress _ h', vote_known l d proposalId voterAddress p h]
    by_cases ha : p.isActive = true
    · have ha' : p.withoutDeadline.isActive = true := ha
      simp only [ha, ha', Bool.not_true, Bool.false_eq_true, if_false]
      have hv : l.withoutDeadlines.votes = l.votes := rfl
      rw [hv]
      cases mapGet l.votes proposalId with
      | none => rfl
      | some voterSet =>
        dsimp only
        by_cases hc : voterSet.contains voterAddress = true
        · simp only [hc, if_true]
        · simp only [hc, if_false, Bool.false_eq_true]
          simp only [MockLedger.withoutDeadlines, mapSet_map LedgerProposal.withoutDeadline]
          rfl
    · have ha0 : p.isActive = false := by simpa using ha
      have ha' : p.withoutDeadline.isActive = false := ha0
      simp only [ha0, ha', Bool.not_false, if_true]

theorem findActiveProposal_eraseDeadlines (ps : List Proposal) (n : Int) :
    findActiveProposal (ps.map Proposal.withoutDeadline) n =
      (findActiveProposal ps n).map Proposal.withoutDeadline := by
  unfold findActiveProposal
  rw [List.find?_map]
  rfl

theorem incVoteCount_eraseDeadlines (ps : List Proposal) (n : Int) :
    incVoteCount (ps.map Proposal.withoutDeadline) n =
      (incVoteCount ps n).map Proposal.withoutDeadline := by
  induction ps with
  | nil => rfl
  | cons p ps ih =>
    simp only [List.map_cons, incVoteCount]
    by_cases h : p.proposalId = n
    · have h' : p.withoutDeadline.proposalId = n := h
      simp only [h, h', if_true, List.map_cons]
      rfl
    · have h' : ¬ p.withoutDeadline.proposalId = n := h
      simp only [h, h', if_false, List.map_cons, ih]

theorem admission_eraseDeadlines (s : System) (body : VoteBody) :
    admission (eraseDeadlines s) body = admission s body := by
  unfold admission
  simp only [eraseDeadlines, findActiveProposal_eraseDeadlines, hasUserVoted,
    MockLedger.hasUserVoted, MockLedger.withoutDeadlines]
  cases parseInt body.proposalId with
  | none => rfl
  | some n =>
    dsimp only
    cases findActiveProposal s.proposals n <;> rfl

/-- Setting the deadlines to zero before `castVote` or after it gives the same
state, and the answer is the same. -/
theorem castVote_eraseDeadlines (s : System) (d : Draw) (body : VoteBody) :
    castVote (eraseDeadlines s) d body =
      (eraseDeadlines (castVote s d body).1, (castVote s d body).2) := by
  have hadm := admission_eraseDeadlines s body
  have hvote := vote_withoutDeadlines s.ledger d body.proposalId body.voterAddress
  cases ha : admission s body with
  | error r =>
    rw [castVote_of_admission_error s d body r ha,
      castVote_of_admission_error (eraseDeadlines s) d body r (by rw [hadm, ha])]
  | ok pr =>
    obtain ⟨n, voter⟩ := pr
    cases hl : voteOnProposal s.ledger d body.proposalId body.voterAddress with
    | mk ledger res =>
      have hl' : MockLedger.vote s.ledger d body.proposalId body.voterAddress = (ledger, res) := hl
      rw [hl'] at hvote
      have hle : voteOnProposal (eraseDeadlines s).ledger d body.proposalId body.voterAddress =
          (ledger.withoutDeadlines, res) := hvote
      cases res with
      | error e =>
        rw [castVote_of_ledger_error s d body n voter ledger e ha hl,
          castVote_of_ledger_error (eraseDeadlines s) d body n voter _ e (by rw [hadm, ha]) hle]
        rfl
      | ok result =>
        cases hs : saveVote s.votes d n voter result with
        | error e =>
          rw [castVote_of_save_error s d body n voter ledger result e ha hl hs,
            castVote_of_save_error (eraseDeadlines s) d body n voter _ result e
              (by rw [hadm, ha]) hle hs]
          rfl
        | ok votes =>
          rw [castVote_of_save_ok s d body n voter ledger result votes ha hl hs,
            castVote_of_save_ok (eraseDeadlines s) d body n voter _ result votes
              (by rw [hadm, ha]) hle hs]
          simp only [eraseDeadlines, incVoteCount_eraseDeadlines]

theorem incVoteCount_deadlines (ps : List Proposal) (n : Int) :
    (incVoteCount ps n).map (·.deadline) = ps.map (·.deadline) := by
  induction ps with
  | nil => rfl
  | cons p ps ih =>
    unfold incVoteCount
    split
    · simp
    · simp [ih]

/-- C19. `castVote` does not look at deadlines: on two systems that differ in
deadlines only (of stored proposals or of ledger proposals, past ones
included) the same request with the same draws gets the same answer, leaves
the same votes and the same `voteCount` values, and leaves two systems that
again differ in deadlines only; the stored deadlines themselves are not
changed. -/
theorem castVote_ignores_deadlines (s1 s2 : System) (d : Draw) (body : VoteBody)
    (h : eraseDeadlines s1 = eraseDeadlines s2) :
    (castVote s1 d body).2 = (castVote s2 d body).2 ∧
    (castVote s1 d body).1.votes = (castVote s2 d body).1.votes ∧
    (castVote s1 d body).1.proposals.map (·.voteCount) =
      (castVote s2 d body).1.proposals.map (·.voteCount) ∧
    eraseDeadlines (castVote s1 d body).1 = eraseDeadlines (castVote s2 d body).1 ∧
    (castVote s1 d body).1.proposals.map (·.deadline) = s1.proposals.map (·.deadline) ∧
    (castVote s2 d body).1.proposals.map (·.deadline) = s2.proposals.map (·.deadline) := by
  have h1 := castVote_eraseDeadlines s1 d body
  have h2 := castVote_eraseDeadlines s2 d body
  rw [h] at h1
  rw [h1] at h2
  simp only [Prod.mk.injEq] at h2
  obtain ⟨he, hr⟩ := h2
  have hdead : ∀ s : System, (castVote s d body).1.proposals.map (·.deadline) =
      s.proposals.map (·.deadline) := by
    intro s
    by_cases h201 : (castVote s d body).2.status = 201
    · obtain ⟨n, voter, ledger, result, v, -, -, -, -, heq⟩ := castVote_accepted s d body h201
      rw [heq]
      exact incVoteCount_deadlines s.proposals n
    · rw [(castVote_rejected s d body h201).1]
  refine ⟨hr, ?_, ?_, he, hdead s1, hdead s2⟩
  · have := congrArg System.votes he
    exact this
  · have := congrArg (fun s => s.proposals.map (·.voteCount)) he
    simpa [eraseDeadlines, Proposal.withoutDeadline, Function.comp_def] using this

/-- C19, at the sample system and its copy with a deadline long past. -/
theorem castVote_ignores_deadlines_witness :
    eraseDeadlines sampleSystem = eraseDeadlines expiredSystem ∧
    (castVote sampleSystem sampleDraw sampleBody).2 =
      (castVote expiredSystem sampleDraw sampleBody).2 ∧
    (castVote expiredSystem sampleDraw sampleBody).2.status = 201 :=
  ⟨by decide,
    (castVote_ignores_deadlines sampleSystem expiredSystem sampleDraw sampleBody (by decide)).1,
    by decide⟩

/-- C20. At the clock value `now` (milliseconds), the current time in epoch
seconds is the double `clockSeconds now`, and `isExpired` is true exactly when
the deadline is not zero and that time exceeds it. -/
theorem isExpired_iff (p : Proposal) (now : Nat) :
    p.isExpired now = true ↔ p.deadline ≠ 0 ∧ clockSeconds now > p.deadline := by
  unfold Proposal.isExpired
  by_cases h : p.deadline = 0
  · simp [h]
  · simp [h]

/-- The clock in seconds is rounded before it is compared: at the clock value
1700000000001 a proposal whose deadline is the double written 1700000000.001
is not expired, that double being the quotient the clock gives; and a second
later it is. -/
theorem isExpired_at_rounded_clock :
    ({ sampleProposal with deadline := clockSeconds 1700000000001 } : Proposal).isExpired
      1700000000001 = false ∧
    ({ sampleProposal with deadline := clockSeconds 1700000000001 } : Proposal).isExpired
      1700000001001 = true := by
  decide

/-! ## Model methods: remaining time, closing, voter lists -/

theorem doubleValue_nonneg (a b : Nat) :
    (0 : ℚ) ≤ (if 0 ≤ (doubleParts a b).2 then
        (((doubleParts a b).1 * 2 ^ (doubleParts a b).2.toNat : Nat) : ℚ)
      else mkRat (doubleParts a b).1 (2 ^ (-(doubleParts a b).2).toNat)) := by
  split
  · exact Nat.cast_nonneg _
  · rw [Rat.mkRat_eq_div]
    apply div_nonneg
    · exact_mod_cast Nat.zero_le _
    · exact_mod_cast Nat.zero_le _

theorem clamp_nonneg (r : ℚ) (h : 0 ≤ r) :
    (0 : ℚ) ≤ (if (twoPow1024 : ℚ) ≤ r then (twoPow1024 : ℚ) else r) := by
  split
  · exact_mod_cast Nat.zero_le _
  · exact h

theorem clamp_le (r : ℚ) :
    (if (twoPow1024 : ℚ) ≤ r then (twoPow1024 : ℚ) else r) ≤ (twoPow1024 : ℚ) := by
  split
  · exact le_refl _
  · rename_i h
    exact le_of_lt (not_le.mp h)

theorem toNumberFrac_nonneg (a b : Nat) : 0 ≤ toNumberFrac false a b := by
  unfold toNumberFrac
  by_cases h0 : a = 0 ∨ b = 0
  · rw [if_pos h0]
  · rw [if_neg h0]
    exact clamp_nonneg _ (doubleValue_nonneg a b)

theorem toNumberFrac_nonpos (a b : Nat) : toNumberFrac true a b ≤ 0 := by
  unfold toNumberFrac
  by_cases h0 : a = 0 ∨ b = 0
  · rw [if_pos h0]
  · rw [if_neg h0]
    exact neg_nonpos.mpr (clamp_nonneg _ (doubleValue_nonneg a b))

theorem toNumberFrac_le (a b : Nat) : toNumberFrac false a b ≤ (twoPow1024 : ℚ) := by
  unfold toNumberFrac
  by_cases h0 : a = 0 ∨ b = 0
  · rw [if_pos h0]
    exact_mod_cast Nat.zero_le _
  · rw [if_neg h0]
    exact clamp_le _

theorem toNumber_nonpos (q : ℚ) (h : q ≤ 0) : toNumber q ≤ 0 := by
  unfold toNumber
  by_cases hn : q.num < 0
  · simp only [hn, decide_True]
    exact toNumberFrac_nonpos _ _
  · have h0 : q.num = 0 := le_antisymm (Rat.num_nonpos.mpr h) (not_lt.mp hn)
    simp [toNumberFrac, h0]

theorem le_of_isInfinite (q : ℚ) (hq : 0 < q) (h : isInfinite q = true) :
    (twoPow1024 : ℚ) ≤ q := by
  have hnum : 0 < q.num := Rat.num_pos.mpr hq
  have hden : (0 : ℚ) < (q.den : ℚ) := by exact_mod_cast q.den_pos
  have h1 : twoPow1024 * q.den ≤ q.num.natAbs := by simpa [isInfinite] using h
  have h2 : ((twoPow1024 * q.den : Nat) : Int) ≤ ((q.num.natAbs : Nat) : Int) := by
    exact_mod_cast h1
  rw [Int.natAbs_of_nonneg (le_of_lt hnum)] at h2
  have h3 : (((twoPow1024 * q.den : Nat) : Int) : ℚ) ≤ (q.num : ℚ) := by
    exact_mod_cast h2
  have h4 : q = (q.num : ℚ) / (q.den : ℚ) := (Rat.num_div_den q).symm
  rw [h4, le_div_iff₀ hden]
  push_cast at h3
  exact h3

/-- The difference computed for an expired proposal is not positive. -/
theorem jsSubtract_nonpos (x : ℚ) (now : Nat) (h : x < clockSeconds now) :
    jsSubtract x (clockSeconds now) ≤ 0 := by
  unfold jsSubtract
  by_cases hi : isInfinite x = true
  · rw [if_pos hi]
    by_contra hc
    have hpos : 0 < x := not_le.mp hc
    have h1 := le_of_isInfinite x hpos hi
    have h2 : clockSeconds now ≤ (twoPow1024 : ℚ) := toNumberFrac_le _ _
    linarith
  · rw [if_neg hi]
    exact toNumber_nonpos _ (by linarith)

/-- C21: the remaining time of a proposal is absent when its deadline is 0 and
is otherwise the larger of 0 and the deadline less the current time in
seconds, the time `clockSeconds now` and the difference `jsSubtract` being
the doubles the code computes; it is never negative, and it is 0 for an
expired proposal. -/
theorem timeRemaining_spec (p : Proposal) (now : Nat) :
    (p.deadline = 0 → p.timeRemaining now = none) ∧
    (p.deadline ≠ 0 →
      p.timeRemaining now =
        some (max 0 (jsSubtract p.deadline (clockSeconds now)))) ∧
    (∀ r, p.timeRemaining now = some r → 0 ≤ r) ∧
    (p.isExpired now = true → p.timeRemaining now = some 0) := by
  refine ⟨?_, ?_, ?_, ?_⟩
  · intro h
    simp [Proposal.timeRemaining, h]
  · intro h
    simp only [Proposal.timeRemaining, if_neg h]
    by_cases hr : jsSubtract p.deadline (clockSeconds now) > 0
    · rw [if_pos hr, max_eq_right (le_of_lt hr)]
    · rw [if_neg hr, max_eq_left (not_lt.mp hr)]
  · intro r h
    unfold Proposal.timeRemaining at h
    split at h
    · cases h
    · by_cases hr : jsSubtract p.deadline (clockSeconds now) > 0
      · simp only [if_pos hr] at h
        cases h
        exact le_of_lt hr
      · simp only [if_neg hr] at h
        cases h
        exact le_refl 0
  · intro h
    unfold Proposal.isExpired at h
    split at h
    · cases h
    · rename_i hd
      have hlt : p.deadline < clockSeconds now := by simpa using h
      have hr : ¬ (jsSubtract p.deadline (clockSeconds now) > 0) :=
        not_lt.mpr (jsSubtract_nonpos p.deadline now hlt)
      simp only [Proposal.timeRemaining, if_neg hd, if_neg hr]

/-- An instance of `timeRemaining_spec`: a deadline of one second after the
epoch leaves no time at the clock value of five seconds. -/
theorem timeRemaining_spec_witness :
    ({ sampleProposal with deadline := 1 } : Proposal).timeRemaining 5000 = some 0 :=
  (timeRemaining_spec { sampleProposal with deadline := 1 } 5000).2.2.2 (by decide)



theorem replaceProposal_idem (ps : List Proposal) (q : Proposal) :
    replaceProposal (replaceProposal ps q) q = replaceProposal ps q := by
  induction ps with
  | nil => rfl
  | cons p ps ih =>
    by_cases h : p.proposalId = q.proposalId
    · simp [replaceProposal, h]
    · simp [replaceProposal, h, ih]

/-- C22: closing a proposal sets `isActive` to false and touches no other
field; closing twice is closing once, on the document and in the store. -/
theorem close_idempotent (p : Proposal) :
    p.close.isActive = some false ∧
    p.close.close = p.close ∧
    (p.close.proposalId = p.proposalId ∧ p.close.contractAddress = p.contractAddress ∧
      p.close.transactionHash = p.transactionHash ∧ p.close.blockNumber = p.blockNumber ∧
      p.close.title = p.title ∧ p.close.description = p.description ∧
      p.close.creator = p.creator ∧ p.close.deadline = p.deadline ∧
      p.close.voteCount = p.voteCount ∧ p.close.voters = p.voters ∧
      p.close.gasUsed = p.gasUsed ∧ p.close.createdAt = p.createdAt) ∧
    (∀ ps ps1 : List Proposal, p.close.save ps = .ok ps1 →
      p.close.close.save ps1 = .ok ps1) := by
  refine ⟨rfl, rfl, ⟨rfl, rfl, rfl, rfl, rfl, rfl, rfl, rfl, rfl, rfl, rfl, rfl⟩, ?_⟩
  intro ps ps1 h
  have hcc : p.close.close = p.close := rfl
  rw [hcc]
  unfold Proposal.save at h ⊢
  split at h
  · rename_i hv
    cases h
    rw [if_pos hv, replaceProposal_idem]
  · cases h

/-- An instance of `close_idempotent`: the sample proposal, closed and saved
in the sample store, is closed and saved again without a change. -/
theorem close_idempotent_witness :
    sampleProposal.close.save [sampleProposal] = .ok [closedProposal] ∧
    sampleProposal.close.close.save [closedProposal] = .ok [closedProposal] :=
  ⟨rfl, (close_idempotent sampleProposal).2.2.2 [sampleProposal] [closedProposal] rfl⟩

theorem jsIndexOf_of_mem (xs : List String) (x : String) (h : x ∈ xs) :
    jsIndexOf xs x = (xs.indexOf x : Int) := by
  unfold jsIndexOf
  rw [if_pos (List.indexOf_lt_length.mpr h)]

theorem jsIndexOf_of_not_mem (xs : List String) (x : String) (h : x ∉ xs) :
    jsIndexOf xs x = -1 := by
  unfold jsIndexOf
  rw [if_neg (fun hc => h (List.indexOf_lt_length.mp hc))]

theorem removeVote_of_mem (p : Proposal) (a : String) (h : toLowerCase a ∈ p.voters) :
    p.removeVote a =
      { p with voters := p.voters.erase (toLowerCase a), voteCount := p.voteCount - 1 } := by
  unfold Proposal.removeVote
  simp only [jsIndexOf_of_mem _ _ h]
  have hpos : ((p.voters.indexOf (toLowerCase a) : Nat) : Int) > -1 := by omega
  rw [if_pos hpos]
  have h1 : ((p.voters.indexOf (toLowerCase a) : Nat) : Int).toNat =
      p.voters.indexOf (toLowerCase a) := by simp
  have h2 : (max 0 ((p.voteCount : Int) - 1)).toNat = p.voteCount - 1 := by omega
  rw [h1, h2, List.eraseIdx_indexOf_eq_erase]

theorem removeVote_of_not_mem (p : Proposal) (a : String) (h : toLowerCase a ∉ p.voters) :
    p.removeVote a = p := by
  unfold Proposal.removeVote
  simp only [jsIndexOf_of_not_mem _ _ h]
  simp

/-- C26: `addVote` and `removeVote` keep the voter list free of repetition and
in lower case and the counter equal to its length; `addVote` of an address the
list holds (written in any letter case) changes nothing, and `removeVote`
undoes an `addVote` of an address the list did not hold. -/
theorem addVote_removeVote_consistent (p : Proposal) (a : String)
    (h : p.votersConsistent) :
    (p.addVote a).votersConsistent ∧ (p.removeVote a).votersConsistent ∧
    (toLowerCase a ∈ p.voters → p.addVote a = p) ∧
    (toLowerCase a ∉ p.voters → (p.addVote a).removeVote a = p) := by
  obtain ⟨hnd, hlow, hcount⟩ := h
  have hadd : toLowerCase a ∉ p.voters → p.addVote a =
      { p with voters := p.voters ++ [toLowerCase a], voteCount := p.voteCount + 1 } := by
    intro hm
    unfold Proposal.addVote
    simp [hm]
  have hadd' : toLowerCase a ∈ p.voters → p.addVote a = p := by
    intro hm
    unfold Proposal.addVote
    simp [hm]
  refine ⟨?_, ?_, hadd', ?_⟩
  · by_cases hm : toLowerCase a ∈ p.voters
    · rw [hadd' hm]
      exact ⟨hnd, hlow, hcount⟩
    · rw [hadd hm]
      refine ⟨?_, ?_, ?_⟩
      · show (p.voters ++ [toLowerCase a]).Nodup
        rw [List.nodup_append]
        refine ⟨hnd, List.nodup_singleton _, ?_⟩
        intro x hx hx'
        rw [List.mem_singleton] at hx'
        exact hm (hx' ▸ hx)
      · intro x hx
        have hx' : x ∈ p.voters ++ [toLowerCase a] := hx
        rw [List.mem_append, List.mem_singleton] at hx'
        rcases hx' with hx' | hx'
        · exact hlow x hx'
        · rw [hx']
          exact toLowerCase_idem a
      · show p.voteCount + 1 = (p.voters ++ [toLowerCase a]).length
        rw [List.length_append, hcount]
        rfl
  · by_cases hm : toLowerCase a ∈ p.voters
    · rw [removeVote_of_mem p a hm]
      refine ⟨?_, ?_, ?_⟩
      · exact hnd.erase _
      · intro x hx
        exact hlow x (List.mem_of_mem_erase hx)
      · show p.voteCount - 1 = (p.voters.erase (toLowerCase a)).length
        rw [List.length_erase_of_mem hm, hcount]
    · rw [removeVote_of_not_mem p a hm]
      exact ⟨hnd, hlow, hcount⟩
  · intro hm
    rw [hadd hm]
    have hin : toLowerCase a ∈ p.voters ++ [toLowerCase a] := by simp
    rw [removeVote_of_mem _ a hin]
    show ({ p with voters := (p.voters ++ [toLowerCase a]).erase (toLowerCase a),
                   voteCount := p.voteCount + 1 - 1 } : Proposal) = p
    rw [List.erase_append_right _ hm]
    simp

/-- An instance of `addVote_removeVote_consistent`: the sample proposal, which
has no voters, and the sample address. -/
theorem addVote_removeVote_consistent_witness :
    (sampleProposal.addVote sampleAddress).votersConsistent ∧
    (sampleProposal.removeVote sampleAddress).votersConsistent ∧
    (toLowerCase sampleAddress ∈ sampleProposal.voters →
      sampleProposal.addVote sampleAddress = sampleProposal) ∧
    (toLowerCase sampleAddress ∉ sampleProposal.voters →
      (sampleProposal.addVote sampleAddress).removeVote sampleAddress = sampleProposal) :=
  addVote_removeVote_consistent sampleProposal sampleAddress
    ⟨List.nodup_nil, (fun a ha => by cases ha), rfl⟩

/-! ## Verifying votes -/

theorem replaceVote_idem (vs : List Vote) (w : Vote) :
    replaceVote (replaceVote vs w) w = replaceVote vs w := by
  induction vs with
  | nil => rfl
  | cons v vs ih =>
    by_cases h : v._id = w._id
    · simp [replaceVote, h]
    · simp [replaceVote, h, ih]

theorem replaceVote_getElem? (vs : List Vote) (w : Vote) (i : Nat) (v : Vote)
    (h : vs[i]? = some v) :
    (replaceVote vs w)[i]? = some v ∨
      ((replaceVote vs w)[i]? = some w ∧
        vs.find? (fun x => decide (x._id = w._id)) = some v) := by
  induction vs generalizing i with
  | nil => simp at h
  | cons x vs ih =>
    by_cases hx : x._id = w._id
    · cases i with
      | zero =>
        right
        simp only [List.getElem?_cons_zero, Option.some.injEq] at h
        subst h
        simp [replaceVote, hx]
      | succ j =>
        left
        simpa [replaceVote, hx] using h
    · cases i with
      | zero =>
        left
        simpa [replaceVote, hx] using h
      | succ j =>
        simp only [List.getElem?_cons_succ] at h
        rcases ih j h with h1 | ⟨h1, h2⟩
        · left
          simpa [replaceVote, hx] using h1
        · right
          refine ⟨by simpa [replaceVote, hx] using h1, ?_⟩
          simpa [List.find?, hx] using h2

theorem find?_replaceVote (vs : List Vote) (w v : Vote) (x : String) (hw : w._id = x)
    (h : vs.find? (fun u => decide (u._id = x)) = some v) :
    (replaceVote vs w).find? (fun u => decide (u._id = x)) = some w := by
  induction vs with
  | nil => simp at h
  | cons u vs ih =>
    by_cases hu : u._id = x
    · have : u._id = w._id := by rw [hu, hw]
      simp [replaceVote, this, hw]
    · have hne : ¬ u._id = w._id := by rw [hw]; exact hu
      have h' : vs.find? (fun u => decide (u._id = x)) = some v := by
        simpa [List.find?, hu] using h
      simp [replaceVote, hne, List.find?, hu, ih h']

theorem replaceVote_self (vs : List Vote) (v : Vote) (x : String)
    (h : vs.find? (fun u => decide (u._id = x)) = some v) : replaceVote vs v = vs := by
  induction vs with
  | nil => rfl
  | cons u vs ih =>
    by_cases hu : u._id = x
    · have huv : u = v := by simpa [List.find?, hu] using h
      subst huv
      simp [replaceVote]
    · have h' : vs.find? (fun u => decide (u._id = x)) = some v := by
        simpa [List.find?, hu] using h
      have hvx : v._id = x := by
        have := List.find?_some h'
        simpa using this
      have hne : ¬ u._id = v._id := by rw [hvx]; exact hu
      simp [replaceVote, hne, ih h']

theorem mem_replaceVote (vs : List Vote) (w u : Vote) (h : u ∈ replaceVote vs w) :
    u ∈ vs ∨ u = w := by
  induction vs with
  | nil => simp [replaceVote] at h
  | cons v vs ih =>
    by_cases hv : v._id = w._id
    · simp only [replaceVote, if_pos hv, List.mem_cons] at h
      rcases h with h | h
      · exact Or.inr h
      · exact Or.inl (List.mem_cons_of_mem _ h)
    · simp only [replaceVote, if_neg hv, List.mem_cons] at h
      rcases h with h | h
      · exact Or.inl (h ▸ List.mem_cons_self _ _)
      · rcases ih h with h1 | h1
        · exact Or.inl (List.mem_cons_of_mem _ h1)
        · exact Or.inr h1

/-- The two outcomes of `verifyVote`: nothing is written and the answer is a
failure, or the vote found is written back verified. -/
theorem verifyVote_cases (s : System) (voteId : String) :
    ((verifyVote s voteId).1 = s ∧ (verifyVote s voteId).2.success = false) ∨
    ∃ v, s.votes.find? (fun u => decide (u._id = toLowerCase voteId)) = some v ∧
      v.verify.valid = true ∧
      verifyVote s voteId =
        ({ s with votes := replaceVote s.votes v.verify },
          { status := 200, success := true, error := none,
            message := some "Vote verified successfully", thrown := none,
            data := some v.verify.getSummary }) := by
  unfold verifyVote findById
  by_cases hre : regexTest voteIdRegex voteId.data = true
  · simp only [hre, if_true]
    cases hf : s.votes.find? (fun u => decide (u._id = toLowerCase voteId)) with
    | none => left; exact ⟨rfl, rfl⟩
    | some v =>
      by_cases hv : v.verify.valid = true
      · right
        exact ⟨v, rfl, hv, by simp [hv]⟩
      · left
        simp [hv, Response.caught]
  · left
    simp [hre, Response.caught]

theorem verifyVote_idem (s : System) (voteId : String) :
    (verifyVote (verifyVote s voteId).1 voteId).1 = (verifyVote s voteId).1 := by
  rcases verifyVote_cases s voteId with ⟨h, _⟩ | ⟨v, hf, hv, h⟩
  · rw [h]
    exact h
  · rw [h]
    simp only
    have hf' : (replaceVote s.votes v.verify).find?
        (fun u => decide (u._id = toLowerCase voteId)) = some v.verify := by
      refine find?_replaceVote s.votes v.verify v _ ?_ hf
      have := List.find?_some hf
      simpa [Vote.verify] using this
    rcases verifyVote_cases { s with votes := replaceVote s.votes v.verify } voteId with
      ⟨h2, _⟩ | ⟨v2, hf2, _, h2⟩
    · exact h2
    · rw [h2]
      simp only at hf2
      rw [hf'] at hf2
      cases hf2
      have : v.verify.verify = v.verify := rfl
      simp only [this, replaceVote_idem]

theorem verifyVote_getElem? (s : System) (voteId : String) (i : Nat) (v : Vote)
    (h : s.votes[i]? = some v) :
    (verifyVote s voteId).1.votes[i]? = some v ∨
      (verifyVote s voteId).1.votes[i]? = some v.verify := by
  rcases verifyVote_cases s voteId with ⟨hs, _⟩ | ⟨u, hf, _, hs⟩
  · rw [hs]
    exact Or.inl h
  · rw [hs]
    simp only
    rcases replaceVote_getElem? s.votes u.verify i v h with h1 | ⟨h1, h2⟩
    · exact Or.inl h1
    · right
      have hid : u.verify._id = toLowerCase voteId := by
        have := List.find?_some hf
        simpa [Vote.verify] using this
      rw [hid, hf] at h2
      cases h2
      exact h1

theorem castVote_getElem? (s : System) (d : Draw) (body : VoteBody) (i : Nat) (v : Vote)
    (h : s.votes[i]? = some v) : (castVote s d body).1.votes[i]? = some v := by
  rcases castVote_votes s d body with hv | ⟨w, a, hv, _⟩
  · rw [hv]
    exact h
  · rw [hv]
    have hi : i < s.votes.length := by
      by_contra hc
      rw [List.getElem?_eq_none (not_lt.mp hc)] at h
      cases h
    rw [List.getElem?_append_left hi]
    exact h

theorem createProposal_votes (s : System) (d : CreateDraw) (body : ProposalBody) :
    (createProposal s d body).1.votes = s.votes := by
  unfold createProposal
  split
  · rfl
  · dsimp only
    split
    · rfl
    · split <;> rfl

theorem updateProposal_votes (s : System) (proposalId : String) (body : UpdateBody) :
    (updateProposal s proposalId body).1.votes = s.votes := by
  rcases updateProposal_cases s proposalId body with h | ⟨n, proposal, flag, _, _, _, h⟩
  · rw [h]
  · rw [h]

theorem syncProposals_state (s : System) : (syncProposals s).1 = s := by
  unfold syncProposals
  split <;> rfl

theorem deleteProposal_votes_mem (s : System) (proposalId : String) (w : Vote)
    (h : w ∈ (deleteProposal s proposalId).1.votes) : w ∈ s.votes := by
  unfold deleteProposal at h
  split at h
  · exact h
  · split at h
    · exact h
    · exact List.mem_of_mem_filter h

theorem castVote_votes_mem (s : System) (d : Draw) (body : VoteBody) (w : Vote)
    (h : w ∈ (castVote s d body).1.votes) : w ∈ s.votes ∨ w.isVerified = false := by
  by_cases hst : (castVote s d body).2.status = 201
  · obtain ⟨n, voter, ledger, result, v, hadm, hl, hnew, hins, hrest⟩ :=
      castVote_accepted s d body hst
    have hs : saveVote s.votes d n voter result = .ok (s.votes ++ [v]) := by
      simp [saveVote, hnew, hins]
    rw [castVote_of_save_ok s d body n voter ledger result _ hadm hl hs] at h
    simp only [List.mem_append, List.mem_singleton] at h
    rcases h with h | h
    · exact Or.inl h
    · right
      rw [h]
      exact (newVote_ok d n voter result v hnew).2.2.2.2.2.2
  · rw [(castVote_rejected s d body hst).2] at h
    exact Or.inl h

theorem verify_of_verified (v : Vote) (h1 : v.isVerified = true)
    (h2 : v.verificationHash = some v._id) : v.verify = v := by
  cases v
  simp_all [Vote.verify]

theorem findById_ok (vs : List Vote) (voteId : String) (v : Vote)
    (h : findById vs voteId = .ok (some v)) :
    vs.find? (fun u => decide (u._id = toLowerCase voteId)) = some v := by
  unfold findById at h
  split at h
  · simpa using h
  · cases h

theorem verifyVote_of_verified (s : System) (voteId : String) (v : Vote)
    (hf : findById s.votes voteId = .ok (some v)) (h1 : v.isVerified = true)
    (h2 : v.verificationHash = some v._id) : (verifyVote s voteId).1 = s := by
  rcases verifyVote_cases s voteId with ⟨h, _⟩ | ⟨u, hu, _, h⟩
  · exact h
  · rw [h]
    have huv : u = v := by
      rw [findById_ok s.votes voteId v hf] at hu
      cases hu
      rfl
    subst huv
    simp only
    rw [verify_of_verified u h1 h2, replaceVote_self s.votes u _ hu]

theorem verifyVote_of_valid (s : System) (voteId : String) (v : Vote)
    (hf : findById s.votes voteId = .ok (some v)) (hv : v.valid = true) :
    (verifyVote s voteId).2.status = 200 ∧
    (verifyVote s voteId).1.votes = replaceVote s.votes v.verify := by
  have hv' : v.verify.valid = true := hv
  unfold verifyVote
  rw [hf]
  simp [hv']

theorem verifiedByHandler_replace (vs : List Vote) (v : Vote) (h : verifiedByHandler vs) :
    verifiedByHandler (replaceVote vs v.verify) := by
  intro u hu hver
  rcases mem_replaceVote vs v.verify u hu with h1 | h1
  · exact h u h1 hver
  · rw [h1]
    rfl

/-- C23: verifying a vote sets `isVerified`, writes the verification hash and
touches no other field; verifying again changes nothing, on the document and
in the store; and no handler takes a stored vote from verified back to
unverified: `castVote`, `createProposal`, `updateProposal` and `syncProposals`
leave each stored vote as it is, `verifyVote` leaves it as it is or verified,
and `deleteProposal` only removes votes. -/
theorem verification_one_way :
    (∀ v : Vote, v.verify.isVerified = true ∧ v.verify.verify = v.verify ∧
      v.verify._id = v._id ∧ v.verify.proposalId = v.proposalId ∧
      v.verify.contractAddress = v.contractAddress ∧
      v.verify.transactionHash = v.transactionHash ∧
      v.verify.blockNumber = v.blockNumber ∧ v.verify.gasUsed = v.gasUsed ∧
      v.verify.gasPrice = v.gasPrice ∧ v.verify.voterAddress = v.voterAddress ∧
      v.verify.voterBalance = v.voterBalance ∧ v.verify.timestamp = v.timestamp) ∧
    (∀ (s : System) (voteId : String),
      ((verifyVote s voteId).2.success = true →
        ∃ v, findById s.votes voteId = .ok (some v) ∧
          (verifyVote s voteId).1 = { s with votes := replaceVote s.votes v.verify } ∧
          (verifyVote s voteId).2.data = some v.verify.getSummary) ∧
      ((verifyVote s voteId).2.success = false → (verifyVote s voteId).1 = s) ∧
      (∀ v, findById s.votes voteId = .ok (some v) → v.valid = true →
        (verifyVote s voteId).2.status = 200 ∧
        (verifyVote s voteId).1.votes = replaceVote s.votes v.verify) ∧
      (verifyVote (verifyVote s voteId).1 voteId).1 = (verifyVote s voteId).1 ∧
      (∀ v, findById s.votes voteId = .ok (some v) → v.isVerified = true →
        v.verificationHash = some v._id → (verifyVote s voteId).1 = s) ∧
      ∀ (i : Nat) (v : Vote), s.votes[i]? = some v →
        (verifyVote s voteId).1.votes[i]? = some v ∨
        (verifyVote s voteId).1.votes[i]? = some v.verify) ∧
    (∀ (s : System) (i : Nat) (v : Vote), s.votes[i]? = some v → v.isVerified = true →
      (∀ (d : Draw) (body : VoteBody), (castVote s d body).1.votes[i]? = some v) ∧
      (∀ voteId : String,
        ∃ w, (verifyVote s voteId).1.votes[i]? = some w ∧ w.isVerified = true) ∧
      (∀ (d : CreateDraw) (body : ProposalBody),
        (createProposal s d body).1.votes[i]? = some v) ∧
      (∀ (proposalId : String) (body : UpdateBody),
        (updateProposal s proposalId body).1.votes[i]? = some v) ∧
      (syncProposals s).1.votes[i]? = some v) ∧
    (∀ (s : System) (proposalId : String),
      ∀ w ∈ (deleteProposal s proposalId).1.votes, w ∈ s.votes) ∧
    (∀ s : System, verifiedByHandler s.votes →
      (∀ (d : Draw) (body : VoteBody), verifiedByHandler (castVote s d body).1.votes) ∧
      (∀ voteId : String, verifiedByHandler (verifyVote s voteId).1.votes) ∧
      (∀ (d : CreateDraw) (body : ProposalBody),
        verifiedByHandler (createProposal s d body).1.votes) ∧
      (∀ (proposalId : String) (body : UpdateBody),
        verifiedByHandler (updateProposal s proposalId body).1.votes) ∧
      (∀ proposalId : String, verifiedByHandler (deleteProposal s proposalId).1.votes) ∧
      verifiedByHandler (syncProposals s).1.votes) := by
  refine ⟨?_, ?_, ?_, ?_, ?_⟩
  · intro v
    exact ⟨rfl, rfl, rfl, rfl, rfl, rfl, rfl, rfl, rfl, rfl, rfl, rfl⟩
  · intro s voteId
    refine ⟨?_, ?_, verifyVote_of_valid s voteId, verifyVote_idem s voteId,
      verifyVote_of_verified s voteId, verifyVote_getElem? s voteId⟩
    · intro hs
      rcases verifyVote_cases s voteId with ⟨_, h⟩ | ⟨v, hf, _, h⟩
      · rw [h] at hs
        cases hs
      · refine ⟨v, ?_, by rw [h], by rw [h]⟩
        have hre : regexTest voteIdRegex voteId.data = true := by
          by_contra hc
          have : (verifyVote s voteId).2.success = false := by
            simp [verifyVote, findById, hc, Response.caught]
          rw [this] at hs
          cases hs
        simp [findById, hre, hf]
    · intro hs
      rcases verifyVote_cases s voteId with ⟨h, _⟩ | ⟨v, _, _, h⟩
      · exact h
      · rw [h] at hs
        cases hs
  · intro s i v hv hver
    refine ⟨fun d body => castVote_getElem? s d body i v hv, ?_, ?_, ?_, ?_⟩
    · intro voteId
      rcases verifyVote_getElem? s voteId i v hv with h | h
      · exact ⟨v, h, hver⟩
      · exact ⟨v.verify, h, rfl⟩
    · intro d body
      rw [createProposal_votes]
      exact hv
    · intro proposalId body
      rw [updateProposal_votes]
      exact hv
    · rw [syncProposals_state]
      exact hv
  · exact deleteProposal_votes_mem
  · intro s hs
    refine ⟨?_, ?_, ?_, ?_, ?_, ?_⟩
    · intro d body w hw hver
      rcases castVote_votes_mem s d body w hw with h | h
      · exact hs w h hver
      · rw [h] at hver
        cases hver
    · intro voteId
      rcases verifyVote_cases s voteId with ⟨h, _⟩ | ⟨v, _, _, h⟩
      · rw [h]
        exact hs
      · rw [h]
        exact verifiedByHandler_replace s.votes v hs
    · intro d body
      rw [createProposal_votes]
      exact hs
    · intro proposalId body
      rw [updateProposal_votes]
      exact hs
    · intro proposalId w hw hver
      exact hs w (deleteProposal_votes_mem s proposalId w hw) hver
    · rw [syncProposals_state]
      exact hs

/-- An instance of `verification_one_way`: the stored sample vote, named by its
identifier in upper case, is verified, and stays verified when it is verified
again. -/
theorem verification_one_way_witness :
    (verifyVote votedSystem "65A000000000000000000001").1.votes = [sampleVote.verify] ∧
    ∃ w, (verifyVote (verifyVote votedSystem "65A000000000000000000001").1
        "65A000000000000000000001").1.votes[0]? = some w ∧ w.isVerified = true :=
  ⟨by decide,
    (verification_one_way.2.2.1 (verifyVote votedSystem "65A000000000000000000001").1 0
      sampleVote.verify (by decide) rfl).2.1 "65A000000000000000000001"⟩

/-! ## The ledger: reachable states -/

theorem mapGet_mapSet {β : Type} (m : List (JsValue × β)) (k k' : JsValue) (v : β) :
    mapGet (mapSet m k v) k' = if k = k' then some v else mapGet m k' := by
  induction m with
  | nil => simp [mapSet, mapGet]
  | cons e m ih =>
    obtain ⟨k0, v0⟩ := e
    by_cases h0 : k0 = k
    · subst h0
      by_cases h1 : k0 = k'
      · simp [mapSet, mapGet, h1]
      · simp [mapSet, mapGet, h1]
    · by_cases h1 : k0 = k'
      · subst h1
        simp [mapSet, mapGet, h0, Ne.symm h0]
      · simp [mapSet, mapGet, h0, h1, ih]

theorem consistent_empty : emptyLedger.Consistent := by
  intro k
  simp [emptyLedger, mapGet]

/-- Filing a proposal and its voter set under one key keeps a ledger
consistent when the two agree. -/
theorem consistent_of_mapGet (l l1 : MockLedger) (k : JsValue) (p : LedgerProposal)
    (vs : List JsValue) (h : l.Consistent)
    (hp : ∀ k', mapGet l1.proposals k' = if k = k' then some p else mapGet l.proposals k')
    (hv : ∀ k', mapGet l1.votes k' = if k = k' then some vs else mapGet l.votes k')
    (hid : p.id = k) (hact : p.isActive = true) (hnd : vs.Nodup)
    (hc : p.voteCount = vs.length) : l1.Consistent := by
  intro k'
  rw [hp k', hv k']
  by_cases hk : k = k'
  · simp only [if_pos hk]
    refine ⟨?_, ?_⟩
    · intro q hq
      cases hq
      exact ⟨hid.trans hk, hact, vs, rfl, hnd, hc⟩
    · intro hq
      cases hq
  · simp only [if_neg hk]
    exact h k'

theorem consistent_createProposal (l : MockLedger) (d : CreateDraw)
    (title description deadline : JsValue) (h : l.Consistent) :
    (l.createProposal d title description deadline).1.Consistent := by
  refine consistent_of_mapGet l _ (.num ((l.proposalCount + 1 + d.randomId : Nat) : ℚ))
    { id := .num ((l.proposalCount + 1 + d.randomId : Nat) : ℚ)
      title := title
      description := description
      voteCount := 0
      creator := ledgerOwner
      createdAt := d.now / 1000
      deadline := if deadline = .undefined then .num 0 else deadline
      isActive := true } []
    h ?_ ?_ rfl rfl List.nodup_nil rfl
  · intro k'
    simp only [MockLedger.createProposal]
    rw [mapGet_mapSet]
  · intro k'
    simp only [MockLedger.createProposal]
    rw [mapGet_mapSet]

theorem contains_true_iff (vs : List JsValue) (a : JsValue) :
    vs.contains a = true ↔ a ∈ vs := by
  simp

theorem contains_false_iff (vs : List JsValue) (a : JsValue) :
    vs.contains a = false ↔ a ∉ vs := by
  simp

theorem consistent_vote (l : MockLedger) (d : Draw) (proposalId voterAddress : JsValue)
    (h : l.Consistent) : (l.vote d proposalId voterAddress).1.Consistent := by
  cases hp : mapGet l.proposals proposalId with
  | none =>
    rw [vote_unknown l d proposalId voterAddress hp]
    refine consistent_of_mapGet l _ proposalId
      { id := proposalId
        title := .str ("Proposal " ++ jsToString proposalId)
        description := .str "Proposal loaded from database"
        voteCount := 0 + 1
        creator := ledgerOwner
        createdAt := d.now / 1000
        deadline := .num 0
        isActive := true } [voterAddress] h ?_ ?_ rfl rfl
      (List.nodup_singleton _) rfl
    · intro k'
      dsimp only
      simp only [mapGet_mapSet]
      by_cases hk : proposalId = k' <;> simp [hk]
    · intro k'
      dsimp only
      simp only [mapGet_mapSet, List.nil_append]
      by_cases hk : proposalId = k' <;> simp [hk]
  | some p =>
    rw [vote_known l d proposalId voterAddress p hp]
    obtain ⟨hid, hact, vs, hvs, hnd, hc⟩ := (h proposalId).1 p hp
    have hna : ¬ ((!p.isActive) = true) := by simp [hact]
    rw [if_neg hna]
    simp only [hvs]
    by_cases hin : vs.contains voterAddress = true
    · rw [if_pos hin]
      exact h
    · rw [if_neg hin]
      have hnot : voterAddress ∉ vs := (contains_false_iff vs voterAddress).mp (by simpa using hin)
      refine consistent_of_mapGet l _ proposalId { p with voteCount := p.voteCount + 1 }
        (vs ++ [voterAddress]) h ?_ ?_ hid hact ?_ ?_
      · intro k'
        dsimp only
        rw [mapGet_mapSet]
      · intro k'
        dsimp only
        rw [mapGet_mapSet]
      · rw [List.nodup_append]
        refine ⟨hnd, List.nodup_singleton _, ?_⟩
        intro x hx hx'
        rw [List.mem_singleton] at hx'
        exact hnot (hx' ▸ hx)
      · simp [hc]

theorem reachable_consistent (l : MockLedger) (h : l.Reachable) : l.Consistent := by
  induction h with
  | empty => exact consistent_empty
  | createProposal l d title description deadline _ ih =>
    exact consistent_createProposal l d title description deadline ih
  | vote l d proposalId voterAddress _ ih =>
    exact consistent_vote l d proposalId voterAddress ih

theorem hasUserVoted_of_mapGet (l l1 : MockLedger) (p a : JsValue) (vs : List JsValue)
    (hold : ∀ b, l.hasUserVoted p b = vs.contains b)
    (hv : ∀ k', mapGet l1.votes k' = if p = k' then some (vs ++ [a]) else mapGet l.votes k') :
    l1.hasUserVoted p a = true ∧
    ∀ q b, (q ≠ p ∨ b ≠ a) → l1.hasUserVoted q b = l.hasUserVoted q b := by
  refine ⟨?_, ?_⟩
  · simp [MockLedger.hasUserVoted, hv]
  · intro q b hqb
    by_cases hq : p = q
    · subst hq
      have hb : b ≠ a := by
        rcases hqb with h | h
        · exact absurd rfl h
        · exact h
      rw [hold b]
      simp only [MockLedger.hasUserVoted, hv, if_true]
      cases hc : vs.contains b with
      | true =>
        have : b ∈ vs := (contains_true_iff vs b).mp hc
        simp [this]
      | false =>
        have : b ∉ vs := (contains_false_iff vs b).mp hc
        simp [this, hb]
    · simp [MockLedger.hasUserVoted, hv, hq]

theorem vote_ok_hasUserVoted (l : MockLedger) (hc : l.Consistent) (d : Draw)
    (p a : JsValue) (l1 : MockLedger) (r : LedgerResult)
    (h : l.vote d p a = (l1, .ok r)) :
    l1.hasUserVoted p a = true ∧
    ∀ q b, (q ≠ p ∨ b ≠ a) → l1.hasUserVoted q b = l.hasUserVoted q b := by
  cases hp : mapGet l.proposals p with
  | none =>
    rw [vote_unknown l d p a hp] at h
    have hl1 : l1.votes = mapSet (mapSet l.votes p []) p ([] ++ [a]) := by
      have := congrArg (fun x => x.1.votes) h
      simpa using this.symm
    have hnone : mapGet l.votes p = none := (hc p).2 hp
    refine hasUserVoted_of_mapGet l l1 p a [] ?_ ?_
    · intro b
      simp [MockLedger.hasUserVoted, hnone]
    · intro k'
      rw [hl1]
      simp only [mapGet_mapSet]
      by_cases hk : p = k' <;> simp [hk]
  | some pr =>
    rw [vote_known l d p a pr hp] at h
    obtain ⟨_, hact, vs, hvs, _, _⟩ := (hc p).1 pr hp
    have hna : ¬ ((!pr.isActive) = true) := by simp [hact]
    rw [if_neg hna] at h
    simp only [hvs] at h
    by_cases hin : vs.contains a = true
    · rw [if_pos hin] at h
      have := congrArg (fun x => x.2.toOption) h
      simp [Except.toOption] at this
    · rw [if_neg hin] at h
      have hl1 : l1.votes = mapSet l.votes p (vs ++ [a]) := by
        have := congrArg (fun x => x.1.votes) h
        simpa using this.symm
      refine hasUserVoted_of_mapGet l l1 p a vs ?_ ?_
      · intro b
        simp [MockLedger.hasUserVoted, hvs]
      · intro k'
        rw [hl1, mapGet_mapSet]

theorem standalone_consistent_createProposal (l : MockLedger) (d : CreateDraw)
    (title description deadline : JsValue) (h : l.Consistent) :
    (MockBlockchainService.createProposal l d title description deadline).1.Consistent := by
  refine consistent_of_mapGet l _ (.num ((l.proposalCount + 1 : Nat) : ℚ))
    { id := .num ((l.proposalCount + 1 : Nat) : ℚ)
      title := title
      description := description
      voteCount := 0
      creator := standaloneOwner
      createdAt := d.now / 1000
      deadline := if deadline = .undefined then .num 0 else deadline
      isActive := true } []
    h ?_ ?_ rfl rfl List.nodup_nil rfl
  · intro k'
    simp only [MockBlockchainService.createProposal]
    rw [mapGet_mapSet]
  · intro k'
    simp only [MockBlockchainService.createProposal]
    rw [mapGet_mapSet]

/-- The method `vote` of the class on a proposal key it knows is the method
`vote` of the ledger object. -/
theorem standalone_vote_known (l : MockLedger) (d : Draw) (proposalId voterAddress : JsValue)
    (p : LedgerProposal) (h : mapGet l.proposals proposalId = some p) :
    MockBlockchainService.vote l d proposalId voterAddress =
      l.vote d proposalId voterAddress := by
  rw [vote_known l d proposalId voterAddress p h]
  simp only [MockBlockchainService.vote, h]

theorem standalone_vote_unknown (l : MockLedger) (d : Draw) (proposalId voterAddress : JsValue)
    (h : mapGet l.proposals proposalId = none) :
    MockBlockchainService.vote l d proposalId voterAddress =
      (l, .error (.error "Proposal does not exist")) := by
  simp only [MockBlockchainService.vote, h]

theorem standalone_consistent_vote (l : MockLedger) (d : Draw)
    (proposalId voterAddress : JsValue) (h : l.Consistent) :
    (MockBlockchainService.vote l d proposalId voterAddress).1.Consistent := by
  cases hp : mapGet l.proposals proposalId with
  | none =>
    rw [standalone_vote_unknown l d proposalId voterAddress hp]
    exact h
  | some p =>
    rw [standalone_vote_known l d proposalId voterAddress p hp]
    exact consistent_vote l d proposalId voterAddress h

theorem standalone_reachable_consistent (l : MockLedger)
    (h : MockBlockchainService.Reachable l) : l.Consistent := by
  induction h with
  | empty => exact consistent_empty
  | createProposal l d title description deadline _ ih =>
    exact standalone_consistent_createProposal l d title description deadline ih
  | vote l d proposalId voterAddress _ ih =>
    exact standalone_consistent_vote l d proposalId voterAddress ih

theorem standalone_vote_ok_hasUserVoted (l : MockLedger) (hc : l.Consistent) (d : Draw)
    (p a : JsValue) (l1 : MockLedger) (r : LedgerResult)
    (h : MockBlockchainService.vote l d p a = (l1, .ok r)) :
    MockBlockchainService.hasUserVoted l1 p a = true ∧
    ∀ q b, (q ≠ p ∨ b ≠ a) →
      MockBlockchainService.hasUserVoted l1 q b = MockBlockchainService.hasUserVoted l q b := by
  cases hp : mapGet l.proposals p with
  | none =>
    rw [standalone_vote_unknown l d p a hp] at h
    have := congrArg (fun x => x.2.toOption) h
    simp [Except.toOption] at this
  | some pr =>
    rw [standalone_vote_known l d p a pr hp] at h
    exact vote_ok_hasUserVoted l hc d p a l1 r h

/-- C27: in every state of the mock ledger reached from the empty ledger by
`createProposal` and `vote`, each proposal is filed under its identifier with a
voter set that holds no address twice and has as many addresses as the
proposal counts votes; and a successful `vote(p, a)` makes `hasUserVoted(p, a)`
true and changes `hasUserVoted` for no other pair.  This holds for the ledger
object of `blockchainService.js` and for the class of
`mockBlockchainService.js`. -/
theorem ledger_counts_voters :
    (∀ l : MockLedger, l.Reachable →
      (∀ (k : JsValue) (p : LedgerProposal), mapGet l.proposals k = some p →
        p.id = k ∧ ∃ voterSet, mapGet l.votes k = some voterSet ∧ voterSet.Nodup ∧
          p.voteCount = voterSet.length) ∧
      ∀ (d : Draw) (p a : JsValue) (l1 : MockLedger) (r : LedgerResult),
        l.vote d p a = (l1, .ok r) →
        l1.hasUserVoted p a = true ∧
        ∀ q b, (q ≠ p ∨ b ≠ a) → l1.hasUserVoted q b = l.hasUserVoted q b) ∧
    (∀ l : MockLedger, MockBlockchainService.Reachable l →
      (∀ (k : JsValue) (p : LedgerProposal), mapGet l.proposals k = some p →
        p.id = k ∧ ∃ voterSet, mapGet l.votes k = some voterSet ∧ voterSet.Nodup ∧
          p.voteCount = voterSet.length) ∧
      ∀ (d : Draw) (p a : JsValue) (l1 : MockLedger) (r : LedgerResult),
        MockBlockchainService.vote l d p a = (l1, .ok r) →
        MockBlockchainService.hasUserVoted l1 p a = true ∧
        ∀ q b, (q ≠ p ∨ b ≠ a) →
          MockBlockchainService.hasUserVoted l1 q b =
            MockBlockchainService.hasUserVoted l q b) := by
  refine ⟨?_, ?_⟩
  · intro l hl
    have hc := reachable_consistent l hl
    refine ⟨?_, fun d p a l1 r h => vote_ok_hasUserVoted l hc d p a l1 r h⟩
    intro k p hp
    obtain ⟨hid, _, vs, hvs, hnd, hcount⟩ := (hc k).1 p hp
    exact ⟨hid, vs, hvs, hnd, hcount⟩
  · intro l hl
    have hc := standalone_reachable_consistent l hl
    refine ⟨?_, fun d p a l1 r h => standalone_vote_ok_hasUserVoted l hc d p a l1 r h⟩
    intro k p hp
    obtain ⟨hid, _, vs, hvs, hnd, hcount⟩ := (hc k).1 p hp
    exact ⟨hid, vs, hvs, hnd, hcount⟩

/-- An instance of `ledger_counts_voters`: after two addresses voted on key 12
of the empty ledger, the proposal filed under 12 counts the size of its voter
set. -/
theorem ledger_counts_voters_witness :
    mapGet votedLedger.proposals (.num 12) = some votedLedgerProposal ∧
    votedLedgerProposal.id = .num 12 ∧ ∃ voterSet,
      mapGet votedLedger.votes (.num 12) = some voterSet ∧ voterSet.Nodup ∧
        votedLedgerProposal.voteCount = voterSet.length :=
  ⟨by decide,
    (ledger_counts_voters.1 votedLedger
      (MockLedger.Reachable.vote _ otherDraw (.num 12) (.str "0xb2")
        (MockLedger.Reachable.vote _ sampleDraw (.num 12) (.str "0xa1")
          MockLedger.Reachable.empty))).1 (.num 12) votedLedgerProposal (by decide)⟩

theorem vote_ok_of_not_voted (l : MockLedger) (hc : l.Consistent) (d : Draw)
    (p a : JsValue) (h : l.hasUserVoted p a = false) :
    ∃ l1 r, l.vote d p a = (l1, .ok r) := by
  cases hp : mapGet l.proposals p with
  | none =>
    rw [vote_unknown l d p a hp]
    exact ⟨_, _, rfl⟩
  | some pr =>
    rw [vote_known l d p a pr hp]
    obtain ⟨_, hact, vs, hvs, _, _⟩ := (hc p).1 pr hp
    have hna : ¬ ((!pr.isActive) = true) := by simp [hact]
    rw [if_neg hna]
    simp only [hvs]
    have hin : ¬ (vs.contains a = true) := by
      simp only [MockLedger.hasUserVoted, hvs] at h
      rw [h]
      exact Bool.false_ne_true
    rw [if_neg hin]
    exact ⟨_, _, rfl⟩

theorem admission_error_thrown (s : System) (body : VoteBody) (r : Response VoteReceipt)
    (h : admission s body = .error r) :
    r.thrown = none ∨ r.thrown = some (.castError "proposalId") ∨
    r.thrown = some (.typeError "voterAddress.toLowerCase is not a function") := by
  unfold admission at h
  split at h
  · cases h; simp [Response.failure]
  · split at h
    · split at h <;> (cases h; simp [Response.failure, Response.caught])
    · split at h
      · cases h; simp [Response.failure]
      · split at h
        · split at h
          · cases h; simp [Response.failure]
          · split at h
            · cases h; simp [Response.failure]
            · cases h
        · cases h; simp [Response.caught]

theorem saveVote_error (vs : List Vote) (d : Draw) (n : Int) (voter : String)
    (result : LedgerResult) (e : Thrown) (h : saveVote vs d n voter result = .error e) :
    (∃ path, e = .validationError path) ∨ ∃ index, e = .duplicateKey index := by
  unfold saveVote at h
  split at h
  · rename_i e' hnew
    cases h
    unfold newVote at hnew
    split at hnew
    · cases hnew
    · cases hnew
      exact Or.inl ⟨_, rfl⟩
    · cases hnew
      exact Or.inl ⟨_, rfl⟩
  · unfold insertVote at h
    split at h
    · cases h
      exact Or.inr ⟨_, rfl⟩
    · split at h
      · cases h
        exact Or.inr ⟨_, rfl⟩
      · cases h

/-- C28: in a ledger state reached by `createProposal` and `vote`, a `vote`
for a pair on which `hasUserVoted` is false returns a result; so in `castVote`
the ledger call that follows the checks returns a result, the ledger stays
reachable, and an exception behind a 500 answer of `castVote` is never one
thrown by the ledger: it is the failed cast of the identifier, the address
that is not a string, or a validation or duplicate-key error of the vote
store. -/
theorem ledger_submission_cannot_fail :
    (∀ l : MockLedger, l.Reachable → ∀ (d : Draw) (proposalId voterAddress : JsValue),
      hasUserVoted l proposalId voterAddress = false →
      ∃ l1 r, voteOnProposal l d proposalId voterAddress = (l1, .ok r)) ∧
    (∀ s : System, s.ledger.Reachable → ∀ (d : Draw) (body : VoteBody),
      (castVote s d body).1.ledger.Reachable ∧
      (∀ (n : Int) (voter : String), admission s body = .ok (n, voter) →
        ∃ ledger result,
          voteOnProposal s.ledger d body.proposalId body.voterAddress = (ledger, .ok result)) ∧
      ((castVote s d body).2.thrown = none ∨
        (castVote s d body).2.thrown = some (.castError "proposalId") ∨
        (castVote s d body).2.thrown =
          some (.typeError "voterAddress.toLowerCase is not a function") ∨
        (∃ path, (castVote s d body).2.thrown = some (.validationError path)) ∨
        ∃ index, (castVote s d body).2.thrown = some (.duplicateKey index))) := by
  refine ⟨?_, ?_⟩
  · intro l hl d p a h
    exact vote_ok_of_not_voted l (reachable_consistent l hl) d p a h
  · intro s hs d body
    have hok : ∀ (n : Int) (voter : String), admission s body = .ok (n, voter) →
        ∃ ledger result,
          voteOnProposal s.ledger d body.proposalId body.voterAddress = (ledger, .ok result) := by
      intro n voter hadm
      exact vote_ok_of_not_voted s.ledger (reachable_consistent _ hs) d _ _
        (admission_ok s body n voter hadm).2.2.2.2.2.2
    cases hadm : admission s body with
    | error r =>
      rw [castVote_of_admission_error s d body r hadm]
      refine ⟨hs, (fun n voter h => by cases h), ?_⟩
      rcases admission_error_thrown s body r hadm with h | h | h
      · exact Or.inl h
      · exact Or.inr (Or.inl h)
      · exact Or.inr (Or.inr (Or.inl h))
    | ok pair =>
      obtain ⟨n, voter⟩ := pair
      obtain ⟨ledger, result, hl⟩ := hok n voter hadm
      have hreach : ledger.Reachable := by
        have h1 : ledger = (s.ledger.vote d body.proposalId body.voterAddress).1 := by
          have := congrArg Prod.fst hl
          exact this.symm
        rw [h1]
        exact MockLedger.Reachable.vote _ _ _ _ hs
      refine ⟨?_, fun n' voter' _ => ⟨ledger, result, hl⟩, ?_⟩
      · cases hsave : saveVote s.votes d n voter result with
        | error e =>
          rw [castVote_of_save_error s d body n voter ledger result e hadm hl hsave]
          exact hreach
        | ok votes =>
          rw [castVote_of_save_ok s d body n voter ledger result votes hadm hl hsave]
          exact hreach
      · cases hsave : saveVote s.votes d n voter result with
        | error e =>
          rw [castVote_of_save_error s d body n voter ledger result e hadm hl hsave]
          rcases saveVote_error s.votes d n voter result e hsave with ⟨path, h⟩ | ⟨index, h⟩
          · exact Or.inr (Or.inr (Or.inr (Or.inl ⟨path, by rw [h]; rfl⟩)))
          · exact Or.inr (Or.inr (Or.inr (Or.inr ⟨index, by rw [h]; rfl⟩)))
        | ok votes =>
          rw [castVote_of_save_ok s d body n voter ledger result votes hadm hl hsave]
          exact Or.inl rfl

/-- An instance of `ledger_submission_cannot_fail`: in the ledger on which two
addresses voted for key 12, a third address is answered with a result. -/
theorem ledger_submission_cannot_fail_witness :
    hasUserVoted votedLedger (.num 12) (.str "0xc3") = false ∧
    ∃ l1 r, voteOnProposal votedLedger sampleDraw (.num 12) (.str "0xc3") = (l1, .ok r) :=
  ⟨by decide,
    ledger_submission_cannot_fail.1 votedLedger
      (MockLedger.Reachable.vote _ otherDraw (.num 12) (.str "0xb2")
        (MockLedger.Reachable.vote _ sampleDraw (.num 12) (.str "0xa1")
          MockLedger.Reachable.empty))
      sampleDraw (.num 12) (.str "0xc3") (by decide)⟩

/-! ## Pages of proposals -/

theorem newestFirst_perm (ps : List Proposal) : (newestFirst ps).Perm ps :=
  List.perm_insertionSort _ ps

theorem newestFirst_sorted (ps : List Proposal) :
    (newestFirst ps).Pairwise (fun a b => b.createdAt ≤ a.createdAt) := by
  haveI : IsTotal Proposal (fun a b => b.createdAt ≤ a.createdAt) :=
    ⟨fun a b => le_total b.createdAt a.createdAt⟩
  haveI : IsTrans Proposal (fun a b => b.createdAt ≤ a.createdAt) :=
    ⟨fun a b c hab hbc => le_trans hbc hab⟩
  exact List.sorted_insertionSort (fun a b => b.createdAt ≤ a.createdAt) ps

theorem skipLimit_page {α : Type} (L : List α) (page limit : Nat) (hp : 1 ≤ page)
    (hl : 1 ≤ limit) :
    skipLimit L (((page : Int) - 1) * (limit : Int)) (limit : Int) =
      .ok ((L.drop ((page - 1) * limit)).take limit) := by
  have hskip : ((page : Int) - 1) * (limit : Int) = (((page - 1) * limit : Nat) : Int) := by
    rw [Nat.cast_mul, Nat.cast_sub hp]
    rfl
  unfold skipLimit
  rw [hskip]
  have h1 : ¬ ((((page - 1) * limit : Nat) : Int) < 0) := by omega
  have h2 : ¬ ((limit : Int) = 0) := by omega
  rw [if_neg h1, if_neg h2, Int.toNat_ofNat, Int.natAbs_ofNat]

theorem flatMap_chunks {α : Type} (L : List α) (c m : Nat) :
    (List.range m).flatMap (fun k => (L.drop (k * c)).take c) = L.take (m * c) := by
  induction m with
  | zero => simp
  | succ m ih =>
    rw [List.range_succ, List.flatMap_append, ih, Nat.succ_mul, List.take_add]
    simp

theorem ceil_div_natCast (total limit : Nat) (hl : 1 ≤ limit) :
    ⌈(total : ℚ) / (limit : ℚ)⌉ = (((total + limit - 1) / limit : Nat) : Int) := by
  have hlq : (0 : ℚ) < (limit : ℚ) := by exact_mod_cast hl
  rw [Int.ceil_eq_iff]
  have hdiv := Nat.div_add_mod (total + limit - 1) limit
  have hmod := Nat.mod_lt (total + limit - 1) (show limit > 0 from hl)
  set q := (total + limit - 1) / limit with hq
  set r := (total + limit - 1) % limit with hr
  constructor
  · rw [lt_div_iff₀ hlq]
    have h1 : q * limit < total + limit := by
      have : limit * q = q * limit := Nat.mul_comm _ _
      omega
    have h2 : ((q * limit : Nat) : ℚ) < ((total + limit : Nat) : ℚ) := by exact_mod_cast h1
    push_cast at h2 ⊢
    linarith
  · rw [div_le_iff₀ hlq]
    have h1 : total ≤ q * limit := by
      have : limit * q = q * limit := Nat.mul_comm _ _
      omega
    have h2 : ((total : Nat) : ℚ) ≤ ((q * limit : Nat) : ℚ) := by exact_mod_cast h1
    push_cast at h2 ⊢
    linarith

/-- The answer of `getAllProposals` when `page` and `limit` parse to positive
integers. -/
theorem getAllProposals_of_parse (s : System) (q : ListQuery) (page limit : Nat)
    (hp : 1 ≤ page) (hl : 1 ≤ limit)
    (hpage : parseInt (if q.page = .undefined then .num 1 else q.page) = some (page : Int))
    (hlimit : parseInt (if q.limit = .undefined then .num 50 else q.limit) =
      some (limit : Int)) :
    getAllProposals s q =
      { status := 200, success := true, error := none, message := none, thrown := none,
        data := some
          { proposals := ((newestFirst (s.proposals.filter (matchesQuery q))).drop
              ((page - 1) * limit)).take limit
            pagination :=
              { page := page
                limit := limit
                total := (s.proposals.filter (matchesQuery q)).length
                pages := some
                  ((((s.proposals.filter (matchesQuery q)).length + limit - 1) / limit : Nat) :
                    Int) } } } := by
  have h2 : ¬ ((limit : Int) = 0) := by omega
  unfold getAllProposals
  simp only [hpage, hlimit, proposalsPage, skipLimit_page _ page limit hp hl, if_neg h2,
    Int.cast_natCast, ceil_div_natCast _ limit hl]

theorem pageOf_eq (s : System) (q : ListQuery) (page limit : Nat) (hp : 1 ≤ page)
    (hl : 1 ≤ limit)
    (hlimit : parseInt (if q.limit = .undefined then .num 50 else q.limit) =
      some (limit : Int)) :
    pageOf s q page =
      ((newestFirst (s.proposals.filter (matchesQuery q))).drop ((page - 1) * limit)).take
        limit := by
  unfold pageOf
  simp only [hlimit, proposalsPage, skipLimit_page _ page limit hp hl]

/-- C30: for a page number and a limit that are at least 1, `getAllProposals`
answers the proposals at the positions from `(page - 1) * limit` up to but
not including `page * limit` of the filtered list sorted by creation time,
newest first, so at most `limit` of them; it reports the length of the list as
`total` and `ceil(total / limit)` as `pages`; and the pages 1 to `pages`, one
after the other, are the whole list. -/
theorem getAllProposals_pages (s : System) (q : ListQuery) (page limit : Nat)
    (hp : 1 ≤ page) (hl : 1 ≤ limit)
    (hpage : parseInt (if q.page = .undefined then .num 1 else q.page) = some (page : Int))
    (hlimit : parseInt (if q.limit = .undefined then .num 50 else q.limit) =
      some (limit : Int)) :
    (newestFirst (s.proposals.filter (matchesQuery q))).Perm
      (s.proposals.filter (matchesQuery q)) ∧
    (newestFirst (s.proposals.filter (matchesQuery q))).Pairwise
      (fun a b => b.createdAt ≤ a.createdAt) ∧
    ∃ data, getAllProposals s q =
        { status := 200, success := true, error := none, message := none, thrown := none,
          data := some data } ∧
      data.proposals =
        ((newestFirst (s.proposals.filter (matchesQuery q))).drop ((page - 1) * limit)).take
          limit ∧
      (∀ i, i < limit → data.proposals[i]? =
        (newestFirst (s.proposals.filter (matchesQuery q)))[(page - 1) * limit + i]?) ∧
      (∀ i, limit ≤ i → data.proposals[i]? = none) ∧
      data.proposals.length ≤ limit ∧
      data.pagination.page = page ∧ data.pagination.limit = limit ∧
      data.pagination.total = (newestFirst (s.proposals.filter (matchesQuery q))).length ∧
      data.pagination.pages = some ⌈((newestFirst (s.proposals.filter (matchesQuery q))).length : ℚ) /
        (limit : ℚ)⌉ ∧
      data.pagination.pages = some
        ((((newestFirst (s.proposals.filter (matchesQuery q))).length + limit - 1) / limit : Nat) :
          Int) ∧
      (List.range (((newestFirst (s.proposals.filter (matchesQuery q))).length + limit - 1) /
          limit)).flatMap (fun k => pageOf s q (k + 1)) =
        newestFirst (s.proposals.filter (matchesQuery q)) := by
  have hlen : (newestFirst (s.proposals.filter (matchesQuery q))).length =
      (s.proposals.filter (matchesQuery q)).length := (newestFirst_perm _).length_eq
  refine ⟨newestFirst_perm _, newestFirst_sorted _, _,
    getAllProposals_of_parse s q page limit hp hl hpage hlimit, rfl, ?_, ?_, ?_, rfl, rfl,
    hlen.symm, ?_, ?_, ?_⟩
  · intro i hi
    simp only [List.getElem?_take, List.getElem?_drop, if_pos hi]
  · intro i hi
    simp only [List.getElem?_take, if_neg (not_lt.mpr hi)]
  · simp only [List.length_take]
    exact Nat.min_le_left _ _
  · simp only [hlen, ceil_div_natCast _ limit hl]
  · simp only [hlen]
  · have hfun : (fun k => pageOf s q (k + 1)) = fun k =>
        ((newestFirst (s.proposals.filter (matchesQuery q))).drop (k * limit)).take limit := by
      funext k
      rw [pageOf_eq s q (k + 1) limit (Nat.succ_le_succ (Nat.zero_le k)) hl hlimit]
      rfl
    rw [hfun, flatMap_chunks]
    apply List.take_of_length_le
    have hdiv := Nat.div_add_mod
      ((newestFirst (s.proposals.filter (matchesQuery q))).length + limit - 1) limit
    have hmod := Nat.mod_lt
      ((newestFirst (s.proposals.filter (matchesQuery q))).length + limit - 1)
      (show limit > 0 from hl)
    set n := (newestFirst (s.proposals.filter (matchesQuery q))).length
    set c := (n + limit - 1) / limit
    have : limit * c = c * limit := Nat.mul_comm _ _
    omega

/-- An instance of `getAllProposals_pages`: page 2 of the two sample proposals,
one to a page, holds the older one, and two pages are reported. -/
theorem getAllProposals_pages_witness :
    ∃ data, getAllProposals twoProposalSystem secondPageQuery =
        { status := 200, success := true, error := none, message := none, thrown := none,
          data := some data } ∧
      data.proposals = [sampleProposal] ∧ data.pagination.pages = some 2 ∧
      data.pagination.total = 2 := by
  obtain ⟨data, h1, h2, -, -, -, -, -, h3, -, h4, -⟩ :=
    (getAllProposals_pages twoProposalSystem secondPageQuery 2 1 (by decide) (by decide)
      (by decide) (by decide)).2.2
  exact ⟨data, h1, by rw [h2]; decide, by rw [h4]; decide, by rw [h3]; decide⟩

/-! ## Synchronising, and the error middleware -/

/-- C25, on the state left by creating and then deleting proposal 12: the
ledger holds proposal 12 and the store holds nothing; `syncProposals` answers
500 (the document it builds fails the validation) and the store still holds
nothing. -/
theorem syncProposals_stores_nothing :
    unsyncedSystem.ledger.getAllProposals.map (·.id) = [.num 12] ∧
    unsyncedSystem.proposals = [] ∧
    (syncProposals unsyncedSystem).1.proposals = [] ∧
    (syncProposals unsyncedSystem).2.status = 500 ∧
    (syncProposals unsyncedSystem).2.thrown =
      some (.validationError "transactionHash, blockNumber, gasUsed") := by
  decide

/-- The answer of `errorHandler` to an error that matches no special case: the
status is the property `status` of the error when that is truthy and 500
otherwise, whatever `statusCode` holds. -/
theorem errorHandler_plain (development : Bool) (err : JsError) (h : err.plain = true) :
    errorHandler development err =
      .ok { status := if err.status.truthy then err.status else .num 500
            success := false
            error := if err.message ≠ "" then err.message else "Internal Server Error"
            stack := if development then some err.stack else none } := by
  simp only [JsError.plain, Bool.and_eq_true, decide_eq_true_eq, Bool.not_eq_true',
    ne_eq] at h
  obtain ⟨⟨⟨⟨⟨⟨⟨⟨⟨⟨h1, h2⟩, h3⟩, h4⟩, h5⟩, h6⟩, h7⟩, h8⟩, h9⟩, h10⟩, h11⟩ := h
  simp [errorHandler, h1, h2, h3, h4, h5, h6, h7, h8, h9, h10, h11]

/-- C29, for `new AppError('Not allowed', 403)`: the error matches no special
case, and `errorHandler` hands the text `fail` to `res.status`, not the number
403 kept in `statusCode`. -/
theorem errorHandler_ignores_statusCode :
    (AppError "Not allowed" (.num 403) "").plain = true ∧
    (AppError "Not allowed" (.num 403) "").statusCode = .num 403 ∧
    (errorHandler false (AppError "Not allowed" (.num 403) "")).toOption =
      some { status := .str "fail", success := false, error := "Not allowed", stack := none } := by
  decide

/-! ## The shape of the answers -/

theorem wellFormed_failure {α : Type} (status : Nat) (error : String) :
    (Response.failure status error : Response α).wellFormed = true := rfl

theorem wellFormed_caught {α : Type} (error : String) (e : Thrown) :
    (Response.caught error e : Response α).wellFormed = true := rfl

theorem wellFormed_ite {α : Type} (c : Prop) [Decidable c] (a b : Response α)
    (ha : a.wellFormed = true) (hb : b.wellFormed = true) :
    (if c then a else b).wellFormed = true := by
  split <;> assumption

theorem admission_error_wellFormed (s : System) (body : VoteBody) (r : Response VoteReceipt)
    (h : admission s body = .error r) : r.wellFormed = true := by
  unfold admission at h
  split at h
  · cases h; rfl
  · split at h
    · split at h <;> (cases h; rfl)
    · split at h
      · cases h; rfl
      · split at h
        · split at h
          · cases h; rfl
          · split at h
            · cases h; rfl
            · cases h
        · cases h; rfl

theorem castVote_wellFormed (s : System) (d : Draw) (body : VoteBody) :
    (castVote s d body).2.wellFormed = true := by
  cases hadm : admission s body with
  | error r =>
    rw [castVote_of_admission_error s d body r hadm]
    exact admission_error_wellFormed s body r hadm
  | ok pair =>
    obtain ⟨n, voter⟩ := pair
    cases hl : voteOnProposal s.ledger d body.proposalId body.voterAddress with
    | mk ledger outcome =>
      cases outcome with
      | error e =>
        rw [castVote_of_ledger_error s d body n voter ledger e hadm hl]
        rfl
      | ok result =>
        cases hsave : saveVote s.votes d n voter result with
        | error e =>
          rw [castVote_of_save_error s d body n voter ledger result e hadm hl hsave]
          rfl
        | ok votes =>
          rw [castVote_of_save_ok s d body n voter ledger result votes hadm hl hsave]
          rfl

theorem createProposal_wellFormed (s : System) (d : CreateDraw) (body : ProposalBody) :
    (createProposal s d body).2.wellFormed = true := by
  unfold createProposal
  split
  · rfl
  · dsimp only
    split
    · rfl
    · split <;> rfl

theorem updateProposal_wellFormed (s : System) (proposalId : String) (body : UpdateBody) :
    (updateProposal s proposalId body).2.wellFormed = true := by
  cases hn : parseIntString proposalId with
  | none =>
    simp only [updateProposal, hn]
    exact wellFormed_ite _ _ _ rfl rfl
  | some n =>
    cases hfind : s.proposals.find? (fun p => decide (p.proposalId = n)) with
    | none => simp [updateProposal, hn, hfind, Response.failure, Response.wellFormed]
    | some proposal =>
      cases hflag : (if body.isActive = .undefined then some proposal.isActive
          else castBoolean body.isActive) with
      | none =>
        by_cases h1 : body.title.truthy = true <;> by_cases h2 : body.description.truthy = true <;>
          simp [updateProposal, hn, hfind, h1, h2, hflag, Response.caught, Response.wellFormed]
      | some flag =>
        by_cases h1 : body.title.truthy = true <;> by_cases h2 : body.description.truthy = true
        all_goals
          simp only [updateProposal, hn, hfind, h1, h2, hflag, if_true, if_false,
            Bool.false_eq_true]
          split <;> rfl

theorem verifyVote_wellFormed (s : System) (voteId : String) :
    (verifyVote s voteId).2.wellFormed = true := by
  unfold verifyVote
  split
  · rfl
  · rfl
  · split <;> rfl

theorem syncProposals_wellFormed (s : System) : (syncProposals s).2.wellFormed = true := by
  unfold syncProposals
  split <;> rfl

theorem getAllProposals_wellFormed (s : System) (q : ListQuery) :
    (getAllProposals s q).wellFormed = true := by
  unfold getAllProposals
  dsimp only
  split
  · unfold proposalsPage
    split <;> rfl
  · rfl

/-- C24, as it holds: every answer of a handler of the three controllers
carries `success`, with `data` when it is true and an `error` text when it is
false, except that the answer of `deleteProposal` with `success` true carries
a `message` and no `data`. -/
theorem responses_carry_data_or_error :
    (∀ (s : System) (d : Draw) (body : VoteBody), (castVote s d body).2.wellFormed = true) ∧
    (∀ (s : System) (d : CreateDraw) (body : ProposalBody),
      (createProposal s d body).2.wellFormed = true) ∧
    (∀ (s : System) (proposalId : String) (body : UpdateBody),
      (updateProposal s proposalId body).2.wellFormed = true) ∧
    (∀ (s : System) (voteId : String), (verifyVote s voteId).2.wellFormed = true) ∧
    (∀ s : System, (syncProposals s).2.wellFormed = true) ∧
    (∀ (s : System) (proposalId : String),
      (if (deleteProposal s proposalId).2.success then
        (deleteProposal s proposalId).2.data.isNone &&
          decide ((deleteProposal s proposalId).2.message =
            some "Proposal deleted successfully")
      else (deleteProposal s proposalId).2.error.isSome) = true) ∧
    (∀ (s : System) (q : ListQuery), (getAllProposals s q).wellFormed = true) ∧
    (∀ (s : System) (proposalId : String), (getProposalById s proposalId).wellFormed = true) ∧
    (∀ (s : System) (proposalId : String), (getProposalStats s proposalId).wellFormed = true) ∧
    (∀ s : System, (getActiveProposals s).wellFormed = true) ∧
    (∀ (s : System) (now : Nat) (timeRange : JsValue),
      (getProposalAnalytics s now timeRange).wellFormed = true) ∧
    (∀ (s : System) (query : VoteBody), (checkUserVote s query).wellFormed = true) ∧
    (∀ (s : System) (proposalId voterAddress : String),
      (checkVoteStatus s proposalId voterAddress).wellFormed = true) ∧
    (∀ (s : System) (proposalId : String),
      (getVotesForProposal s proposalId).wellFormed = true) ∧
    (∀ (s : System) (voterAddress : String),
      (getVotesByVoter s voterAddress).wellFormed = true) ∧
    (∀ s : System, (getVotingStats s).wellFormed = true) ∧
    (∀ (s : System) (limit : JsValue), (getRecentVotes s limit).wellFormed = true) ∧
    (∀ (s : System) (now : Nat) (contractAddress timeRange : JsValue),
      (getVoteAnalytics s now contractAddress timeRange).wellFormed = true) ∧
    getContractInfo.wellFormed = true ∧
    (∀ s : System, (getContractStats s).wellFormed = true) ∧
    getContractABI.wellFormed = true ∧
    getContractHealth.wellFormed = true := by
  refine ⟨castVote_wellFormed, createProposal_wellFormed, updateProposal_wellFormed,
    verifyVote_wellFormed, syncProposals_wellFormed, ?_, getAllProposals_wellFormed,
    ?_, ?_, ?_, ?_, ?_, ?_, ?_, ?_, ?_, ?_, ?_, rfl, ?_, rfl, rfl⟩
  · intro s proposalId
    cases hn : parseIntString proposalId with
    | none =>
      by_cases ho : parseIntStringOverflows proposalId = true <;>
        simp [deleteProposal, hn, ho, Response.caught, Response.failure]
    | some n =>
      cases hfind : s.proposals.find? (fun p => decide (p.proposalId = n)) with
      | none => simp [deleteProposal, hn, hfind, Response.failure]
      | some p => simp [deleteProposal, hn, hfind]
  · intro s proposalId
    unfold getProposalById
    split
    · exact wellFormed_ite _ _ _ rfl rfl
    · split <;> rfl
  · intro s proposalId
    unfold getProposalStats
    split
    · exact wellFormed_ite _ _ _ rfl rfl
    · split <;> rfl
  · intro s
    rfl
  · intro s now timeRange
    rfl
  · intro s query
    unfold checkUserVote
    split
    · rfl
    · split
      · split
        · exact wellFormed_ite _ _ _ rfl rfl
        · rfl
      · rfl
  · intro s proposalId voterAddress
    unfold checkVoteStatus
    split
    · exact wellFormed_ite _ _ _ rfl rfl
    · rfl
  · intro s proposalId
    unfold getVotesForProposal
    split
    · exact wellFormed_ite _ _ _ rfl rfl
    · rfl
  · intro s voterAddress
    rfl
  · intro s
    rfl
  · intro s limit
    unfold getRecentVotes
    split
    · rfl
    · split <;> rfl
  · intro s now contractAddress timeRange
    unfold getVoteAnalytics
    exact wellFormed_ite _ _ _ rfl rfl
  · intro s
    rfl

/-- C24 fails for `deleteProposal`: deleting the sample proposal answers with
`success` true and without `data`. -/
theorem deleteProposal_answer_without_data :
    (deleteProposal sampleSystem "12").2.success = true ∧
    (deleteProposal sampleSystem "12").2.data = none ∧
    (deleteProposal sampleSystem "12").2.wellFormed = false := by
  decide

end Voting
